import Mathlib

/-!
# The Suscan registry of SigDigger (`Suscan/Library.cpp`)

A shallow embedding of the `Suscan::Singleton` registry: its bookmark map, its
spectrum-unit map, its profiles, devices and network profiles, its list of
recently used profiles, the initialization of the native subsystems, and the way
it loads from and flushes to the persistent configuration store; and of three
pieces of the configuration dialog (`Components/ConfigDialog.cpp`): the device
handler, the default name of a saved profile and the selection of a sample rate.

Conventions of the embedding:

* `QMap<K, V>` is a list of key/value pairs kept strictly ascending by key
  (`QMap`); `operator[]`, `find`, `remove` and `keys` are the functions of the
  same name.
* `qint64`, `int` and `unsigned int` are `Int`/`Nat`; the one narrowing cast of
  the registry, `static_cast<unsigned>(bm.entry)`, is `toUnsigned`.
* `float` payloads of spectrum units are stored and returned untouched by the
  registry; they are rationals here (`SUFLOAT`).
* a `double` on which the code computes (`qreal`) is a `QReal`: a rational, an
  infinity or a NaN, with the results of arithmetic rounded as IEEE 754 binary64
  does in its default mode (`roundBinary64`).
* a method that mutates the registry takes the `Singleton` and returns the new
  one; a method that opens a `ConfigContext` also takes and returns the `Store`.
* the native library is a record of answers (`Native`); a method that runs
  `SU_ATTEMPT` returns an `Outcome`: the registry it leaves, whether it threw, and
  the native calls it made.
* conversions between text and numbers done by the C library and Qt are the
  fields of a `TextConv`.
* a loop whose number of rounds is not bounded by the length of a list takes the
  number of rounds allowed as its first argument and returns `none` when these
  do not reach its end.
-/

namespace Suscan

/-! ## QMap -/

/-- Key types of a `QMap`: a linear order with a Boolean test of `<` that
evaluates by structural recursion. -/
class QKey (κ : Type) [LinearOrder κ] where
  /-- Boolean test of the order -/
  ltb : κ → κ → Bool
  /-- The test decides the order -/
  ltb_iff : ∀ a b : κ, ltb a b = true ↔ a < b

instance instQKeyInt : QKey Int where
  ltb a b := decide (a < b)
  ltb_iff a b := by simp

instance instQKeyString : QKey String where
  ltb a b := decide (a.data < b.data)
  ltb_iff a b := by
    rw [String.lt_iff_toList_lt]
    simp [String.toList]

/-- Test of key equality through the order: neither key is below the other. -/
def keyEq {κ : Type} [LinearOrder κ] [QKey κ] (a b : κ) : Bool :=
  !(QKey.ltb a b) && !(QKey.ltb b a)

/-- Lookup of a key in the pairs of a map. -/
def findEntries {κ ν : Type} [LinearOrder κ] [QKey κ] (k : κ) : List (κ × ν) → Option ν
  | [] => none
  | (k1, v1) :: rest => if keyEq k1 k then some v1 else findEntries k rest

/-- Ordered insertion of a pair: the value of an equal key is overwritten. -/
def insertEntries {κ ν : Type} [LinearOrder κ] [QKey κ] (k : κ) (v : ν) :
    List (κ × ν) → List (κ × ν)
  | [] => [(k, v)]
  | (k1, v1) :: rest =>
    if QKey.ltb k k1 then (k, v) :: (k1, v1) :: rest
    else if QKey.ltb k1 k then (k1, v1) :: insertEntries k v rest
    else (k, v) :: rest

/-- Removal of every pair with the given key. -/
def removeEntries {κ ν : Type} [LinearOrder κ] [QKey κ] (k : κ) (l : List (κ × ν)) :
    List (κ × ν) :=
  l.filter (fun e => !(keyEq e.1 k))

/-- The Qt `QMap<K, V>`: pairs in strictly ascending key order, hence at most one per key. -/
structure QMap (κ ν : Type) [LinearOrder κ] where
  /-- The pairs, in iteration order -/
  entries : List (κ × ν)
  /-- Keys ascend strictly -/
  ascending : entries.Pairwise (fun a b => a.1 < b.1)

theorem mem_insertEntries {κ ν : Type} [LinearOrder κ] [QKey κ] (k : κ) (v : ν)
    (l : List (κ × ν)) (e : κ × ν) (h : e ∈ insertEntries k v l) : e = (k, v) ∨ e ∈ l := by
  induction l with
  | nil => simpa [insertEntries] using h
  | cons hd tl ih =>
    obtain ⟨k1, v1⟩ := hd
    unfold insertEntries at h
    split at h
    · rcases List.mem_cons.1 h with h | h
      · exact Or.inl h
      · exact Or.inr h
    · split at h
      · rcases List.mem_cons.1 h with h | h
        · exact Or.inr (h ▸ List.mem_cons_self _ _)
        · rcases ih h with h | h
          · exact Or.inl h
          · exact Or.inr (List.mem_cons_of_mem _ h)
      · rcases List.mem_cons.1 h with h | h
        · exact Or.inl h
        · exact Or.inr (List.mem_cons_of_mem _ h)

theorem insertEntries_ascending {κ ν : Type} [LinearOrder κ] [QKey κ] (k : κ) (v : ν)
    (l : List (κ × ν)) (h : l.Pairwise (fun a b => a.1 < b.1)) :
    (insertEntries k v l).Pairwise (fun a b => a.1 < b.1) := by
  induction l with
  | nil => simp [insertEntries]
  | cons hd tl ih =>
    obtain ⟨k1, v1⟩ := hd
    have htl := (List.pairwise_cons.1 h).2
    have hhd := (List.pairwise_cons.1 h).1
    unfold insertEntries
    split
    · rename_i hlt
      have hk : k < k1 := (QKey.ltb_iff k k1).1 hlt
      refine List.pairwise_cons.2 ⟨?_, h⟩
      intro e he
      rcases List.mem_cons.1 he with he | he
      · simpa [he] using hk
      · exact lt_trans hk (hhd e he)
    · split
      · rename_i hlt
        have hk : k1 < k := (QKey.ltb_iff k1 k).1 hlt
        refine List.pairwise_cons.2 ⟨?_, ih htl⟩
        intro e he
        rcases mem_insertEntries k v tl e he with he | he
        · simpa [he] using hk
        · exact hhd e he
      · rename_i h1 h2
        have hkk : k = k1 := by
          have n1 : ¬ k < k1 := fun h => h1 ((QKey.ltb_iff k k1).2 h)
          have n2 : ¬ k1 < k := fun h => h2 ((QKey.ltb_iff k1 k).2 h)
          exact le_antisymm (not_lt.1 n2) (not_lt.1 n1)
        refine List.pairwise_cons.2 ⟨?_, htl⟩
        intro e he
        simpa [hkk] using hhd e he

theorem removeEntries_ascending {κ ν : Type} [LinearOrder κ] [QKey κ] (k : κ)
    (l : List (κ × ν)) (h : l.Pairwise (fun a b => a.1 < b.1)) :
    (removeEntries k l).Pairwise (fun a b => a.1 < b.1) :=
  List.Pairwise.filter _ h

namespace QMap

variable {κ ν : Type} [LinearOrder κ] [QKey κ]

/-- The empty map. -/
def empty : QMap κ ν := ⟨[], List.Pairwise.nil⟩

/-- The test `QMap::find(k) != end()` together with the value found. -/
def find (m : QMap κ ν) (k : κ) : Option ν := findEntries k m.entries

/-- Assignment `m[k] = v`: insert, or overwrite the value stored at `k`. -/
def insert (m : QMap κ ν) (k : κ) (v : ν) : QMap κ ν :=
  ⟨insertEntries k v m.entries, insertEntries_ascending k v m.entries m.ascending⟩

/-- Removal `QMap::remove(k)`. -/
def remove (m : QMap κ ν) (k : κ) : QMap κ ν :=
  ⟨removeEntries k m.entries, removeEntries_ascending k m.entries m.ascending⟩

/-- Listing `QMap::keys()`: the keys in ascending order. -/
def keys (m : QMap κ ν) : List κ := m.entries.map Prod.fst

/-- The non-const `m[k]` read as an rvalue: a missing key is first inserted with
a default-constructed value. Returns the map afterwards and the value. -/
def index [Inhabited ν] (m : QMap κ ν) (k : κ) : QMap κ ν × ν :=
  match m.find k with
  | some v => (m, v)
  | none => (m.insert k default, default)

end QMap

/-! ## Objects and the persistent configuration store -/

/-- Value handed to `Object::set(name, value)`, one constructor per overload the
registry calls: a string, an `int`, and a `double` obtained from a `qint64` by
`static_cast<double>` (kept as the integer that was cast). -/
inductive FieldValue where
  | str (s : String)
  | int (v : Int)
  | real (v : Int)
  deriving DecidableEq, Repr

/-- Content of a `suscan_object_t` as far as the registry looks into it: a
FIELD with its value, an OBJECT with its named fields, or anything else (a
null object or a nested SET, told apart by a tag). -/
inductive ObjectData where
  | field (value : String)
  | object (fields : List (String × FieldValue))
  | other (tag : Nat)
  deriving DecidableEq, Repr

/-- The C++ wrapper `Suscan::Object`: the content and the wrapper's
borrowed flag (`isBorrowed()`). -/
structure Object where
  /-- Content of the wrapped native object -/
  data : ObjectData
  /-- Whether the native object belongs to somebody else -/
  borrowed : Bool := false
  deriving DecidableEq, Repr

/-- Modelled from the spec: `Object::set(name, value)` (Suscan/Object.cpp is not part
of the sources), the "set-field" of a structured record: the field gets the value,
taking the place of an earlier field of that name. -/
def ObjectData.set (o : ObjectData) (name : String) (v : FieldValue) : ObjectData :=
  match o with
  | .object fields => .object (fields.filter (fun f => f.1 ≠ name) ++ [(name, v)])
  | .field value => .field value
  | .other tag => .other tag

/-- Modelled from the spec: `Object::append` (Suscan/Object.cpp is not part of the
sources), the "append" of the persistent store's ordered list of records. -/
def listAppend (list : List ObjectData) (o : ObjectData) : List ObjectData :=
  list ++ [o]

/-- Modelled from the spec: `Object::remove(index)` (Suscan/Object.cpp is not part
of the sources), the "remove-by-index" of the persistent store's ordered list of
records: the record at that index is taken out of the list. -/
def listRemove (list : List ObjectData) (index : Nat) : List ObjectData :=
  list.eraseIdx index

/-- Modelled from the spec: `Object::put(object, index)` (Suscan/Object.cpp is not
part of the sources), the "put-by-index" of the persistent store; "attempting to
overwrite an out-of-range persisted index" fails (the caller then appends). -/
def listPut (list : List ObjectData) (o : ObjectData) (index : Nat) :
    Option (List ObjectData) :=
  if index < list.length then some (list.set index o) else none

/-- The persistent configuration store: one ordered list of records per named
`ConfigContext`. -/
structure Store where
  /-- Context "bookmarks" -/
  bookmarks : List ObjectData := []
  /-- Context "recent" -/
  recent : List ObjectData := []
  /-- Context "uiconfig" -/
  uiconfig : List ObjectData := []
  /-- Context "palettes" -/
  palettes : List ObjectData := []
  /-- Context "autogains" -/
  autogains : List ObjectData := []
  /-- Context "frequency_allocations" -/
  frequency_allocations : List ObjectData := []
  deriving DecidableEq, Repr

/-! ## The registry -/

/-- The cast `static_cast<unsigned>(v)` of a 32-bit `int`. -/
def toUnsigned (v : Int) : Nat := (v % 4294967296).toNat

/-- Modelled from the spec: `BookmarkInfo` is declared in Suscan/Library.h, which is
not part of the sources; the fields are those the registry reads and writes
("frequency (key), name, color, optional modulation + low/high frequency cut").
A `QColor` is kept by its name, the only thing the registry reads of it. -/
structure BookmarkInfo where
  /-- Field `name` -/
  name : String := ""
  /-- Field `frequency` (qint64) -/
  frequency : Int := 0
  /-- Field `color`, as `QColor::name()` -/
  color : String := ""
  /-- Field `lowFreqCut` -/
  lowFreqCut : Int := 0
  /-- Field `highFreqCut` -/
  highFreqCut : Int := 0
  /-- Field `modulation` -/
  modulation : String := ""
  deriving DecidableEq, Repr

/-- Modelled from the spec: `Bookmark` is declared in Suscan/Library.h, which is not
part of the sources; a default-constructed bookmark has `entry = -1`
("persistence-entry index (−1 = new, not yet persisted)"). -/
structure Bookmark where
  /-- Field `info` -/
  info : BookmarkInfo := {}
  /-- Index of the record in the persisted list, or -1 -/
  entry : Int := -1
  deriving DecidableEq, Repr

instance instInhabitedBookmark : Inhabited Bookmark := ⟨{}⟩

/-- A `float` payload of the registry. -/
abbrev SUFLOAT := ℚ

/-- Modelled from the spec: `SpectrumUnit` is declared in Suscan/Library.h, which is
not part of the sources ("name (key), dB-per-unit scale factor, zero-point
offset"). -/
structure SpectrumUnit where
  /-- Field `name` -/
  name : String := ""
  /-- Field `dBPerUnit` -/
  dBPerUnit : SUFLOAT := 0
  /-- Field `zeroPoint` -/
  zeroPoint : SUFLOAT := 0
  deriving DecidableEq, Repr

/-- Modelled from the spec: `Suscan::Source::Device` is declared in Suscan/Source.h,
which is not part of the sources ("description, driver id, remote flag, ...,
antenna list"; an immutable snapshot from enumeration). -/
structure Device where
  /-- Result of `getDesc()` -/
  desc : String := ""
  /-- Result of `getDriver()` -/
  driver : String := ""
  /-- Result of `isRemote()` -/
  remote : Bool := false
  /-- The antennas from `getFirstAntenna()` to `getLastAntenna()` -/
  antennas : List String := []
  deriving DecidableEq, Repr

/-- Modelled from the spec: `Suscan::Source::Config` is declared in Suscan/Source.h,
which is not part of the sources: a profile with its label ("unique key"), its
device binding, its antenna, its bandwidth and its string parameters. -/
structure Config where
  /-- Result of `label()` -/
  label : String := ""
  /-- Result of `getDevice()` -/
  device : Device := {}
  /-- Result of `getAntenna()` -/
  antenna : String := ""
  /-- Value given to `setBandwidth` -/
  bandwidth : SUFLOAT := 0
  /-- Values given to `setParam` -/
  params : List (String × String) := []
  deriving DecidableEq, Repr

instance instInhabitedConfig : Inhabited Config := ⟨{}⟩

/-- A `suscan_source_config_t` handed to a walk callback: what
`suscan_source_config_get_label` returns for it (`none` for a null pointer) and
the `Suscan::Source::Config` that wraps it or its clone. -/
structure NativeConfig where
  /-- Label pointer of the native config -/
  label : Option String
  /-- The C++ wrapper of the native config -/
  config : Config
  deriving DecidableEq, Repr

/-- Calls into the native library that the registry makes. -/
inductive NativeCall where
  | codec_class_register_builtin
  | init_sources
  | source_config_walk
  | source_device_walk
  | init_estimators
  | init_spectsrcs
  | init_inspectors
  | source_config_register (instance_ : Config)
  | discovered_remote_device_walk
  deriving DecidableEq, Repr

/-- What the native library answers: the result of each fallible call (true for
`SU_TRUE`) and the items each walk hands to its callback, in order. -/
structure Native where
  /-- Result of `suscan_codec_class_register_builtin()` -/
  codec_class_register_builtin : Bool := true
  /-- Result of `suscan_init_sources()` -/
  init_sources : Bool := true
  /-- Result of `suscan_init_estimators()` -/
  init_estimators : Bool := true
  /-- Result of `suscan_init_spectsrcs()` -/
  init_spectsrcs : Bool := true
  /-- Result of `suscan_init_inspectors()` -/
  init_inspectors : Bool := true
  /-- Result of `suscan_source_config_register()` -/
  source_config_register : Bool := true
  /-- Configs delivered by `suscan_source_config_walk` -/
  source_config_walk : List NativeConfig := []
  /-- Devices delivered by `suscan_source_device_walk` -/
  source_device_walk : List Device := []
  /-- Configs delivered by `suscan_discovered_remote_device_walk` -/
  discovered_remote_device_walk : List NativeConfig := []

/-- State of `Suscan::Singleton` (the members the registry operations below touch). -/
structure Singleton where
  /-- Member `codecs_initd` -/
  codecs_initd : Bool := false
  /-- Member `sources_initd` -/
  sources_initd : Bool := false
  /-- Member `estimators_initd` -/
  estimators_initd : Bool := false
  /-- Member `spectrum_sources_initd` -/
  spectrum_sources_initd : Bool := false
  /-- Member `inspectors_initd` -/
  inspectors_initd : Bool := false
  /-- Member `palettes` -/
  palettes : List Object := []
  /-- Member `autoGains` -/
  autoGains : List Object := []
  /-- Member `FATs` -/
  FATs : List Object := []
  /-- Member `uiConfig` -/
  uiConfig : List Object := []
  /-- Member `recentProfiles` (std::list) -/
  recentProfiles : List String := []
  /-- Member `bookmarks` -/
  bookmarks : QMap Int Bookmark := QMap.empty
  /-- Member `spectrumUnits` -/
  spectrumUnits : QMap String SpectrumUnit := QMap.empty
  /-- Member `profiles` (a `std::map<std::string, Config>`) -/
  profiles : QMap String Config := QMap.empty
  /-- Member `devices` (a `std::vector<Device>`) -/
  devices : List Device := []
  /-- Member `networkProfiles` (a `QHash<QString, Config>`; its lookups and its keys
  are those of a map, the iteration order of the hash table is not modelled) -/
  networkProfiles : QMap String Config := QMap.empty

/-- Method `Singleton::registerSpectrumUnit`. -/
def Singleton.registerSpectrumUnit (s : Singleton) (name : String)
    (dBPerUnit zeroPoint : SUFLOAT) : Singleton × Bool :=
  if (s.spectrumUnits.find name).isSome then
    (s, false)
  else
    let su : SpectrumUnit := { name := name, dBPerUnit := dBPerUnit, zeroPoint := zeroPoint }
    ({ s with spectrumUnits := s.spectrumUnits.insert name su }, true)

/-- The constructor `Singleton::Singleton()`. The zero point of "mag (AB)" is
`-2.5f * SU_LOG(3631.f)`, a floating-point computation with a macro of the native
library; its value is the argument. -/
def Singleton.construct (magABZeroPoint : SUFLOAT) : Singleton :=
  let s0 : Singleton :=
    { codecs_initd := false, sources_initd := false, estimators_initd := false,
      spectrum_sources_initd := false, inspectors_initd := false }
  let s1 := (s0.registerSpectrumUnit "dBFS" 1 0).1
  let s2 := (s1.registerSpectrumUnit "dBK" 1 (-2286 / 10)).1
  let s3 := (s2.registerSpectrumUnit "dBW/Hz" 1 0).1
  let s4 := (s3.registerSpectrumUnit "dBm/Hz" 1 (-30)).1
  let s5 := (s4.registerSpectrumUnit "dBJy" 1 0).1
  (s5.registerSpectrumUnit "mag (AB)" (-4) magABZeroPoint).1

/-- Method `Singleton::registerBookmark`. -/
def Singleton.registerBookmark (s : Singleton) (info : BookmarkInfo) : Singleton × Bool :=
  if (s.bookmarks.find info.frequency).isSome then
    (s, false)
  else
    let bm : Bookmark := { (default : Bookmark) with info := info }
    ({ s with bookmarks := s.bookmarks.insert info.frequency bm }, true)

/-- Method `Singleton::removeBookmark`. -/
def Singleton.removeBookmark (s : Singleton) (st : Store) (freq : Int) : Singleton × Store :=
  if (s.bookmarks.find freq).isSome then
    let r := s.bookmarks.index freq
    let bm := r.2
    let s1 := { s with bookmarks := r.1.remove freq }
    if bm.entry ≠ -1 then
      (s1, { st with bookmarks := listRemove st.bookmarks (toUnsigned bm.entry) })
    else
      (s1, st)
  else
    (s, st)

/-- Method `Singleton::replaceBookmark`. -/
def Singleton.replaceBookmark (s : Singleton) (st : Store) (info : BookmarkInfo) :
    Singleton × Store :=
  let bm : Bookmark := { (default : Bookmark) with info := info }
  let r := s.removeBookmark st info.frequency
  ({ r.1 with bookmarks := r.1.bookmarks.insert info.frequency bm }, r.2)

/-- The record `syncBookmarks` builds for a bookmark. -/
def bookmarkObject (info : BookmarkInfo) : ObjectData :=
  let obj := ObjectData.object []
  let obj := obj.set "name" (.str info.name)
  let obj := obj.set "frequency" (.real info.frequency)
  let obj := obj.set "color" (.str info.color)
  let obj := obj.set "low_freq_cut" (.int info.lowFreqCut)
  let obj := obj.set "high_freq_cut" (.int info.highFreqCut)
  obj.set "modulation" (.str info.modulation)

/-- One round of the loop of `syncBookmarks`, at key `p`: the bookmark map and
the persisted list before and after. -/
def syncBookmarksStep (acc : QMap Int Bookmark × List ObjectData) (p : Int) :
    QMap Int Bookmark × List ObjectData :=
  let r := acc.1.index p
  if r.2.entry = -1 then
    let r2 := r.1.index p
    (r2.1, listAppend acc.2 (bookmarkObject r2.2.info))
  else
    (r.1, acc.2)

/-- Method `Singleton::syncBookmarks`. The `catch` of the loop body is for a
failed allocation in the native library, which is left out. -/
def Singleton.syncBookmarks (s : Singleton) (st : Store) : Singleton × Store :=
  let r := s.bookmarks.keys.foldl syncBookmarksStep (s.bookmarks, st.bookmarks)
  ({ s with bookmarks := r.1 }, { st with bookmarks := r.2 })

/-- Method `Singleton::syncRecent`. -/
def Singleton.syncRecent (s : Singleton) (st : Store) : Singleton × Store :=
  (s, { st with recent := s.recentProfiles.foldl (fun l p => listAppend l (.field p)) [] })

/-- One round of the loop of `syncUI`, at index `i`. -/
def syncUIStep (uiConfig : List Object) (list : List ObjectData) (i : Nat) :
    List ObjectData :=
  match uiConfig.get? i with
  | none => list
  | some o =>
    if !o.borrowed then
      match listPut list o.data i with
      | some l => l
      | none => listAppend list o.data
    else list

/-- Method `Singleton::syncUI`. -/
def Singleton.syncUI (s : Singleton) (st : Store) : Singleton × Store :=
  (s, { st with
    uiconfig := (List.range s.uiConfig.length).foldl (syncUIStep s.uiConfig) st.uiconfig })

/-- Method `Singleton::sync`. -/
def Singleton.sync (s : Singleton) (st : Store) : Singleton × Store :=
  let r1 := s.syncRecent st
  let r2 := r1.1.syncUI r1.2
  r2.1.syncBookmarks r2.2

/-! ## The list of recently used profiles

`recentProfiles` is a `std::list<std::string>`. An iterator into a list of `len`
elements is a position `0 .. len`: position `i < len` is the node of the `i`-th
element and `len` is the past-the-end node returned by `end()`. The nodes form
a ring through the past-the-end node, as in the implementations of the standard
library: `--` on the first node gives the past-the-end node and `++` on the
past-the-end node gives the first node. `removeRecent` relies on this when the
element it erases is the first one (`--current` on `begin()`).
-/

/-- Increment `++p` of a list iterator. -/
def listIterNext (len p : Nat) : Nat := if p < len then p + 1 else 0

/-- Decrement `--p` of a list iterator. -/
def listIterPrev (len p : Nat) : Nat := if p = 0 then len else p - 1

/-- Position, after `erase` of the node at position `i`, of the node that was at
position `p` (with `p ≠ i`): the nodes behind the erased one move up by one. -/
def listIterAfterErase (i p : Nat) : Nat := if i < p then p - 1 else p

/-- The loop of `Singleton::removeRecent`: the list, the iterator `p` and `found`
at the loop test; `none` when the rounds allowed by the first argument do not
reach the end of the loop. -/
def removeRecentLoop (name : String) : Nat → List String → Nat → Bool →
    Option (List String × Bool)
  | 0, _, _, _ => none
  | fuel + 1, l, p, found =>
    if p = l.length then
      some (l, found)
    else if l.get? p = some name then
      let current := listIterPrev l.length p
      let l1 := l.eraseIdx p
      let p1 := listIterAfterErase p current
      removeRecentLoop name fuel l1 (listIterNext l1.length p1) true
    else
      removeRecentLoop name fuel l (listIterNext l.length p) found

/-- Method `Singleton::removeRecent`; the loop is given one round per element
and one for the final test. -/
def Singleton.removeRecent (s : Singleton) (name : String) : Option (Singleton × Bool) :=
  match removeRecentLoop name (s.recentProfiles.length + 1) s.recentProfiles 0 false with
  | none => none
  | some r => some ({ s with recentProfiles := r.1 }, r.2)

/-- Method `Singleton::notifyRecent`. -/
def Singleton.notifyRecent (s : Singleton) (name : String) : Option (Singleton × Bool) :=
  match s.removeRecent name with
  | none => none
  | some r => some ({ r.1 with recentProfiles := name :: r.1.recentProfiles }, r.2)

/-- Method `Singleton::clearRecent`. -/
def Singleton.clearRecent (s : Singleton) : Singleton :=
  { s with recentProfiles := [] }

/-- One round of the loop of `init_recent_list`, at the persisted record `o`. -/
def initRecentStep (recent : List String) (o : ObjectData) : List String :=
  match o with
  | .field value => recent ++ [value]
  | .object _ => recent
  | .other _ => recent

/-- The values of the FIELD records of a persisted list, in list order. -/
def recentFieldValues (list : List ObjectData) : List String :=
  list.filterMap (fun o =>
    match o with
    | .field value => some value
    | .object _ => none
    | .other _ => none)

/-- Method `Singleton::init_recent_list`. -/
def Singleton.init_recent_list (s : Singleton) (st : Store) : Singleton :=
  { s with recentProfiles := st.recent.foldl initRecentStep s.recentProfiles }

/-! ## Initialization of the native subsystems, profiles and devices -/

/-- How a method that runs `SU_ATTEMPT` ends: the registry it leaves, whether it
ended by throwing `Suscan::Exception`, and the native calls it made, in order.
Modelled from the spec: the macro `SU_ATTEMPT` (not part of the sources) throws
when the native call it wraps reports failure. -/
structure Outcome where
  /-- The registry when the method ends or throws -/
  state : Singleton
  /-- Whether the method threw -/
  thrown : Bool := false
  /-- The native calls made -/
  calls : List NativeCall := []

/-- Method `Singleton::init_codecs`. -/
def Singleton.init_codecs (s : Singleton) (nat : Native) : Outcome :=
  if !s.codecs_initd then
    if nat.codec_class_register_builtin then
      { state := s, calls := [.codec_class_register_builtin] }
    else
      { state := s, thrown := true, calls := [.codec_class_register_builtin] }
  else
    { state := s }

/-- Method `Singleton::registerSourceConfig`, the body of `walk_all_sources`. -/
def Singleton.registerSourceConfig (s : Singleton) (config : NativeConfig) : Singleton :=
  let label := match config.label with
    | none => "(Null profile)"
    | some l => l
  { s with profiles := s.profiles.insert label config.config }

/-- Method `Singleton::registerSourceDevice`, the body of `walk_all_devices`. -/
def Singleton.registerSourceDevice (s : Singleton) (dev : Device) : Singleton :=
  { s with devices := s.devices ++ [dev] }

/-- Method `Singleton::registerNetworkProfile`, the body of
`walk_all_remote_devices`; `QString(nullptr)` is the empty string. -/
def Singleton.registerNetworkProfile (s : Singleton) (config : NativeConfig) : Singleton :=
  let name := match config.label with
    | none => ""
    | some l => l
  { s with networkProfiles := s.networkProfiles.insert name config.config }

/-- Method `Singleton::init_sources`. Each walk calls its callback once per item;
the callbacks return `SU_TRUE`, so no walk stops early. -/
def Singleton.init_sources (s : Singleton) (nat : Native) : Outcome :=
  if !s.sources_initd then
    if nat.init_sources then
      let s1 := nat.source_config_walk.foldl Singleton.registerSourceConfig s
      let s2 := nat.source_device_walk.foldl Singleton.registerSourceDevice s1
      { state := { s2 with sources_initd := true },
        calls := [.init_sources, .source_config_walk, .source_device_walk] }
    else
      { state := s, thrown := true, calls := [.init_sources] }
  else
    { state := s }

/-- Method `Singleton::init_estimators`. -/
def Singleton.init_estimators (s : Singleton) (nat : Native) : Outcome :=
  if !s.estimators_initd then
    if nat.init_estimators then
      { state := { s with estimators_initd := true }, calls := [.init_estimators] }
    else
      { state := s, thrown := true, calls := [.init_estimators] }
  else
    { state := s }

/-- Method `Singleton::init_spectrum_sources`. -/
def Singleton.init_spectrum_sources (s : Singleton) (nat : Native) : Outcome :=
  if !s.spectrum_sources_initd then
    if nat.init_spectsrcs then
      { state := { s with spectrum_sources_initd := true }, calls := [.init_spectsrcs] }
    else
      { state := s, thrown := true, calls := [.init_spectsrcs] }
  else
    { state := s }

/-- Method `Singleton::init_inspectors`. -/
def Singleton.init_inspectors (s : Singleton) (nat : Native) : Outcome :=
  if !s.inspectors_initd then
    if nat.init_inspectors then
      { state := { s with inspectors_initd := true }, calls := [.init_inspectors] }
    else
      { state := s, thrown := true, calls := [.init_inspectors] }
  else
    { state := s }

/-- Method `Singleton::refreshDevices`. -/
def Singleton.refreshDevices (s : Singleton) (nat : Native) : Singleton :=
  let s1 := { s with devices := [] }
  nat.source_device_walk.foldl Singleton.registerSourceDevice s1

/-- Method `Singleton::refreshNetworkProfiles`. -/
def Singleton.refreshNetworkProfiles (s : Singleton) (nat : Native) : Singleton :=
  let s1 := { s with networkProfiles := QMap.empty }
  nat.discovered_remote_device_walk.foldl Singleton.registerNetworkProfile s1

/-- Method `Singleton::getDeviceAt`; `none` is the null pointer. -/
def Singleton.getDeviceAt (s : Singleton) (index : Nat) : Option Device :=
  if index < s.devices.length then s.devices.get? index else none

/-- Method `Singleton::getProfile`; `none` is the null pointer, and the registry
is returned too because the method reads through the non-const `profiles[name]`. -/
def Singleton.getProfile (s : Singleton) (name : String) : Singleton × Option Config :=
  if (s.profiles.find name).isNone then
    (s, none)
  else
    let r := s.profiles.index name
    ({ s with profiles := r.1 }, some r.2)

/-- Method `Singleton::saveProfile`. -/
def Singleton.saveProfile (s : Singleton) (nat : Native) (profile : Config) : Outcome :=
  let s1 := { s with profiles := s.profiles.insert profile.label profile }
  let r := s1.profiles.index profile.label
  let s2 := { s1 with profiles := r.1 }
  if nat.source_config_register then
    { state := s2, calls := [.source_config_register r.2] }
  else
    { state := s2, thrown := true, calls := [.source_config_register r.2] }

/-! ## Loading from the persistent store -/

/-- Conversions between text and values that the C library and Qt perform for the
registry; they are not part of the sources and are taken as given. -/
structure TextConv where
  /-- Text that the store keeps for a field set from an `int` -/
  intText : Int → String
  /-- Text that the store keeps for a field set from a `double` -/
  realText : Int → String
  /-- Scan `sscanf(text, "%lg", &freq) == 1` followed by `static_cast<qint64>(freq)`;
  `none` when the scan fails -/
  scanReal : String → Option Int
  /-- Scan `sscanf(text, "%d", &value)`; `none` when the scan leaves the value alone -/
  scanInt : String → Option Int
  /-- Name of the color `QColor(QString)` makes of a text -/
  colorName : String → String

/-- Modelled from the spec: `Object::value()` (Suscan/Object.cpp is not part of the
sources), the text of a field. -/
def FieldValue.value (tc : TextConv) : FieldValue → String
  | .str s => s
  | .int v => tc.intText v
  | .real v => tc.realText v

/-- Modelled from the spec: `Object::getField(name)` (Suscan/Object.cpp is not part
of the sources), the "get-field" of a structured record; `none` stands for the
`Suscan::Exception` thrown when the record has no such field. -/
def ObjectData.getField (o : ObjectData) (name : String) : Option FieldValue :=
  match o with
  | .object fields => (fields.find? (fun f => f.1 = name)).map Prod.snd
  | .field _ => none
  | .other _ => none

/-- Modelled from the spec: `Object::operator[]` on a list of the store
(Suscan/Object.cpp is not part of the sources) hands out a wrapper of the record
that does not own it. -/
def listAt (o : ObjectData) : Object := { data := o, borrowed := true }

/-- The loop shared, text for text, by `haveAutoGain`, `haveFAT` and `havePalette`:
whether a member of the vector has the given text in its field "name". A member
without that field throws inside the `try` and is passed over. -/
def haveNamed (tc : TextConv) (objects : List Object) (name : String) : Bool :=
  objects.any (fun p =>
    match p.data.getField "name" with
    | some v => v.value tc == name
    | none => false)

/-- Method `Singleton::haveAutoGain`. -/
def Singleton.haveAutoGain (tc : TextConv) (s : Singleton) (name : String) : Bool :=
  haveNamed tc s.autoGains name

/-- Method `Singleton::haveFAT`. -/
def Singleton.haveFAT (tc : TextConv) (s : Singleton) (name : String) : Bool :=
  haveNamed tc s.FATs name

/-- Method `Singleton::havePalette`. -/
def Singleton.havePalette (tc : TextConv) (s : Singleton) (name : String) : Bool :=
  haveNamed tc s.palettes name

/-- One round of the loop of `init_palettes`, at the persisted record `o`. -/
def initPalettesStep (tc : TextConv) (s : Singleton) (o : ObjectData) : Singleton :=
  match o.getField "name" with
  | none => s
  | some v =>
    if !s.havePalette tc (v.value tc) then { s with palettes := s.palettes ++ [listAt o] }
    else s

/-- Method `Singleton::init_palettes`. -/
def Singleton.init_palettes (tc : TextConv) (s : Singleton) (st : Store) : Singleton :=
  st.palettes.foldl (initPalettesStep tc) s

/-- One round of the loop of `init_autogains`, at the persisted record `o`. -/
def initAutogainsStep (tc : TextConv) (s : Singleton) (o : ObjectData) : Singleton :=
  match o.getField "name" with
  | none => s
  | some v =>
    if !s.haveAutoGain tc (v.value tc) then { s with autoGains := s.autoGains ++ [listAt o] }
    else s

/-- Method `Singleton::init_autogains`. -/
def Singleton.init_autogains (tc : TextConv) (s : Singleton) (st : Store) : Singleton :=
  st.autogains.foldl (initAutogainsStep tc) s

/-- One round of the loop of `init_fats`, at the persisted record `o`. -/
def initFatsStep (tc : TextConv) (s : Singleton) (o : ObjectData) : Singleton :=
  match o.getField "name" with
  | none => s
  | some v =>
    if !s.haveFAT tc (v.value tc) then { s with FATs := s.FATs ++ [listAt o] }
    else s

/-- Method `Singleton::init_fats`. -/
def Singleton.init_fats (tc : TextConv) (s : Singleton) (st : Store) : Singleton :=
  st.frequency_allocations.foldl (initFatsStep tc) s

/-- One round of the loops of `init_palettes`, `init_autogains` and `init_fats`,
read on the vector they fill: the record is pushed unless a member already has its
name; a record without a field "name" throws inside the `try` and is skipped. -/
def loadNamedStep (tc : TextConv) (acc : List Object) (o : ObjectData) : List Object :=
  match o.getField "name" with
  | none => acc
  | some v => if !haveNamed tc acc (v.value tc) then acc ++ [listAt o] else acc

/-- The text of the field "name" of a persisted record, if it has that field. -/
def recordName (tc : TextConv) (o : ObjectData) : Option String :=
  (o.getField "name").map (FieldValue.value tc)

/-- What "one entry per distinct name, the first record carrying it, in the order of
the persisted list" says of a collection `R` loaded from the persisted list `P`:
`R` is `P` with records left out, no two records of `R` have the same name, every
name of `P` is the name of a record of `R`, and each record of `R` is the first
record of `P` with its name. -/
def FirstPerName (tc : TextConv) (P R : List ObjectData) : Prop :=
  R.Sublist P
  ∧ (R.map (recordName tc)).Nodup
  ∧ (∀ o ∈ P, recordName tc o ∈ R.map (recordName tc))
  ∧ (∀ o ∈ R, P.find? (fun p => decide (recordName tc p = recordName tc o)) = some o)

/-- The cast `static_cast<int>(i)` of an `unsigned int`. -/
def toInt32 (i : Nat) : Int :=
  if i % 4294967296 < 2147483648 then ((i % 4294967296 : Nat) : Int)
  else ((i % 4294967296 : Nat) : Int) - 4294967296

/-- The inner `try` of the loop body of `init_bookmarks`: the extended fields. All
three must be there for any of them to be taken; a cut whose text does not scan
keeps its value. -/
def bookmarkExtended (tc : TextConv) (o : ObjectData) (info : BookmarkInfo) : BookmarkInfo :=
  match o.getField "low_freq_cut", o.getField "high_freq_cut", o.getField "modulation" with
  | some lo, some hi, some m =>
    { info with
      modulation := m.value tc,
      lowFreqCut := (tc.scanInt (lo.value tc)).getD info.lowFreqCut,
      highFreqCut := (tc.scanInt (hi.value tc)).getD info.highFreqCut }
  | _, _, _ => info

/-- The loop body of `init_bookmarks` up to the assignment to the map: the key and
the bookmark it stores for the record `o` at index `i`, or `none` when it stores
nothing (a field "frequency", "name" or "color" is missing, the frequency does not
scan, or the name is empty). -/
def bookmarkOfRecord (tc : TextConv) (i : Nat) (o : ObjectData) : Option (Int × Bookmark) :=
  match o.getField "frequency", o.getField "name", o.getField "color" with
  | some f, some n, some c =>
    let info0 : BookmarkInfo :=
      { (default : Bookmark).info with name := n.value tc, color := tc.colorName (c.value tc) }
    let info1 := bookmarkExtended tc o info0
    match tc.scanReal (f.value tc) with
    | some freq =>
      if info1.name.length > 0 then
        some (freq, { info := { info1 with frequency := freq }, entry := toInt32 i })
      else none
    | none => none
  | _, _, _ => none

/-- The loop of `init_bookmarks` from index `i` on. -/
def initBookmarksLoop (tc : TextConv) :
    Nat → List ObjectData → QMap Int Bookmark → QMap Int Bookmark
  | _, [], m => m
  | i, o :: rest, m =>
    match bookmarkOfRecord tc i o with
    | some r => initBookmarksLoop tc (i + 1) rest (m.insert r.1 r.2)
    | none => initBookmarksLoop tc (i + 1) rest m

/-- The last record of a persisted list, read from index `i` on, of which the loop
body of `init_bookmarks` makes a bookmark under the key `f`: its index and that
bookmark. -/
def lastRecordFor (tc : TextConv) (f : Int) : Nat → List ObjectData → Option (Nat × Bookmark)
  | _, [] => none
  | i, o :: rest =>
    match lastRecordFor tc f (i + 1) rest with
    | some r => some r
    | none =>
      match bookmarkOfRecord tc i o with
      | some r => if r.1 = f then some (i, r.2) else none
      | none => none

/-- The record at index `k` of the persisted list `l` is the last one of which the
loop body of `init_bookmarks` makes a bookmark under the key `f`: no record at a
later index gives a bookmark at `f`. -/
def LastAtFrequency (tc : TextConv) (l : List ObjectData) (k : Nat) (f : Int) : Prop :=
  ∀ (k2 : Nat) (o2 : ObjectData) (bm2 : Bookmark), k < k2 → l.get? k2 = some o2 →
    bookmarkOfRecord tc k2 o2 ≠ some (f, bm2)

/-- Method `Singleton::init_bookmarks`. -/
def Singleton.init_bookmarks (tc : TextConv) (s : Singleton) (st : Store) : Singleton :=
  { s with bookmarks := initBookmarksLoop tc 0 st.bookmarks s.bookmarks }

/-! ## Double-precision numbers -/

/-- A value of the C++ type `double` (the `qreal` of Qt), in IEEE 754 binary64: a
finite number, an infinity or a NaN. A finite value is kept as the rational it
stands for; the doubles are those that `roundBinary64` leaves as they are. The
sign of a zero is not kept: no operation used here tells the two zeros apart. -/
inductive QReal where
  /-- A finite value -/
  | finite (q : ℚ)
  /-- Positive infinity, or negative infinity when the flag is set -/
  | infinity (negative : Bool)
  /-- Not a number -/
  | nan
  deriving DecidableEq, Repr

/-- The integer nearest to `n`, the even one of the two when `n` is halfway. -/
def nearestEven (n : ℚ) : Int :=
  if n - ⌊n⌋ < 1 / 2 then ⌊n⌋
  else if 1 / 2 < n - ⌊n⌋ then ⌊n⌋ + 1
  else if ⌊n⌋ % 2 = 0 then ⌊n⌋ else ⌊n⌋ + 1

/-- Rounding of an exact result to `double`, in the default mode of IEEE 754
(nearest, ties to the even significand): the significand has 53 bits, the least
exponent is -1022 (below it the spacing stays 2^-1074), and a result that rounds
to 2^1024 or more in magnitude is an infinity. -/
def roundBinary64 (q : ℚ) : QReal :=
  if q = 0 then QReal.finite 0
  else
    let ulp : ℚ := (2 : ℚ) ^ (max (Int.log 2 |q|) (-1022) - 52)
    let m : Int := nearestEven (|q| / ulp)
    if (2 : ℚ) ^ (1024 : Int) ≤ m * ulp then QReal.infinity (decide (q < 0))
    else QReal.finite (if q < 0 then -(m * ulp) else m * ulp)

/-- Subtraction of two values of type `double`. -/
def QReal.sub (a b : QReal) : QReal :=
  match a with
  | .nan => .nan
  | .infinity s =>
    match b with
    | .nan => .nan
    | .infinity t => if s = t then .nan else .infinity s
    | .finite _ => .infinity s
  | .finite x =>
    match b with
    | .nan => .nan
    | .infinity t => .infinity (!t)
    | .finite y => roundBinary64 (x - y)

/-- The C library's `fabs`. -/
def QReal.fabs : QReal → QReal
  | .nan => .nan
  | .infinity _ => .infinity false
  | .finite x => .finite |x|

/-- The comparison `a < b` of two values of type `double`: false when either is a NaN. -/
def QReal.lt (a b : QReal) : Bool :=
  match a with
  | .nan => false
  | .infinity s =>
    match b with
    | .nan => false
    | .infinity t => s && !t
    | .finite _ => s
  | .finite x =>
    match b with
    | .nan => false
    | .infinity t => !t
    | .finite y => decide (x < y)

/-- Whether a value of type `double` is finite. -/
def QReal.isFinite : QReal → Bool
  | .finite _ => true
  | _ => false

/-- Conversion of an `unsigned int` to `double`. -/
def QReal.ofUInt (n : Nat) : QReal := roundBinary64 (n : ℚ)

/-! ## The configuration dialog -/

/-- Modelled from the spec: `Device::findAntenna` (Suscan/Source.cpp is not part of
the sources) looks the name up in the antenna list; `none` is the end iterator. -/
def Device.findAntenna (dev : Device) (name : String) : Option String :=
  dev.antennas.find? (fun a => a = name)

/-- Modelled from the spec: `Config::setDevice` (Suscan/Source.cpp is not part of
the sources) binds the profile to the device. -/
def Config.setDevice (c : Config) (dev : Device) : Config := { c with device := dev }

/-- Modelled from the spec: `Config::setAntenna` (Suscan/Source.cpp is not part of
the sources). -/
def Config.setAntenna (c : Config) (antenna : String) : Config := { c with antenna := antenna }

/-- Modelled from the spec: `Config::setBandwidth` (Suscan/Source.cpp is not part of
the sources). -/
def Config.setBandwidth (c : Config) (bw : SUFLOAT) : Config := { c with bandwidth := bw }

/-- The members and widgets of `ConfigDialog` that `onDeviceChanged` reads or
writes. -/
structure ConfigDialog where
  /-- Member `refreshing` -/
  refreshing : Bool := false
  /-- Member `profile` -/
  profile : Config := {}
  /-- Current index of `ui->analyzerTypeCombo` -/
  analyzerTypeIndex : Int := 0
  /-- Item data of `ui->deviceCombo`, as `long`: positions in the device list -/
  deviceComboData : List Int := []
  /-- Item data of `ui->sampleRateCombo`, as `qreal`: the sample rates -/
  sampleRateComboData : List QReal := []
  /-- Current index of `ui->sampleRateCombo` -/
  sampleRateComboIndex : Int := -1
  /-- Arguments of the calls `ui->sampleRateSpinBox->setValue(...)` made so far,
  the latest last; the class of this widget is not part of the sources -/
  sampleRateSpinBoxCalls : List QReal := []
  deriving DecidableEq, Repr

/-- Method `ConfigDialog::remoteSelected`. -/
def ConfigDialog.remoteSelected (d : ConfigDialog) : Bool := d.analyzerTypeIndex == 1

/-- The value `ui->deviceCombo->itemData(index).value<long>()`: 0 for an index
that names no item. -/
def ConfigDialog.deviceItemData (d : ConfigDialog) (index : Int) : Int :=
  if 0 ≤ index then (d.deviceComboData.get? index.toNat).getD 0 else 0

/-- Method `ConfigDialog::onDeviceChanged`: the dialog afterwards and whether
`SU_ATTEMPT` threw. `refreshUi()` rewrites the widgets with `refreshing` set, which
keeps every handler that writes the profile silent, and leaves `refreshing` false;
the last statement sets the bandwidth spin box, whose handler `onBandwidthChanged`
stores the new value in the profile when the value changed (`bandwidth` is that
value, `none` when it did not change). -/
def ConfigDialog.onDeviceChanged (d : ConfigDialog) (sus : Singleton) (index : Int)
    (bandwidth : Option SUFLOAT) : ConfigDialog × Bool :=
  if !d.refreshing && index != -1 && !d.remoteSelected then
    match sus.getDeviceAt (toUnsigned (d.deviceItemData index)) with
    | none => (d, true)
    | some device =>
      let p1 := d.profile.setDevice device
      let p2 :=
        if (device.findAntenna p1.antenna).isNone && !device.antennas.isEmpty then
          p1.setAntenna (device.antennas.headD "")
        else p1
      let p3 := match bandwidth with
        | some bw => p2.setBandwidth bw
        | none => p2
      ({ d with refreshing := false, profile := p3 }, false)
  else
    (d, false)

/-- The candidate that the loop of `onSaveProfile` builds from the counter value
`i`: `name + " (" + std::to_string(i) + ")"`. -/
def profileCandidate (name : String) (i : Nat) : String :=
  name ++ " (" ++ toString i ++ ")"

/-- The `while` loop of `ConfigDialog::onSaveProfile`: the registry (`getProfile`
is not const), `candidate` and the `unsigned int` counter `i` at the loop test;
the result is the registry and the candidate the loop ends with, `none` when the
rounds allowed by the first argument do not reach the end of the loop. -/
def onSaveProfileLoop (name : String) :
    Nat → Singleton → String → Nat → Option (Singleton × String)
  | 0, _, _, _ => none
  | fuel + 1, sus, candidate, i =>
    if (sus.getProfile candidate).2.isSome then
      onSaveProfileLoop name fuel (sus.getProfile candidate).1 (profileCandidate name i)
        ((i + 1) % 4294967296)
    else
      some ((sus.getProfile candidate).1, candidate)

/-- The first statements of `ConfigDialog::onSaveProfile`, up to the name handed to
`saveProfileDialog.setProfileName`. -/
def ConfigDialog.proposedProfileName (d : ConfigDialog) (sus : Singleton) (fuel : Nat) :
    Option (Singleton × String) :=
  onSaveProfileLoop ("My " ++ d.profile.label) fuel sus ("My " ++ d.profile.label) 1

/-- The expression `fabs(value - rate)` of `ConfigDialog::setSelectedSampleRate`, with
`rate` an `unsigned int` converted to `double` for the subtraction. -/
def sampleRateDistance (rate : Nat) (value : QReal) : QReal :=
  QReal.fabs (QReal.sub value (QReal.ofUInt rate))

/-- The loop of `ConfigDialog::setSelectedSampleRate` over the items still to come:
`i` is the index of the first of them, `dist` and `bestIndex` the variables of the
method. -/
def setSelectedSampleRateLoop (rate : Nat) : List QReal → Int → QReal → Int → Int
  | [], _, _, bestIndex => bestIndex
  | value :: rest, i, dist, bestIndex =>
    if QReal.lt (sampleRateDistance rate value) dist then
      setSelectedSampleRateLoop rate rest (i + 1) (sampleRateDistance rate value) i
    else
      setSelectedSampleRateLoop rate rest (i + 1) dist bestIndex

/-- Method `ConfigDialog::setSelectedSampleRate`. -/
def ConfigDialog.setSelectedSampleRate (d : ConfigDialog) (rate : Nat) : ConfigDialog :=
  let bestIndex :=
    setSelectedSampleRateLoop rate d.sampleRateComboData 0 (QReal.infinity false) (-1)
  let d1 := if bestIndex != -1 then { d with sampleRateComboIndex := bestIndex } else d
  { d1 with sampleRateSpinBoxCalls := d1.sampleRateSpinBoxCalls ++ [QReal.ofUInt rate] }

/-! ## The UI configuration vector -/

/-- A default-constructed `Suscan::Object`: it wraps no native object. -/
instance instInhabitedObject : Inhabited Object := ⟨{ data := ObjectData.other 0 }⟩

/-- The call `std::vector<Object>::resize(n)`: the first `n` members are kept and
default-constructed members fill up to `n`. -/
def vectorResize (v : List Object) (n : Nat) : List Object :=
  v.take n ++ List.replicate (n - v.length) default

/-- Method `Singleton::putUIConfig`, for an `unsigned int` position. The sum
`pos + 1` is computed in `unsigned int`; `none` stands for the assignment
`uiConfig[pos] = ...` at a position that is not below the size of the vector. -/
def Singleton.putUIConfig (s : Singleton) (pos : Nat) (rv : Object) : Option Singleton :=
  let uiConfig :=
    if pos ≥ s.uiConfig.length then vectorResize s.uiConfig ((pos + 1) % 4294967296)
    else s.uiConfig
  if pos < uiConfig.length then some { s with uiConfig := uiConfig.set pos rv }
  else none

/-! ## Consistency of the bookmark indices -/

/-- The bookmark used in the concrete instances below. -/
def demoInfoA : BookmarkInfo :=
  { name := "beacon", frequency := 145800000, color := "#ff0000", lowFreqCut := -5000,
    highFreqCut := 5000, modulation := "FM" }

/-- A second bookmark at the frequency of `demoInfoA`. -/
def demoInfoB : BookmarkInfo :=
  { name := "repeater", frequency := 145800000, color := "#00ff00", lowFreqCut := -8000,
    highFreqCut := 8000, modulation := "NFM" }

/-- A bookmark at another frequency. -/
def demoInfoC : BookmarkInfo :=
  { name := "weather", frequency := 137100000, color := "#0000ff", lowFreqCut := -17000,
    highFreqCut := 17000, modulation := "APT" }

/-- A registry with one bookmark registered and not flushed yet. -/
def demoPending : Singleton := ((Singleton.construct 0).registerBookmark demoInfoA).1

/-- The state after loading two recent profiles into a fresh registry. -/
def demoRecentLoaded : Singleton :=
  (Singleton.construct 0).init_recent_list
    { recent := [ObjectData.field "rtl", ObjectData.other 0, ObjectData.field "file"] }

/-- A profile used in the concrete instances below. -/
def demoProfile : Config :=
  { label := "rtl", device := { desc := "RTL-SDR", driver := "rtlsdr", antennas := ["RX"] },
    antenna := "RX" }

/-- A second profile, under another label. -/
def demoProfile2 : Config :=
  { label := "file", antenna := "none" }

/-- A native library whose calls all fail and whose walks deliver nothing. -/
def demoNativeFailing : Native :=
  { codec_class_register_builtin := false, init_sources := false, init_estimators := false,
    init_spectsrcs := false, init_inspectors := false, source_config_register := false }

/-- A native library whose calls succeed and whose walks deliver one profile, two
devices and the same remote label twice. -/
def demoNative : Native :=
  { source_config_walk := [{ label := some "rtl", config := demoProfile }],
    source_device_walk :=
      [{ desc := "RTL-SDR", driver := "rtlsdr", antennas := ["RX"] },
       { desc := "HackRF", driver := "hackrf", antennas := ["TX/RX", "RX2"] }],
    discovered_remote_device_walk :=
      [{ label := some "remote", config := { label := "remote", antenna := "A" } },
       { label := some "remote", config := { label := "remote", antenna := "B" } }] }

/-- Text conversions for the concrete instances: decimal text for numbers, and
scans that know the texts used below. -/
def demoConv : TextConv :=
  { intText := fun v => toString v,
    realText := fun v => toString v,
    scanReal := fun t =>
      if t = "145800000" then some 145800000
      else if t = "137100000" then some 137100000
      else none,
    scanInt := fun t => if t = "5000" then some 5000 else none,
    colorName := fun t => t }

/-- A persisted palette record with the given name and one more field. -/
def demoPalette (name tag : String) : ObjectData :=
  ObjectData.object [("name", FieldValue.str name), ("stops", FieldValue.str tag)]

/-- The persisted list of the instance of C15: the name "gray" twice, "hot" once. -/
def demoPaletteStore : Store :=
  { palettes := [demoPalette "gray" "a", demoPalette "hot" "b", demoPalette "gray" "c"],
    autogains := [demoPalette "gray" "a", demoPalette "hot" "b", demoPalette "gray" "c"],
    frequency_allocations :=
      [demoPalette "gray" "a", demoPalette "hot" "b", demoPalette "gray" "c"] }

/-- A persisted bookmark record with text fields, as the store reads it from disk. -/
def demoBookmarkRecord (name frequency : String) : ObjectData :=
  ObjectData.object
    [("name", FieldValue.str name), ("frequency", FieldValue.str frequency),
     ("color", FieldValue.str "#ff0000")]

/-- A dialog whose profile names an antenna of another device, with the two local
devices of `demoNative` in its device combo. -/
def demoDialog : ConfigDialog :=
  { profile := demoProfile, deviceComboData := [0, 1] }

/-- A source walk that delivers a profile labelled "My rtl" and profiles labelled
"My rtl (i)" for every `i` below `n`. -/
def crowdedWalk (n : Nat) : List NativeConfig :=
  { label := some "My rtl", config := { label := "My rtl" } }
    :: (List.range n).map (fun i =>
        { label := some (profileCandidate "My rtl" i),
          config := { label := profileCandidate "My rtl" i } })

/-- The registry after `init_sources` with a source walk that delivers "My rtl" and
"My rtl (i)" for every `unsigned int` value `i`. -/
def demoCrowded : Singleton :=
  (({} : Singleton).init_sources { source_config_walk := crowdedWalk 4294967296 }).state

/-- A registry that already holds the profiles "My rtl" and "My rtl (1)". -/
def demoTwoSaved : Singleton :=
  { profiles := (QMap.empty.insert "My rtl" { label := "My rtl" }).insert "My rtl (1)"
      { label := "My rtl (1)" } }

/-- A dialog whose sample-rate combo holds three whole-number rates, none selected. -/
def demoRates : ConfigDialog :=
  { sampleRateComboData :=
      [QReal.finite 1000000, QReal.finite 2400000, QReal.finite 1600000] }

/-- A dialog whose sample-rate combo holds two rates 2^-32 apart, none selected. -/
def demoNearRates : ConfigDialog :=
  { sampleRateComboData :=
      [QReal.finite 1200000, QReal.finite (1200000 + 1 / 4294967296)] }

/-- A dialog whose sample-rate combo holds one item, a NaN, with index 0 selected. -/
def demoNaNRates : ConfigDialog :=
  { sampleRateComboData := [QReal.nan], sampleRateComboIndex := 0 }

/-! ## Reachable states of the recency list -/

/-- Reachability of registry states through the operations on the recency list:
from a freshly constructed registry, by `notifyRecent`, `removeRecent`,
`clearRecent`, and by `init_recent_list` over a persisted list whose FIELD values
are pairwise distinct and not yet in the recency list. -/
inductive RecentReachable : Singleton → Prop where
  | fresh (z : SUFLOAT) : RecentReachable (Singleton.construct z)
  | init (s : Singleton) (st : Store) (h : RecentReachable s)
      (hdistinct : (recentFieldValues st.recent).Nodup)
      (hnew : ∀ v ∈ recentFieldValues st.recent, v ∉ s.recentProfiles) :
      RecentReachable (s.init_recent_list st)
  | notify (s : Singleton) (name : String) (r : Singleton × Bool) (h : RecentReachable s)
      (hr : s.notifyRecent name = some r) : RecentReachable r.1
  | remove (s : Singleton) (name : String) (r : Singleton × Bool) (h : RecentReachable s)
      (hr : s.removeRecent name = some r) : RecentReachable r.1
  | clear (s : Singleton) (h : RecentReachable s) : RecentReachable s.clearRecent

/-! ## Facts about QMap -/

section QMapFacts

variable {κ ν : Type} [LinearOrder κ] [QKey κ]

theorem keyEq_iff {κ : Type} [LinearOrder κ] [QKey κ] (a b : κ) :
    keyEq a b = true ↔ a = b := by
  unfold keyEq
  by_cases h1 : QKey.ltb a b = true
  · have := (QKey.ltb_iff a b).1 h1
    simp [h1, ne_of_lt this]
  · by_cases h2 : QKey.ltb b a = true
    · have := (QKey.ltb_iff b a).1 h2
      simp [h2, ne_of_gt this]
    · have n1 : ¬ a < b := fun h => h1 ((QKey.ltb_iff a b).2 h)
      have n2 : ¬ b < a := fun h => h2 ((QKey.ltb_iff b a).2 h)
      have hab : a = b := le_antisymm (not_lt.1 n2) (not_lt.1 n1)
      simp only [Bool.not_eq_true] at h1 h2
      subst hab
      simp [h1]

theorem keyEq_self {κ : Type} [LinearOrder κ] [QKey κ] (a : κ) : keyEq a a = true :=
  (keyEq_iff a a).2 rfl

theorem keyEq_of_ne {κ : Type} [LinearOrder κ] [QKey κ] {a b : κ} (h : a ≠ b) :
    keyEq a b = false := by
  cases hk : keyEq a b
  · rfl
  · exact absurd ((keyEq_iff a b).1 hk) h

theorem findEntries_insertEntries_self (k : κ) (v : ν) (l : List (κ × ν)) :
    findEntries k (insertEntries k v l) = some v := by
  induction l with
  | nil => simp [insertEntries, findEntries, keyEq_self]
  | cons hd tl ih =>
    obtain ⟨k1, v1⟩ := hd
    unfold insertEntries
    split
    · simp [findEntries, keyEq_self]
    · split
      · rename_i hlt
        have hne : k1 ≠ k := ne_of_lt ((QKey.ltb_iff k1 k).1 hlt)
        simp [findEntries, keyEq_of_ne hne, ih]
      · simp [findEntries, keyEq_self]

theorem findEntries_insertEntries_ne (k g : κ) (v : ν) (l : List (κ × ν)) (h : g ≠ k) :
    findEntries g (insertEntries k v l) = findEntries g l := by
  induction l with
  | nil => simp [insertEntries, findEntries, keyEq_of_ne (Ne.symm h)]
  | cons hd tl ih =>
    obtain ⟨k1, v1⟩ := hd
    unfold insertEntries
    split
    · simp [findEntries, keyEq_of_ne (Ne.symm h)]
    · split
      · simp [findEntries, ih]
      · rename_i h1 h2
        have hkk : keyEq k k1 = true := by simp [keyEq, h1, h2]
        have hk : k = k1 := (keyEq_iff k k1).1 hkk
        subst hk
        simp [findEntries, keyEq_of_ne (Ne.symm h)]

theorem findEntries_removeEntries_self (k : κ) (l : List (κ × ν)) :
    findEntries k (removeEntries k l) = none := by
  induction l with
  | nil => simp [removeEntries, findEntries]
  | cons hd tl ih =>
    obtain ⟨k1, v1⟩ := hd
    unfold removeEntries at ih ⊢
    cases hk : keyEq k1 k
    · simp [List.filter, hk, findEntries, ih]
    · simp [List.filter, hk, ih]

theorem findEntries_removeEntries_ne (k g : κ) (l : List (κ × ν)) (h : g ≠ k) :
    findEntries g (removeEntries k l) = findEntries g l := by
  induction l with
  | nil => simp [removeEntries, findEntries]
  | cons hd tl ih =>
    obtain ⟨k1, v1⟩ := hd
    unfold removeEntries at ih ⊢
    cases hk : keyEq k1 k
    · simp [List.filter, hk, findEntries, ih]
    · have hk1 : k1 = k := (keyEq_iff k1 k).1 hk
      have hg : keyEq k1 g = false := keyEq_of_ne (by rw [hk1]; exact Ne.symm h)
      simp [List.filter, hk, findEntries, hg, ih]

theorem findEntries_of_mem (l : List (κ × ν)) (h : l.Pairwise (fun a b => a.1 < b.1))
    (k : κ) (v : ν) (hm : (k, v) ∈ l) : findEntries k l = some v := by
  induction l with
  | nil => simp at hm
  | cons hd tl ih =>
    obtain ⟨k1, v1⟩ := hd
    rcases List.mem_cons.1 hm with heq | hin
    · cases heq
      simp [findEntries, keyEq_self]
    · have hlt : k1 < k := (List.pairwise_cons.1 h).1 (k, v) hin
      simp [findEntries, keyEq_of_ne (ne_of_lt hlt), ih (List.pairwise_cons.1 h).2 hin]

theorem filter_key_of_find (l : List (κ × ν)) (h : l.Pairwise (fun a b => a.1 < b.1))
    (k : κ) (v : ν) (hf : findEntries k l = some v) :
    l.filter (fun e => decide (e.1 = k)) = [(k, v)] := by
  induction l with
  | nil => simp [findEntries] at hf
  | cons hd tl ih =>
    obtain ⟨k1, v1⟩ := hd
    have hhd := (List.pairwise_cons.1 h).1
    cases hk : keyEq k1 k
    · have hne : k1 ≠ k := fun he => by simp [he, keyEq_self] at hk
      simp only [findEntries, hk] at hf
      simpa [List.filter, hne] using ih (List.pairwise_cons.1 h).2 hf
    · have hk1 : k1 = k := (keyEq_iff k1 k).1 hk
      simp only [findEntries, hk, if_true, Option.some.injEq] at hf
      subst hk1 hf
      have hnil : tl.filter (fun e => decide (e.1 = k1)) = [] := by
        rw [List.filter_eq_nil_iff]
        intro e he
        have := hhd e he
        simpa using ne_of_gt this
      simp [List.filter, hnil]

theorem QMap.find_insert_self (m : QMap κ ν) (k : κ) (v : ν) :
    (m.insert k v).find k = some v :=
  findEntries_insertEntries_self k v m.entries

theorem QMap.find_insert_ne (m : QMap κ ν) (k g : κ) (v : ν) (h : g ≠ k) :
    (m.insert k v).find g = m.find g :=
  findEntries_insertEntries_ne k g v m.entries h

theorem QMap.find_remove_self (m : QMap κ ν) (k : κ) : (m.remove k).find k = none :=
  findEntries_removeEntries_self k m.entries

theorem QMap.find_remove_ne (m : QMap κ ν) (k g : κ) (h : g ≠ k) :
    (m.remove k).find g = m.find g :=
  findEntries_removeEntries_ne k g m.entries h

theorem QMap.index_of_find [Inhabited ν] (m : QMap κ ν) (k : κ) (v : ν)
    (h : m.find k = some v) : m.index k = (m, v) := by
  simp [QMap.index, h]

end QMapFacts

/-! ## Bookmarks -/

theorem registerBookmark_free (s : Singleton) (a : BookmarkInfo)
    (hfree : s.bookmarks.find a.frequency = none) :
    s.registerBookmark a
      = ({ s with bookmarks := s.bookmarks.insert a.frequency { info := a, entry := -1 } },
          true) := by
  simp [Singleton.registerBookmark, hfree]
  rfl

theorem registerBookmark_taken (s : Singleton) (a : BookmarkInfo) (bm : Bookmark)
    (htaken : s.bookmarks.find a.frequency = some bm) :
    s.registerBookmark a = (s, false) := by
  simp [Singleton.registerBookmark, htaken]

theorem removeBookmark_present (s : Singleton) (st : Store) (freq : Int) (bm : Bookmark)
    (h : s.bookmarks.find freq = some bm) :
    s.removeBookmark st freq
      = ({ s with bookmarks := s.bookmarks.remove freq },
          if bm.entry ≠ -1 then
            { st with bookmarks := st.bookmarks.eraseIdx (toUnsigned bm.entry) }
          else st) := by
  simp only [Singleton.removeBookmark, h, Option.isSome_some, if_true,
    QMap.index_of_find _ _ _ h, listRemove]
  split <;> rfl

theorem removeBookmark_absent (s : Singleton) (st : Store) (freq : Int)
    (h : s.bookmarks.find freq = none) : s.removeBookmark st freq = (s, st) := by
  simp [Singleton.removeBookmark, h]

theorem toUnsigned_natCast (n : Nat) (h : n < 4294967296) : toUnsigned (n : Int) = n := by
  unfold toUnsigned
  have : ((n : Int) % 4294967296) = (n : Int) := Int.emod_eq_of_lt (by omega) (by omega)
  rw [this]
  simp

/-- C1: in every registry state with no bookmark at the frequency F of `a`,
`registerBookmark(a)` returns true and stores `a` at F with `entry = -1`; a
following `registerBookmark(b)` with `b` at the same frequency returns false and
leaves the bookmark map as it was, so the bookmark at F is still `a`. -/
theorem registerBookmark_twice (s : Singleton) (a b : BookmarkInfo)
    (hF : b.frequency = a.frequency) (hfree : s.bookmarks.find a.frequency = none) :
    (s.registerBookmark a).2 = true
    ∧ (s.registerBookmark a).1.bookmarks.find a.frequency = some { info := a, entry := -1 }
    ∧ ((s.registerBookmark a).1.registerBookmark b).2 = false
    ∧ ((s.registerBookmark a).1.registerBookmark b).1.bookmarks
        = (s.registerBookmark a).1.bookmarks
    ∧ ((s.registerBookmark a).1.registerBookmark b).1.bookmarks.find a.frequency
        = some { info := a, entry := -1 } := by
  have hfind : (s.registerBookmark a).1.bookmarks.find a.frequency
      = some { info := a, entry := -1 } := by
    rw [registerBookmark_free s a hfree]
    exact QMap.find_insert_self _ _ _
  have h2 : (s.registerBookmark a).1.registerBookmark b = ((s.registerBookmark a).1, false) :=
    registerBookmark_taken _ b _ (by rw [hF]; exact hfind)
  refine ⟨by rw [registerBookmark_free s a hfree], hfind, by rw [h2], by rw [h2], ?_⟩
  rw [h2]
  exact hfind

/-- Instance of C1 on a freshly constructed registry. -/
theorem registerBookmark_twice_witness :
    demoInfoB.frequency = demoInfoA.frequency
    ∧ (Singleton.construct 0).bookmarks.find demoInfoA.frequency = none
    ∧ (((Singleton.construct 0).registerBookmark demoInfoA).1.registerBookmark demoInfoB).2
        = false :=
  ⟨by decide, by decide,
    (registerBookmark_twice (Singleton.construct 0) demoInfoA demoInfoB
      (by decide) (by decide)).2.2.1⟩

/-- C2: in the state left by a successful `registerBookmark(a)` at frequency F,
`replaceBookmark(b)` with `b` at F leaves exactly one bookmark at F, with info
`b` and `entry = -1`; the bookmarks at all other frequencies are unchanged (and
so is the persistent store, the replaced bookmark being a pending one). -/
theorem replaceBookmark_after_register (s : Singleton) (st : Store) (a b : BookmarkInfo)
    (hF : b.frequency = a.frequency) (hreg : (s.registerBookmark a).2 = true) :
    (((s.registerBookmark a).1.replaceBookmark st b).1.bookmarks.find a.frequency
        = some { info := b, entry := -1 })
    ∧ (((s.registerBookmark a).1.replaceBookmark st b).1.bookmarks.entries.filter
          (fun e => decide (e.1 = a.frequency))
        = [(a.frequency, { info := b, entry := -1 })])
    ∧ (∀ g : Int, g ≠ a.frequency →
        ((s.registerBookmark a).1.replaceBookmark st b).1.bookmarks.find g
          = (s.registerBookmark a).1.bookmarks.find g)
    ∧ ((s.registerBookmark a).1.replaceBookmark st b).2 = st := by
  have hfree : s.bookmarks.find a.frequency = none := by
    cases hf : s.bookmarks.find a.frequency with
    | none => rfl
    | some v => rw [registerBookmark_taken s a v hf] at hreg; cases hreg
  have hfind : (s.registerBookmark a).1.bookmarks.find a.frequency
      = some { info := a, entry := -1 } := by
    rw [registerBookmark_free s a hfree]
    exact QMap.find_insert_self _ _ _
  have hrep : (s.registerBookmark a).1.replaceBookmark st b
      = ({ (s.registerBookmark a).1 with
            bookmarks := ((s.registerBookmark a).1.bookmarks.remove a.frequency).insert
              a.frequency { info := b, entry := -1 } }, st) := by
    unfold Singleton.replaceBookmark
    rw [hF, removeBookmark_present _ st _ _ hfind]
    rfl
  have hnew : ((s.registerBookmark a).1.replaceBookmark st b).1.bookmarks.find a.frequency
      = some { info := b, entry := -1 } := by
    rw [hrep]
    exact QMap.find_insert_self _ _ _
  refine ⟨hnew, ?_, ?_, by rw [hrep]⟩
  · exact filter_key_of_find _ (QMap.ascending _) _ _ hnew
  · intro g hg
    rw [hrep]
    show (((s.registerBookmark a).1.bookmarks.remove a.frequency).insert a.frequency _).find g = _
    rw [QMap.find_insert_ne _ _ _ _ hg, QMap.find_remove_ne _ _ _ hg]

/-- Instance of C2: a bookmark registered on a fresh registry and then replaced. -/
theorem replaceBookmark_after_register_witness :
    demoInfoB.frequency = demoInfoA.frequency
    ∧ ((Singleton.construct 0).registerBookmark demoInfoA).2 = true
    ∧ ((((Singleton.construct 0).registerBookmark demoInfoA).1.replaceBookmark
          { bookmarks := [bookmarkObject demoInfoC] } demoInfoB).1.bookmarks.find
            demoInfoA.frequency
        = some { info := demoInfoB, entry := -1 }) :=
  ⟨by decide, by decide,
    (replaceBookmark_after_register (Singleton.construct 0)
      { bookmarks := [bookmarkObject demoInfoC] } demoInfoA demoInfoB
      (by decide) (by decide)).1⟩

/-- C5: in every registry state with a bookmark `bm` at frequency F,
`removeBookmark(F)` takes exactly the key F out of the bookmark map: nothing is
stored at F afterwards and every other frequency keeps its bookmark. When
`bm.entry` is -1 the persistent store is unchanged; otherwise the persisted
bookmark list loses exactly the record at index `bm.entry` and nothing else in the
store changes. -/
theorem removeBookmark_present_spec (s : Singleton) (st : Store) (freq : Int) (bm : Bookmark)
    (h : s.bookmarks.find freq = some bm) :
    (s.removeBookmark st freq).1 = { s with bookmarks := s.bookmarks.remove freq }
    ∧ (s.removeBookmark st freq).1.bookmarks.find freq = none
    ∧ (∀ g : Int, g ≠ freq →
        (s.removeBookmark st freq).1.bookmarks.find g = s.bookmarks.find g)
    ∧ (bm.entry = -1 → (s.removeBookmark st freq).2 = st)
    ∧ (bm.entry ≠ -1 → (s.removeBookmark st freq).2
        = { st with bookmarks := st.bookmarks.eraseIdx (toUnsigned bm.entry) })
    ∧ (∀ n : Nat, bm.entry = (n : Int) → n < 4294967296 →
        (s.removeBookmark st freq).2.bookmarks = st.bookmarks.eraseIdx n) := by
  rw [removeBookmark_present s st freq bm h]
  refine ⟨rfl, QMap.find_remove_self _ _, fun g hg => QMap.find_remove_ne _ _ _ hg, ?_, ?_, ?_⟩
  · intro he
    simp [he]
  · intro he
    simp [he]
  · intro n hn hlt
    have hne : bm.entry ≠ -1 := by omega
    simp [hne, hn, toUnsigned_natCast n hlt]

/-- Instance of C5: a bookmark loaded from index 1 of the persisted list is removed. -/
theorem removeBookmark_present_spec_witness :
    (({ bookmarks := (QMap.empty.insert 137100000 { info := demoInfoC, entry := 1 }) } :
        Singleton).bookmarks.find 137100000 = some { info := demoInfoC, entry := 1 })
    ∧ (({ bookmarks := (QMap.empty.insert 137100000 { info := demoInfoC, entry := 1 }) } :
        Singleton).removeBookmark
          { bookmarks := [bookmarkObject demoInfoA, bookmarkObject demoInfoC] }
          137100000).2.bookmarks = [bookmarkObject demoInfoA] :=
  ⟨by decide,
    ((removeBookmark_present_spec
      { bookmarks := (QMap.empty.insert 137100000 { info := demoInfoC, entry := 1 }) }
      { bookmarks := [bookmarkObject demoInfoA, bookmarkObject demoInfoC] }
      137100000 { info := demoInfoC, entry := 1 } (by decide)).2.2.2.2.2 1 (by decide)
        (by decide))⟩

/-- C6: in every registry state with no bookmark at frequency F, `removeBookmark(F)`
returns normally and changes neither the registry (so not the bookmark map) nor the
persistent store (so not the persisted bookmark list). -/
theorem removeBookmark_absent_spec (s : Singleton) (st : Store) (freq : Int)
    (h : s.bookmarks.find freq = none) :
    s.removeBookmark st freq = (s, st)
    ∧ (s.removeBookmark st freq).1.bookmarks = s.bookmarks
    ∧ (s.removeBookmark st freq).2.bookmarks = st.bookmarks := by
  rw [removeBookmark_absent s st freq h]
  exact ⟨rfl, rfl, rfl⟩

/-- Instance of C6: removal at a frequency where a fresh registry has no bookmark. -/
theorem removeBookmark_absent_spec_witness :
    (Singleton.construct 0).bookmarks.find 137100000 = none
    ∧ ((Singleton.construct 0).removeBookmark { bookmarks := [bookmarkObject demoInfoA] }
          137100000).2.bookmarks = [bookmarkObject demoInfoA] :=
  ⟨by decide,
    (removeBookmark_absent_spec (Singleton.construct 0)
      { bookmarks := [bookmarkObject demoInfoA] } 137100000 (by decide)).2.2⟩

/-! ## Flushing the bookmarks -/

theorem syncBookmarksStep_of_find (m : QMap Int Bookmark) (l : List ObjectData) (p : Int)
    (bm : Bookmark) (h : m.find p = some bm) :
    syncBookmarksStep (m, l) p
      = (m, if bm.entry = -1 then l ++ [bookmarkObject bm.info] else l) := by
  unfold syncBookmarksStep
  simp only [QMap.index_of_find m p bm h, listAppend]
  split <;> rfl

theorem syncBookmarks_foldl (m : QMap Int Bookmark) (es : List (Int × Bookmark))
    (h : ∀ e ∈ es, m.find e.1 = some e.2) (l : List ObjectData) :
    (es.map Prod.fst).foldl syncBookmarksStep (m, l)
      = (m, l ++ (es.filter (fun e => decide (e.2.entry = -1))).map
          (fun e => bookmarkObject e.2.info)) := by
  induction es generalizing l with
  | nil => simp
  | cons hd tl ih =>
    have hhd := h hd (List.mem_cons_self _ _)
    have htl : ∀ e ∈ tl, m.find e.1 = some e.2 := fun e he => h e (List.mem_cons_of_mem _ he)
    rw [List.map_cons, List.foldl_cons, syncBookmarksStep_of_find m l hd.1 hd.2 hhd, ih htl]
    by_cases he : hd.2.entry = -1
    · simp [he, List.filter]
    · simp [he, List.filter]

theorem syncBookmarks_eq (s : Singleton) (st : Store) :
    s.syncBookmarks st
      = (s, { st with bookmarks := (st.bookmarks
          ++ (s.bookmarks.entries.filter (fun e => decide (e.2.entry = -1))).map
              (fun e => bookmarkObject e.2.info)) }) := by
  have h : ∀ e ∈ s.bookmarks.entries, s.bookmarks.find e.1 = some e.2 := fun e he =>
    findEntries_of_mem s.bookmarks.entries s.bookmarks.ascending e.1 e.2 he
  unfold Singleton.syncBookmarks QMap.keys
  rw [syncBookmarks_foldl s.bookmarks s.bookmarks.entries h st.bookmarks]

/-- C3 (the code at the failing input): with one pending bookmark in the registry,
`syncBookmarks` (and `sync`) writes its record but leaves `entry = -1` in the
bookmark map; a second `syncBookmarks` then appends the same record again, and
`removeBookmark` of the flushed bookmark leaves its record in the persisted list. -/
theorem syncBookmarks_leaves_entry_pending :
    (demoPending.syncBookmarks {}).2.bookmarks = [bookmarkObject demoInfoA]
    ∧ (demoPending.syncBookmarks {}).1.bookmarks.find 145800000
        = some { info := demoInfoA, entry := -1 }
    ∧ (demoPending.sync {}).2.bookmarks = [bookmarkObject demoInfoA]
    ∧ (demoPending.sync {}).1.bookmarks.find 145800000
        = some { info := demoInfoA, entry := -1 }
    ∧ ((demoPending.syncBookmarks {}).1.syncBookmarks
          (demoPending.syncBookmarks {}).2).2.bookmarks
        = [bookmarkObject demoInfoA, bookmarkObject demoInfoA]
    ∧ ((demoPending.syncBookmarks {}).1.removeBookmark
          (demoPending.syncBookmarks {}).2 145800000).2.bookmarks
        = [bookmarkObject demoInfoA] := by
  decide

/-- C4: for every bookmark map and every persisted bookmark list, `syncBookmarks`
only appends: the persisted list afterwards is the list before, followed by one
record for each bookmark with `entry = -1`, taken in the (ascending) key order
of the map and holding its name, frequency, color, low and high cut and
modulation; bookmarks with another `entry` add nothing, and the rest of the
store is unchanged. -/
theorem syncBookmarks_appends_pending (s : Singleton) (st : Store) :
    (s.syncBookmarks st).2
        = { st with bookmarks := (st.bookmarks
            ++ (s.bookmarks.entries.filter (fun e => decide (e.2.entry = -1))).map
                (fun e => bookmarkObject e.2.info)) }
    ∧ s.bookmarks.keys.Pairwise (fun f g => f < g)
    ∧ (∀ info : BookmarkInfo, bookmarkObject info
        = ObjectData.object
            [("name", FieldValue.str info.name), ("frequency", FieldValue.real info.frequency),
             ("color", FieldValue.str info.color), ("low_freq_cut", FieldValue.int info.lowFreqCut),
             ("high_freq_cut", FieldValue.int info.highFreqCut),
             ("modulation", FieldValue.str info.modulation)]) := by
  refine ⟨by rw [syncBookmarks_eq], ?_, ?_⟩
  · unfold QMap.keys
    exact (List.pairwise_map).2 s.bookmarks.ascending
  · intro info
    simp [bookmarkObject, ObjectData.set]

/-! ## The list of recently used profiles: facts -/

theorem removeRecentLoop_eq (name : String) (suf : List String) :
    ∀ (fuel : Nat) (pre : List String) (found : Bool), suf.length + 1 ≤ fuel →
      removeRecentLoop name fuel (pre ++ suf) pre.length found
        = some (pre ++ suf.filter (fun x => decide (x ≠ name)),
            found || decide (name ∈ suf)) := by
  induction suf with
  | nil =>
    intro fuel pre found hfuel
    obtain ⟨f, rfl⟩ : ∃ f, fuel = f + 1 := ⟨fuel - 1, by simp at hfuel; omega⟩
    simp [removeRecentLoop]
  | cons x t ih =>
    intro fuel pre found hfuel
    obtain ⟨f, rfl⟩ : ∃ f, fuel = f + 1 := ⟨fuel - 1, by omega⟩
    have hf : t.length + 1 ≤ f := by simp at hfuel; omega
    have hlen : ¬ pre.length = (pre ++ x :: t).length := by simp
    have hget : (pre ++ x :: t).get? pre.length = some x := by
      rw [List.get?_eq_getElem?, List.getElem?_append_right (le_refl _)]
      simp
    have hlt : pre.length < (pre ++ x :: t).length := by simp
    unfold removeRecentLoop
    rw [if_neg hlen, hget]
    by_cases hx : x = name
    · subst hx
      have herase : (pre ++ x :: t).eraseIdx pre.length = pre ++ t := by
        rw [List.eraseIdx_append_of_length_le (le_refl _)]
        simp
      have hnext : listIterNext (pre ++ t).length
          (listIterAfterErase pre.length (listIterPrev (pre ++ x :: t).length pre.length))
            = pre.length := by
        unfold listIterNext listIterAfterErase listIterPrev
        rcases Nat.eq_zero_or_pos pre.length with h0 | hpos
        · simp [h0, List.length_eq_zero.1 h0]
        · have hne : pre.length ≠ 0 := by omega
          simp only [hne, if_false]
          have h1 : ¬ pre.length < pre.length - 1 := by omega
          have h2 : pre.length - 1 < (pre ++ t).length := by simp; omega
          rw [if_neg h1, if_pos h2]
          omega
      simp only [if_true, herase, hnext]
      rw [ih f pre true hf]
      simp
    · have hnext : listIterNext (pre ++ x :: t).length pre.length = (pre ++ [x]).length := by
        unfold listIterNext
        rw [if_pos hlt]
        simp
      have hne : ¬ (some x = some name) := by simpa using hx
      rw [if_neg hne, hnext]
      have happ : pre ++ x :: t = (pre ++ [x]) ++ t := by simp
      rw [happ, ih f (pre ++ [x]) found hf]
      have hnx : ¬ name = x := fun h => hx h.symm
      simp [List.filter, hx, hnx]

theorem removeRecent_eq (s : Singleton) (name : String) :
    s.removeRecent name
      = some ({ s with recentProfiles := s.recentProfiles.filter (fun x => decide (x ≠ name)) },
          decide (name ∈ s.recentProfiles)) := by
  have h := removeRecentLoop_eq name s.recentProfiles (s.recentProfiles.length + 1) [] false
    (le_refl _)
  simp only [List.nil_append, List.length_nil, Bool.false_or] at h
  simp only [Singleton.removeRecent, h]

theorem notifyRecent_eq (s : Singleton) (name : String) :
    s.notifyRecent name
      = some ({ s with
          recentProfiles := name :: s.recentProfiles.filter (fun x => decide (x ≠ name)) },
          decide (name ∈ s.recentProfiles)) := by
  simp only [Singleton.notifyRecent, removeRecent_eq]

theorem initRecent_foldl (l : List ObjectData) (acc : List String) :
    l.foldl initRecentStep acc = acc ++ recentFieldValues l := by
  induction l generalizing acc with
  | nil => simp [recentFieldValues]
  | cons o t ih =>
    rw [List.foldl_cons, ih (initRecentStep acc o)]
    cases o <;> simp [initRecentStep, recentFieldValues, List.filterMap_cons]

theorem registerSpectrumUnit_recentProfiles (s : Singleton) (name : String)
    (d z : SUFLOAT) : (s.registerSpectrumUnit name d z).1.recentProfiles = s.recentProfiles := by
  unfold Singleton.registerSpectrumUnit
  split <;> rfl

theorem construct_recentProfiles (z : SUFLOAT) : (Singleton.construct z).recentProfiles = [] := by
  simp only [Singleton.construct, registerSpectrumUnit_recentProfiles]

theorem filter_ne_nodup (l : List String) (name : String) (h : l.Nodup) :
    (name :: l.filter (fun x => decide (x ≠ name))).Nodup := by
  refine List.nodup_cons.2 ⟨?_, h.filter _⟩
  simp [List.mem_filter]

/-- C8 (as stated, refuted): `init_recent_list` on a fresh registry over a persisted
"recent" list that holds the name "a" twice leaves "a" twice in the recency list. -/
theorem init_recent_list_keeps_duplicates :
    ¬ ((Singleton.construct 0).init_recent_list
        { recent := [ObjectData.field "a", ObjectData.field "a"] }).recentProfiles.Nodup := by
  decide

/-- C8 (amended): in every state reached from a freshly constructed registry by
`notifyRecent`, `removeRecent`, `clearRecent`, and by `init_recent_list` over a
persisted list whose FIELD values are pairwise distinct and not yet in the
recency list, no name occurs twice in the recency list. -/
theorem recentProfiles_nodup (s : Singleton) (h : RecentReachable s) :
    s.recentProfiles.Nodup := by
  induction h with
  | fresh z => simp [construct_recentProfiles]
  | init s st _ hdistinct hnew ih =>
    show (st.recent.foldl initRecentStep s.recentProfiles).Nodup
    rw [initRecent_foldl]
    refine List.nodup_append.2 ⟨ih, hdistinct, ?_⟩
    intro v hv hv2
    exact hnew v hv2 hv
  | notify s name r _ hr ih =>
    rw [notifyRecent_eq] at hr
    cases hr
    exact filter_ne_nodup _ _ ih
  | remove s name r _ hr ih =>
    rw [removeRecent_eq] at hr
    cases hr
    exact ih.filter _
  | clear s _ _ => exact List.nodup_nil

/-- Instance of C8: load two distinct names, then use the second of them. -/
theorem recentProfiles_nodup_witness :
    RecentReachable ({ demoRecentLoaded with recentProfiles := ["file", "rtl"] })
    ∧ ({ demoRecentLoaded with recentProfiles := ["file", "rtl"] } : Singleton).recentProfiles.Nodup :=
  have hr : RecentReachable ({ demoRecentLoaded with recentProfiles := ["file", "rtl"] }) :=
    RecentReachable.notify demoRecentLoaded "file"
      ({ demoRecentLoaded with recentProfiles := ["file", "rtl"] }, true)
      (RecentReachable.init _ _ (RecentReachable.fresh 0) (by decide) (by decide))
      (by rw [notifyRecent_eq]; rfl)
  ⟨hr, recentProfiles_nodup _ hr⟩

/-! ## Spectrum units -/

theorem registerSpectrumUnit_free (s : Singleton) (name : String) (d z : SUFLOAT)
    (h : s.spectrumUnits.find name = none) :
    s.registerSpectrumUnit name d z
      = ({ s with spectrumUnits :=
            s.spectrumUnits.insert name { name := name, dBPerUnit := d, zeroPoint := z } },
          true) := by
  simp [Singleton.registerSpectrumUnit, h]

theorem registerSpectrumUnit_taken (s : Singleton) (name : String) (d z : SUFLOAT)
    (su : SpectrumUnit) (h : s.spectrumUnits.find name = some su) :
    s.registerSpectrumUnit name d z = (s, false) := by
  simp [Singleton.registerSpectrumUnit, h]

/-- C9: for every registry state, name and pair of values: when a spectrum unit
of that name exists, `registerSpectrumUnit` returns false and leaves the registry
as it is, the unit keeping its scale and zero point; when none exists, it returns
true, the map then holds under that name a unit with exactly the given values, and
every other name is mapped as before. -/
theorem registerSpectrumUnit_spec (s : Singleton) (name : String) (d z : SUFLOAT) :
    (∀ su : SpectrumUnit, s.spectrumUnits.find name = some su →
        s.registerSpectrumUnit name d z = (s, false)
        ∧ (s.registerSpectrumUnit name d z).1.spectrumUnits.find name = some su)
    ∧ (s.spectrumUnits.find name = none →
        (s.registerSpectrumUnit name d z).2 = true
        ∧ (s.registerSpectrumUnit name d z).1.spectrumUnits.find name
            = some { name := name, dBPerUnit := d, zeroPoint := z }
        ∧ ∀ other : String, other ≠ name →
            (s.registerSpectrumUnit name d z).1.spectrumUnits.find other
              = s.spectrumUnits.find other) := by
  constructor
  · intro su h
    rw [registerSpectrumUnit_taken s name d z su h]
    exact ⟨rfl, h⟩
  · intro h
    rw [registerSpectrumUnit_free s name d z h]
    exact ⟨rfl, QMap.find_insert_self _ _ _, fun other ho => QMap.find_insert_ne _ _ _ _ ho⟩

/-- Instance of C9: "dBFS" is taken on a fresh registry, "dBuV" is not. -/
theorem registerSpectrumUnit_spec_witness :
    ((Singleton.construct 0).spectrumUnits.find "dBFS"
        = some { name := "dBFS", dBPerUnit := 1, zeroPoint := 0 }
      ∧ (Singleton.construct 0).registerSpectrumUnit "dBFS" 2 3 = (Singleton.construct 0, false))
    ∧ ((Singleton.construct 0).spectrumUnits.find "dBuV" = none
      ∧ ((Singleton.construct 0).registerSpectrumUnit "dBuV" 1 (-107)).2 = true) :=
  ⟨⟨by decide,
      ((registerSpectrumUnit_spec (Singleton.construct 0) "dBFS" 2 3).1
        { name := "dBFS", dBPerUnit := 1, zeroPoint := 0 } (by decide)).1⟩,
    ⟨by decide,
      ((registerSpectrumUnit_spec (Singleton.construct 0) "dBuV" 1 (-107)).2 (by decide)).1⟩⟩

/-- C10 (as stated, refuted): on a freshly constructed registry the first
`registerSpectrumUnit("dBFS", 2, 3)` does not return true, and the unit "dBFS" is
not stored with scale 2 and zero point 3. -/
theorem registerSpectrumUnit_dBFS_on_fresh_refused :
    ¬ (((Singleton.construct 0).registerSpectrumUnit "dBFS" 2 3).2 = true
        ∧ ((Singleton.construct 0).registerSpectrumUnit "dBFS" 2 3).1.spectrumUnits.find "dBFS"
            = some { name := "dBFS", dBPerUnit := 2, zeroPoint := 3 }) := by
  decide

theorem construct_find_dBFS (z0 : SUFLOAT) :
    (Singleton.construct z0).spectrumUnits.find "dBFS"
      = some { name := "dBFS", dBPerUnit := 1, zeroPoint := 0 } := by
  rfl

/-- C10 (amended): the constructor has already registered "dBFS" with scale 1 and
zero point 0, so on a freshly constructed registry `registerSpectrumUnit("dBFS", d, z)`
returns false and changes nothing, on the first call as on the second. On a
registry state without a unit "dBFS", the first call returns true and stores the
unit with scale `d` and zero point `z`, and the second call returns false and
leaves these values unchanged. -/
theorem registerSpectrumUnit_dBFS_twice (z0 d z : SUFLOAT) (s : Singleton) :
    ((Singleton.construct z0).spectrumUnits.find "dBFS"
        = some { name := "dBFS", dBPerUnit := 1, zeroPoint := 0 }
      ∧ (Singleton.construct z0).registerSpectrumUnit "dBFS" d z
          = (Singleton.construct z0, false))
    ∧ (s.spectrumUnits.find "dBFS" = none →
        (s.registerSpectrumUnit "dBFS" d z).2 = true
        ∧ (s.registerSpectrumUnit "dBFS" d z).1.spectrumUnits.find "dBFS"
            = some { name := "dBFS", dBPerUnit := d, zeroPoint := z }
        ∧ (s.registerSpectrumUnit "dBFS" d z).1.registerSpectrumUnit "dBFS" d z
            = ((s.registerSpectrumUnit "dBFS" d z).1, false)) := by
  refine ⟨⟨construct_find_dBFS z0,
    registerSpectrumUnit_taken _ _ d z _ (construct_find_dBFS z0)⟩, ?_⟩
  intro h
  have hfind : (s.registerSpectrumUnit "dBFS" d z).1.spectrumUnits.find "dBFS"
      = some { name := "dBFS", dBPerUnit := d, zeroPoint := z } := by
    rw [registerSpectrumUnit_free s "dBFS" d z h]
    exact QMap.find_insert_self _ _ _
  refine ⟨by rw [registerSpectrumUnit_free s "dBFS" d z h], hfind, ?_⟩
  exact registerSpectrumUnit_taken _ _ d z _ hfind

/-- Instance of C10 on a registry without any spectrum unit. -/
theorem registerSpectrumUnit_dBFS_twice_witness :
    ({} : Singleton).spectrumUnits.find "dBFS" = none
    ∧ (({} : Singleton).registerSpectrumUnit "dBFS" 2 3).2 = true
    ∧ ((({} : Singleton).registerSpectrumUnit "dBFS" 2 3).1.registerSpectrumUnit "dBFS" 2 3).2
        = false :=
  ⟨by decide, ((registerSpectrumUnit_dBFS_twice 0 2 3 {}).2 (by decide)).1,
    by rw [((registerSpectrumUnit_dBFS_twice 0 2 3 {}).2 (by decide)).2.2]⟩

/-! ## Profiles -/

theorem findEntries_isSome_iff {κ ν : Type} [LinearOrder κ] [QKey κ] (k : κ)
    (l : List (κ × ν)) : (findEntries k l).isSome = true ↔ k ∈ l.map Prod.fst := by
  induction l with
  | nil => simp [findEntries]
  | cons hd tl ih =>
    obtain ⟨k1, v1⟩ := hd
    cases hk : keyEq k1 k
    · have hne : k1 ≠ k := fun he => by simp [he, keyEq_self] at hk
      have hne2 : ¬ k = k1 := fun he => hne he.symm
      simp [findEntries, hk, ih, hne2]
    · have hk1 : k1 = k := (keyEq_iff k1 k).1 hk
      subst hk1
      simp [findEntries, hk]

theorem QMap.find_eq_none_iff {κ ν : Type} [LinearOrder κ] [QKey κ] (m : QMap κ ν) (k : κ) :
    m.find k = none ↔ k ∉ m.keys := by
  have h := findEntries_isSome_iff k m.entries
  unfold QMap.find QMap.keys
  rw [← h]
  cases findEntries k m.entries <;> simp

theorem getProfile_eq (s : Singleton) (name : String) :
    s.getProfile name = (s, s.profiles.find name) := by
  unfold Singleton.getProfile
  cases h : s.profiles.find name with
  | none => simp
  | some c => simp [QMap.index_of_find _ _ _ h]

theorem saveProfile_state (s : Singleton) (nat : Native) (profile : Config) :
    (s.saveProfile nat profile).state
      = { s with profiles := s.profiles.insert profile.label profile } := by
  have h := QMap.index_of_find (s.profiles.insert profile.label profile) profile.label profile
    (QMap.find_insert_self _ _ _)
  unfold Singleton.saveProfile
  simp only [h]
  split <;> rfl

theorem saveProfile_find_self (s : Singleton) (nat : Native) (profile : Config) :
    (s.saveProfile nat profile).state.profiles.find profile.label = some profile := by
  rw [saveProfile_state]
  exact QMap.find_insert_self _ _ _

theorem saveProfile_find_ne (s : Singleton) (nat : Native) (profile : Config) (l : String)
    (h : l ≠ profile.label) :
    (s.saveProfile nat profile).state.profiles.find l = s.profiles.find l := by
  rw [saveProfile_state]
  exact QMap.find_insert_ne _ _ _ _ h

/-- C11: for every registry state and profile `P`, `saveProfile(P)` with the native
registration succeeding returns normally, and afterwards `getProfile(P.label())`
gives `P`, whether or not the label was there before, while every other label
gives what it gave before; so two profiles saved under distinct labels are each
found under their own label. `getProfile` gives null exactly for the labels that
are not keys of the map. -/
theorem saveProfile_getProfile (s : Singleton) (nat : Native) (P : Config)
    (hok : nat.source_config_register = true) :
    (s.saveProfile nat P).thrown = false
    ∧ ((s.saveProfile nat P).state.getProfile P.label).2 = some P
    ∧ (∀ l : String, l ≠ P.label →
        ((s.saveProfile nat P).state.getProfile l).2 = (s.getProfile l).2)
    ∧ (∀ (nat2 : Native) (Q : Config), nat2.source_config_register = true →
        Q.label ≠ P.label →
        ((((s.saveProfile nat P).state.saveProfile nat2 Q).state.getProfile P.label).2 = some P
          ∧ (((s.saveProfile nat P).state.saveProfile nat2 Q).state.getProfile Q.label).2
              = some Q))
    ∧ (∀ l : String, (s.getProfile l).2 = none ↔ l ∉ s.profiles.keys) := by
  refine ⟨?_, ?_, ?_, ?_, ?_⟩
  · simp [Singleton.saveProfile, hok]
  · rw [getProfile_eq]
    exact saveProfile_find_self s nat P
  · intro l hl
    rw [getProfile_eq, getProfile_eq]
    exact saveProfile_find_ne s nat P l hl
  · intro nat2 Q _ hne
    rw [getProfile_eq, getProfile_eq]
    refine ⟨?_, saveProfile_find_self _ nat2 Q⟩
    show ((s.saveProfile nat P).state.saveProfile nat2 Q).state.profiles.find P.label = some P
    rw [saveProfile_find_ne _ nat2 Q P.label (Ne.symm hne)]
    exact saveProfile_find_self s nat P
  · intro l
    rw [getProfile_eq]
    exact QMap.find_eq_none_iff _ _

/-- Instance of C11: a profile saved over the one the source walk registered. -/
theorem saveProfile_getProfile_witness :
    demoNative.source_config_register = true
    ∧ ((((Singleton.construct 0).init_sources demoNative).state.saveProfile demoNative
          { demoProfile with antenna := "RX2" }).state.getProfile "rtl").2
        = some { demoProfile with antenna := "RX2" } :=
  ⟨by decide,
    (saveProfile_getProfile ((Singleton.construct 0).init_sources demoNative).state demoNative
      { demoProfile with antenna := "RX2" } (by decide)).2.1⟩

/-- C14 (as stated, refuted): with the native registration failing, `saveProfile`
of the profile "rtl" on a fresh registry throws, and the profile map is not what
it was: the label "rtl", absent before, is now mapped to the profile. -/
theorem saveProfile_failure_changes_map :
    ((Singleton.construct 0).saveProfile demoNativeFailing demoProfile).thrown = true
    ∧ ¬ (((Singleton.construct 0).saveProfile demoNativeFailing demoProfile).state.profiles.find
          "rtl" = (Singleton.construct 0).profiles.find "rtl") := by
  decide

/-- C14 (amended): when the native registration fails inside `saveProfile(P)`, the
method throws right after that call; the profile map has been written before the
call, so it maps `P.label()` to `P` and every other label as before. -/
theorem saveProfile_failure (s : Singleton) (nat : Native) (P : Config)
    (hfail : nat.source_config_register = false) :
    (s.saveProfile nat P).thrown = true
    ∧ (s.saveProfile nat P).calls = [NativeCall.source_config_register P]
    ∧ (s.saveProfile nat P).state = { s with profiles := s.profiles.insert P.label P }
    ∧ (s.saveProfile nat P).state.profiles.find P.label = some P
    ∧ (∀ l : String, l ≠ P.label →
        (s.saveProfile nat P).state.profiles.find l = s.profiles.find l) := by
  have h := QMap.index_of_find (s.profiles.insert P.label P) P.label P
    (QMap.find_insert_self _ _ _)
  refine ⟨?_, ?_, saveProfile_state s nat P, saveProfile_find_self s nat P,
    fun l hl => saveProfile_find_ne s nat P l hl⟩
  · simp [Singleton.saveProfile, hfail]
  · simp [Singleton.saveProfile, hfail, h]

/-- Instance of C14 on a fresh registry. -/
theorem saveProfile_failure_witness :
    demoNativeFailing.source_config_register = false
    ∧ ((Singleton.construct 0).saveProfile demoNativeFailing demoProfile).state.profiles.find
        demoProfile.label = some demoProfile :=
  ⟨by decide,
    (saveProfile_failure (Singleton.construct 0) demoNativeFailing demoProfile
      (by decide)).2.2.2.1⟩

/-! ## Initialization of the subsystems -/

theorem init_sources_again (s : Singleton) (nat nat2 : Native)
    (h : (s.init_sources nat).thrown = false) :
    (s.init_sources nat).state.init_sources nat2
      = { state := (s.init_sources nat).state, thrown := false, calls := [] } := by
  unfold Singleton.init_sources at h ⊢
  cases hf : s.sources_initd <;> cases hn : nat.init_sources <;> simp_all

theorem init_estimators_again (s : Singleton) (nat nat2 : Native)
    (h : (s.init_estimators nat).thrown = false) :
    (s.init_estimators nat).state.init_estimators nat2
      = { state := (s.init_estimators nat).state, thrown := false, calls := [] } := by
  unfold Singleton.init_estimators at h ⊢
  cases hf : s.estimators_initd <;> cases hn : nat.init_estimators <;> simp_all

theorem init_spectrum_sources_again (s : Singleton) (nat nat2 : Native)
    (h : (s.init_spectrum_sources nat).thrown = false) :
    (s.init_spectrum_sources nat).state.init_spectrum_sources nat2
      = { state := (s.init_spectrum_sources nat).state, thrown := false, calls := [] } := by
  unfold Singleton.init_spectrum_sources at h ⊢
  cases hf : s.spectrum_sources_initd <;> cases hn : nat.init_spectsrcs <;> simp_all

theorem init_inspectors_again (s : Singleton) (nat nat2 : Native)
    (h : (s.init_inspectors nat).thrown = false) :
    (s.init_inspectors nat).state.init_inspectors nat2
      = { state := (s.init_inspectors nat).state, thrown := false, calls := [] } := by
  unfold Singleton.init_inspectors at h ⊢
  cases hf : s.inspectors_initd <;> cases hn : nat.init_inspectors <;> simp_all

/-- C12 (the code at the failing input): on a fresh registry, a first `init_codecs`
succeeds and leaves `codecs_initd` false, so a second `init_codecs` calls the native
registration of the codecs again. The other four operations set their flag: after
a call that did not throw, a second call makes no native call and leaves the
registry as it is. -/
theorem init_codecs_not_idempotent :
    (((Singleton.construct 0).init_codecs demoNative).thrown = false
      ∧ ((Singleton.construct 0).init_codecs demoNative).state.codecs_initd = false
      ∧ (((Singleton.construct 0).init_codecs demoNative).state.init_codecs demoNative).calls
          = [NativeCall.codec_class_register_builtin])
    ∧ (∀ (s : Singleton) (nat nat2 : Native),
        ((s.init_sources nat).thrown = false →
          (s.init_sources nat).state.init_sources nat2
            = { state := (s.init_sources nat).state, thrown := false, calls := [] })
        ∧ ((s.init_estimators nat).thrown = false →
          (s.init_estimators nat).state.init_estimators nat2
            = { state := (s.init_estimators nat).state, thrown := false, calls := [] })
        ∧ ((s.init_spectrum_sources nat).thrown = false →
          (s.init_spectrum_sources nat).state.init_spectrum_sources nat2
            = { state := (s.init_spectrum_sources nat).state, thrown := false, calls := [] })
        ∧ ((s.init_inspectors nat).thrown = false →
          (s.init_inspectors nat).state.init_inspectors nat2
            = { state := (s.init_inspectors nat).state, thrown := false, calls := [] })) := by
  refine ⟨by decide, ?_⟩
  intro s nat nat2
  exact ⟨init_sources_again s nat nat2, init_estimators_again s nat nat2,
    init_spectrum_sources_again s nat nat2, init_inspectors_again s nat nat2⟩

/-- C13: for `init_sources`, `init_estimators`, `init_spectrum_sources` and
`init_inspectors` on a registry whose flag is false, a failing native
initialization makes the operation throw after that one native call and leaves
the registry as it was (the flag stays false; `init_sources` registers no profile
and no device), so that a later call starts with the native initialization
again. -/
theorem init_failure_keeps_flag (s : Singleton) (nat nat2 : Native) :
    (s.sources_initd = false → nat.init_sources = false →
        s.init_sources nat
          = { state := s, thrown := true, calls := [NativeCall.init_sources] }
        ∧ (s.init_sources nat).state.sources_initd = false
        ∧ (s.init_sources nat).state.profiles = s.profiles
        ∧ (s.init_sources nat).state.devices = s.devices
        ∧ ((s.init_sources nat).state.init_sources nat2).calls.head?
            = some NativeCall.init_sources)
    ∧ (s.estimators_initd = false → nat.init_estimators = false →
        s.init_estimators nat
          = { state := s, thrown := true, calls := [NativeCall.init_estimators] }
        ∧ (s.init_estimators nat).state.estimators_initd = false
        ∧ ((s.init_estimators nat).state.init_estimators nat2).calls.head?
            = some NativeCall.init_estimators)
    ∧ (s.spectrum_sources_initd = false → nat.init_spectsrcs = false →
        s.init_spectrum_sources nat
          = { state := s, thrown := true, calls := [NativeCall.init_spectsrcs] }
        ∧ (s.init_spectrum_sources nat).state.spectrum_sources_initd = false
        ∧ ((s.init_spectrum_sources nat).state.init_spectrum_sources nat2).calls.head?
            = some NativeCall.init_spectsrcs)
    ∧ (s.inspectors_initd = false → nat.init_inspectors = false →
        s.init_inspectors nat
          = { state := s, thrown := true, calls := [NativeCall.init_inspectors] }
        ∧ (s.init_inspectors nat).state.inspectors_initd = false
        ∧ ((s.init_inspectors nat).state.init_inspectors nat2).calls.head?
            = some NativeCall.init_inspectors) := by
  refine ⟨?_, ?_, ?_, ?_⟩
  · intro hf hn
    have h : s.init_sources nat
        = { state := s, thrown := true, calls := [NativeCall.init_sources] } := by
      simp [Singleton.init_sources, hf, hn]
    rw [h]
    refine ⟨rfl, hf, rfl, rfl, ?_⟩
    cases hn2 : nat2.init_sources <;> simp [Singleton.init_sources, hf, hn2]
  · intro hf hn
    have h : s.init_estimators nat
        = { state := s, thrown := true, calls := [NativeCall.init_estimators] } := by
      simp [Singleton.init_estimators, hf, hn]
    rw [h]
    refine ⟨rfl, hf, ?_⟩
    cases hn2 : nat2.init_estimators <;> simp [Singleton.init_estimators, hf, hn2]
  · intro hf hn
    have h : s.init_spectrum_sources nat
        = { state := s, thrown := true, calls := [NativeCall.init_spectsrcs] } := by
      simp [Singleton.init_spectrum_sources, hf, hn]
    rw [h]
    refine ⟨rfl, hf, ?_⟩
    cases hn2 : nat2.init_spectsrcs <;> simp [Singleton.init_spectrum_sources, hf, hn2]
  · intro hf hn
    have h : s.init_inspectors nat
        = { state := s, thrown := true, calls := [NativeCall.init_inspectors] } := by
      simp [Singleton.init_inspectors, hf, hn]
    rw [h]
    refine ⟨rfl, hf, ?_⟩
    cases hn2 : nat2.init_inspectors <;> simp [Singleton.init_inspectors, hf, hn2]

/-- Instance of C13: the four operations on a fresh registry with a native library
whose initializations fail. -/
theorem init_failure_keeps_flag_witness :
    ((Singleton.construct 0).sources_initd = false ∧ demoNativeFailing.init_sources = false
      ∧ ((Singleton.construct 0).init_sources demoNativeFailing).thrown = true)
    ∧ ((Singleton.construct 0).estimators_initd = false
      ∧ demoNativeFailing.init_estimators = false
      ∧ ((Singleton.construct 0).init_estimators demoNativeFailing).thrown = true)
    ∧ ((Singleton.construct 0).spectrum_sources_initd = false
      ∧ demoNativeFailing.init_spectsrcs = false
      ∧ ((Singleton.construct 0).init_spectrum_sources demoNativeFailing).thrown = true)
    ∧ ((Singleton.construct 0).inspectors_initd = false
      ∧ demoNativeFailing.init_inspectors = false
      ∧ ((Singleton.construct 0).init_inspectors demoNativeFailing).thrown = true) :=
  ⟨⟨by decide, by decide,
      by rw [((init_failure_keeps_flag (Singleton.construct 0) demoNativeFailing
        demoNative).1 (by decide) (by decide)).1]⟩,
    ⟨by decide, by decide,
      by rw [((init_failure_keeps_flag (Singleton.construct 0) demoNativeFailing
        demoNative).2.1 (by decide) (by decide)).1]⟩,
    ⟨by decide, by decide,
      by rw [((init_failure_keeps_flag (Singleton.construct 0) demoNativeFailing
        demoNative).2.2.1 (by decide) (by decide)).1]⟩,
    ⟨by decide, by decide,
      by rw [((init_failure_keeps_flag (Singleton.construct 0) demoNativeFailing
        demoNative).2.2.2 (by decide) (by decide)).1]⟩⟩

/-! ## Devices and network profiles -/

theorem registerSourceDevice_foldl (l : List Device) (s : Singleton) :
    l.foldl Singleton.registerSourceDevice s = { s with devices := s.devices ++ l } := by
  induction l generalizing s with
  | nil => simp
  | cons d t ih =>
    rw [List.foldl_cons, ih]
    simp [Singleton.registerSourceDevice]

theorem refreshDevices_devices (s : Singleton) (nat : Native) :
    (s.refreshDevices nat).devices = nat.source_device_walk := by
  unfold Singleton.refreshDevices
  rw [registerSourceDevice_foldl]
  simp

/-- C17: for every registry state and every sequence `D` of devices that the native
device walk delivers, `refreshDevices()` leaves the device list equal to `D`, in
that order, whatever it held before; `getDeviceAt(i)` then gives the `i`-th element
of `D` for `i < |D|` and null for `i ≥ |D|`, and with `D` empty the device list is
empty and `getDeviceAt` gives null for every index. -/
theorem refreshDevices_rebuilds (s : Singleton) (nat : Native) :
    (s.refreshDevices nat).devices = nat.source_device_walk
    ∧ (∀ i : Nat, i < nat.source_device_walk.length →
        (s.refreshDevices nat).getDeviceAt i = nat.source_device_walk.get? i
        ∧ ((s.refreshDevices nat).getDeviceAt i).isSome = true)
    ∧ (∀ i : Nat, nat.source_device_walk.length ≤ i →
        (s.refreshDevices nat).getDeviceAt i = none)
    ∧ (nat.source_device_walk = [] →
        (s.refreshDevices nat).devices = []
        ∧ ∀ i : Nat, (s.refreshDevices nat).getDeviceAt i = none) := by
  have hd := refreshDevices_devices s nat
  refine ⟨hd, ?_, ?_, ?_⟩
  · intro i hi
    simp only [Singleton.getDeviceAt, hd, hi, if_true]
    simp [List.getElem?_eq_getElem hi]
  · intro i hi
    have : ¬ i < nat.source_device_walk.length := by omega
    simp [Singleton.getDeviceAt, hd, this]
  · intro he
    refine ⟨by rw [hd, he], ?_⟩
    intro i
    simp [Singleton.getDeviceAt, hd, he]

/-- Instance of C17: a registry that held one device is refreshed with two. -/
theorem refreshDevices_rebuilds_witness :
    (1 < demoNative.source_device_walk.length
      ∧ (({ devices := [{ desc := "old" }] } : Singleton).refreshDevices demoNative).getDeviceAt 1
          = some { desc := "HackRF", driver := "hackrf", antennas := ["TX/RX", "RX2"] })
    ∧ (demoNative.source_device_walk.length ≤ 2
      ∧ (({ devices := [{ desc := "old" }] } : Singleton).refreshDevices demoNative).getDeviceAt 2
          = none) :=
  ⟨⟨by decide,
      ((refreshDevices_rebuilds { devices := [{ desc := "old" }] } demoNative).2.1 1
        (by decide)).1⟩,
    ⟨by decide,
      (refreshDevices_rebuilds { devices := [{ desc := "old" }] } demoNative).2.2.1 2
        (by decide)⟩⟩

theorem registerNetworkProfile_find (s : Singleton) (c : NativeConfig) (k : String) :
    (s.registerNetworkProfile c).networkProfiles.find k
      = if c.label.getD "" = k then some c.config else s.networkProfiles.find k := by
  have hname : (match c.label with | none => "" | some l => l) = c.label.getD "" := by
    cases c.label <;> rfl
  unfold Singleton.registerNetworkProfile
  simp only [hname]
  by_cases hk : c.label.getD "" = k
  · rw [if_pos hk, ← hk]
    exact QMap.find_insert_self _ _ _
  · rw [if_neg hk]
    exact QMap.find_insert_ne _ _ _ _ (fun h => hk h.symm)

theorem registerNetworkProfile_foldl_find (l : List NativeConfig) (s : Singleton)
    (k : String) :
    (l.foldl Singleton.registerNetworkProfile s).networkProfiles.find k
      = match l.reverse.find? (fun c => decide (c.label.getD "" = k)) with
        | some c => some c.config
        | none => s.networkProfiles.find k := by
  induction l generalizing s with
  | nil => simp
  | cons c t ih =>
    rw [List.foldl_cons, ih, List.reverse_cons, List.find?_append]
    cases ht : t.reverse.find? (fun c => decide (c.label.getD "" = k)) with
    | some x => simp
    | none =>
      rw [registerNetworkProfile_find]
      by_cases hk : c.label.getD "" = k
      · simp [hk]
      · simp [hk]

/-- C18: for every registry state and every sequence of remote configs that the
native remote-device walk delivers, after `refreshNetworkProfiles()` the keys of the
network-profile map are exactly the delivered labels (nothing from before survives
unless it is delivered again), and under each label the map holds the config
delivered last with that label. -/
theorem refreshNetworkProfiles_rebuilds (s : Singleton) (nat : Native) :
    (∀ l : String, l ∈ (s.refreshNetworkProfiles nat).networkProfiles.keys
        ↔ ∃ c ∈ nat.discovered_remote_device_walk, c.label.getD "" = l)
    ∧ (∀ l : String, (s.refreshNetworkProfiles nat).networkProfiles.find l
        = (nat.discovered_remote_device_walk.reverse.find?
            (fun c => decide (c.label.getD "" = l))).map NativeConfig.config) := by
  have hfind : ∀ l : String, (s.refreshNetworkProfiles nat).networkProfiles.find l
      = (nat.discovered_remote_device_walk.reverse.find?
          (fun c => decide (c.label.getD "" = l))).map NativeConfig.config := by
    intro l
    unfold Singleton.refreshNetworkProfiles
    rw [registerNetworkProfile_foldl_find]
    cases nat.discovered_remote_device_walk.reverse.find?
      (fun c => decide (c.label.getD "" = l)) with
    | some x => rfl
    | none => rfl
  refine ⟨?_, hfind⟩
  intro l
  constructor
  · intro hmem
    by_contra hno
    have hnone : nat.discovered_remote_device_walk.reverse.find?
        (fun c => decide (c.label.getD "" = l)) = none := by
      rw [List.find?_eq_none]
      intro c hc
      have hc2 : c ∈ nat.discovered_remote_device_walk := List.mem_reverse.1 hc
      simpa using fun h => hno ⟨c, hc2, h⟩
    have := hfind l
    rw [hnone] at this
    exact (QMap.find_eq_none_iff _ _).1 this hmem
  · rintro ⟨c, hc, hl⟩
    by_contra hno
    have hnone := (QMap.find_eq_none_iff _ _).2 hno
    rw [hfind l] at hnone
    have hfn : nat.discovered_remote_device_walk.reverse.find?
        (fun c => decide (c.label.getD "" = l)) = none := by
      cases hx : nat.discovered_remote_device_walk.reverse.find?
        (fun c => decide (c.label.getD "" = l)) with
      | none => rfl
      | some x => rw [hx] at hnone; cases hnone
    rw [List.find?_eq_none] at hfn
    have := hfn c (List.mem_reverse.2 hc)
    simp [hl] at this

/-! ## Loading palettes, auto-gain tables and frequency allocation tables -/

theorem haveNamed_iff (tc : TextConv) (acc : List Object) (n : String) :
    haveNamed tc acc n = true ↔ some n ∈ (acc.map Object.data).map (recordName tc) := by
  unfold haveNamed
  rw [List.any_eq_true]
  simp only [List.mem_map, recordName]
  constructor
  · rintro ⟨p, hp, h⟩
    refine ⟨p.data, ⟨p, hp, rfl⟩, ?_⟩
    cases hf : p.data.getField "name" with
    | none => simp [hf] at h
    | some v => simpa [hf] using h
  · rintro ⟨d, ⟨p, hp, rfl⟩, h⟩
    refine ⟨p, hp, ?_⟩
    cases hf : p.data.getField "name" with
    | none => simp [hf] at h
    | some v => simpa [hf] using h

theorem firstPerName_step (tc : TextConv) (done A : List ObjectData) (o : ObjectData)
    (n : String) (hn : recordName tc o = some n)
    (h1 : A.Sublist done) (h2 : (A.map (recordName tc)).Nodup)
    (h3 : ∀ d ∈ done, recordName tc d ∈ A.map (recordName tc))
    (h4 : ∀ r ∈ A, done.find? (fun p => decide (recordName tc p = recordName tc r)) = some r) :
    let B := if some n ∈ A.map (recordName tc) then A else A ++ [o]
    B.Sublist (done ++ [o]) ∧ (B.map (recordName tc)).Nodup
    ∧ (∀ d ∈ done ++ [o], recordName tc d ∈ B.map (recordName tc))
    ∧ (∀ r ∈ B, (done ++ [o]).find? (fun p => decide (recordName tc p = recordName tc r))
        = some r) := by
  have hold : ∀ r ∈ A,
      (done ++ [o]).find? (fun p => decide (recordName tc p = recordName tc r)) = some r := by
    intro r hr
    rw [List.find?_append, h4 r hr]
    rfl
  by_cases hin : some n ∈ A.map (recordName tc)
  · simp only [hin, if_true]
    refine ⟨h1.trans (List.sublist_append_left _ _), h2, ?_, hold⟩
    intro d hd
    rcases List.mem_append.1 hd with hd | hd
    · exact h3 d hd
    · rw [List.mem_singleton.1 hd, hn]
      exact hin
  · simp only [hin, if_false]
    refine ⟨List.Sublist.append h1 (List.Sublist.refl _), ?_, ?_, ?_⟩
    · rw [List.map_append, List.nodup_append]
      refine ⟨h2, by simp, ?_⟩
      intro x hx hx2
      rw [List.map_singleton, List.mem_singleton] at hx2
      rw [hx2, hn] at hx
      exact hin hx
    · intro d hd
      rw [List.map_append]
      rcases List.mem_append.1 hd with hd | hd
      · exact List.mem_append_left _ (h3 d hd)
      · rw [List.mem_singleton.1 hd]
        exact List.mem_append_right _ (by simp)
    · intro r hr
      rcases List.mem_append.1 hr with hr | hr
      · exact hold r hr
      · rw [List.mem_singleton.1 hr, List.find?_append]
        have hnone : done.find? (fun p => decide (recordName tc p = recordName tc o)) = none := by
          rw [List.find?_eq_none]
          intro d hd hdec
          have hd3 := h3 d hd
          rw [of_decide_eq_true hdec, hn] at hd3
          exact hin hd3
        rw [hnone]
        simp

theorem loadNamed_foldl (tc : TextConv) (step : List Object → ObjectData → List Object)
    (hstep : ∀ acc o, step acc o
      = match o.getField "name" with
        | none => acc
        | some v => if !haveNamed tc acc (v.value tc) then acc ++ [listAt o] else acc)
    (l : List ObjectData) (hl : ∀ o ∈ l, (o.getField "name").isSome = true) :
    ∀ (done : List ObjectData) (acc : List Object),
      (acc.map Object.data).Sublist done →
      ((acc.map Object.data).map (recordName tc)).Nodup →
      (∀ d ∈ done, recordName tc d ∈ (acc.map Object.data).map (recordName tc)) →
      (∀ r ∈ acc.map Object.data,
        done.find? (fun p => decide (recordName tc p = recordName tc r)) = some r) →
      FirstPerName tc (done ++ l) ((l.foldl step acc).map Object.data) := by
  induction l with
  | nil =>
    intro done acc h1 h2 h3 h4
    unfold FirstPerName
    simp only [List.append_nil, List.foldl_nil]
    exact ⟨h1, h2, h3, h4⟩
  | cons o t ih =>
    intro done acc h1 h2 h3 h4
    have ho := hl o (List.mem_cons_self _ _)
    obtain ⟨v, hv⟩ := Option.isSome_iff_exists.1 ho
    have hn : recordName tc o = some (v.value tc) := by simp [recordName, hv]
    have hs := firstPerName_step tc done (acc.map Object.data) o (v.value tc) hn h1 h2 h3 h4
    have hdata : (step acc o).map Object.data
        = if some (v.value tc) ∈ (acc.map Object.data).map (recordName tc)
          then acc.map Object.data else acc.map Object.data ++ [o] := by
      rw [hstep, hv]
      by_cases hin : some (v.value tc) ∈ (acc.map Object.data).map (recordName tc)
      · rw [if_pos hin]
        simp [(haveNamed_iff tc acc _).2 hin]
      · have hf : haveNamed tc acc (v.value tc) = false := by
          cases hh : haveNamed tc acc (v.value tc)
          · rfl
          · exact absurd ((haveNamed_iff tc acc _).1 hh) hin
        rw [if_neg hin]
        simp [hf, listAt]
    have hrec := ih (fun x hx => hl x (List.mem_cons_of_mem _ hx)) (done ++ [o]) (step acc o)
    rw [hdata] at hrec
    have hfin := hrec hs.1 hs.2.1 hs.2.2.1 hs.2.2.2
    rw [List.foldl_cons]
    rw [List.append_assoc] at hfin
    exact hfin

theorem initPalettesStep_palettes (tc : TextConv) (s : Singleton) (o : ObjectData) :
    (initPalettesStep tc s o).palettes = loadNamedStep tc s.palettes o := by
  unfold initPalettesStep loadNamedStep Singleton.havePalette
  cases o.getField "name" with
  | none => rfl
  | some v => dsimp only; split <;> rfl

theorem initAutogainsStep_autoGains (tc : TextConv) (s : Singleton) (o : ObjectData) :
    (initAutogainsStep tc s o).autoGains = loadNamedStep tc s.autoGains o := by
  unfold initAutogainsStep loadNamedStep Singleton.haveAutoGain
  cases o.getField "name" with
  | none => rfl
  | some v => dsimp only; split <;> rfl

theorem initFatsStep_FATs (tc : TextConv) (s : Singleton) (o : ObjectData) :
    (initFatsStep tc s o).FATs = loadNamedStep tc s.FATs o := by
  unfold initFatsStep loadNamedStep Singleton.haveFAT
  cases o.getField "name" with
  | none => rfl
  | some v => dsimp only; split <;> rfl

theorem init_palettes_palettes (tc : TextConv) (s : Singleton) (st : Store) :
    (s.init_palettes tc st).palettes = st.palettes.foldl (loadNamedStep tc) s.palettes := by
  unfold Singleton.init_palettes
  generalize st.palettes = l
  induction l generalizing s with
  | nil => rfl
  | cons o t ih => rw [List.foldl_cons, List.foldl_cons, ih, initPalettesStep_palettes]

theorem init_autogains_autoGains (tc : TextConv) (s : Singleton) (st : Store) :
    (s.init_autogains tc st).autoGains = st.autogains.foldl (loadNamedStep tc) s.autoGains := by
  unfold Singleton.init_autogains
  generalize st.autogains = l
  induction l generalizing s with
  | nil => rfl
  | cons o t ih => rw [List.foldl_cons, List.foldl_cons, ih, initAutogainsStep_autoGains]

theorem init_fats_FATs (tc : TextConv) (s : Singleton) (st : Store) :
    (s.init_fats tc st).FATs
      = st.frequency_allocations.foldl (loadNamedStep tc) s.FATs := by
  unfold Singleton.init_fats
  generalize st.frequency_allocations = l
  induction l generalizing s with
  | nil => rfl
  | cons o t ih => rw [List.foldl_cons, List.foldl_cons, ih, initFatsStep_FATs]

theorem loadNamed_firstPerName (tc : TextConv) (l : List ObjectData)
    (hl : ∀ o ∈ l, (o.getField "name").isSome = true) :
    FirstPerName tc l ((l.foldl (loadNamedStep tc) []).map Object.data) := by
  have h := loadNamed_foldl tc (loadNamedStep tc) (fun _ _ => rfl) l hl [] []
    (List.Sublist.refl _) List.nodup_nil (fun d hd => by simp at hd) (fun r hr => by simp at hr)
  simpa using h

/-- C15: for every persisted list of "palettes", "autogains" or
"frequency_allocations" in which every record has a field "name", the matching
`init_palettes`, `init_autogains` or `init_fats` on a registry whose collection is
empty leaves in the collection exactly one entry per distinct name of the persisted
list, namely the first record with that name, the entries standing in the order of
the persisted list. -/
theorem init_named_first_per_name (tc : TextConv) (s : Singleton) (st : Store) :
    (s.palettes = [] → (∀ o ∈ st.palettes, (o.getField "name").isSome = true) →
        FirstPerName tc st.palettes ((s.init_palettes tc st).palettes.map Object.data))
    ∧ (s.autoGains = [] → (∀ o ∈ st.autogains, (o.getField "name").isSome = true) →
        FirstPerName tc st.autogains ((s.init_autogains tc st).autoGains.map Object.data))
    ∧ (s.FATs = [] →
        (∀ o ∈ st.frequency_allocations, (o.getField "name").isSome = true) →
        FirstPerName tc st.frequency_allocations
          ((s.init_fats tc st).FATs.map Object.data)) := by
  refine ⟨?_, ?_, ?_⟩
  · intro he hl
    rw [init_palettes_palettes, he]
    exact loadNamed_firstPerName tc _ hl
  · intro he hl
    rw [init_autogains_autoGains, he]
    exact loadNamed_firstPerName tc _ hl
  · intro he hl
    rw [init_fats_FATs, he]
    exact loadNamed_firstPerName tc _ hl

/-- Instance of C15: of two records named "gray" only the first is loaded. -/
theorem init_named_first_per_name_witness :
    ((Singleton.construct 0).palettes = []
      ∧ (∀ o ∈ demoPaletteStore.palettes, (o.getField "name").isSome = true)
      ∧ FirstPerName demoConv demoPaletteStore.palettes
          (((Singleton.construct 0).init_palettes demoConv demoPaletteStore).palettes.map
            Object.data)
      ∧ ((Singleton.construct 0).init_palettes demoConv demoPaletteStore).palettes.map
            Object.data
          = [demoPalette "gray" "a", demoPalette "hot" "b"])
    ∧ ((Singleton.construct 0).autoGains = []
      ∧ (∀ o ∈ demoPaletteStore.autogains, (o.getField "name").isSome = true)
      ∧ ((Singleton.construct 0).init_autogains demoConv demoPaletteStore).autoGains.map
            Object.data
          = [demoPalette "gray" "a", demoPalette "hot" "b"])
    ∧ ((Singleton.construct 0).FATs = []
      ∧ (∀ o ∈ demoPaletteStore.frequency_allocations, (o.getField "name").isSome = true)
      ∧ ((Singleton.construct 0).init_fats demoConv demoPaletteStore).FATs.map Object.data
          = [demoPalette "gray" "a", demoPalette "hot" "b"]) :=
  ⟨⟨by decide, by decide,
      (init_named_first_per_name demoConv (Singleton.construct 0) demoPaletteStore).1
        (by decide) (by decide),
      by decide⟩,
    ⟨by decide, by decide, by decide⟩, ⟨by decide, by decide, by decide⟩⟩

/-! ## Loading the bookmarks -/

/-- C16 (as stated, refuted): two persisted bookmark records with the same name
"beacon", at the frequencies 145800000 and 137100000, are both loaded by
`init_bookmarks`: the bookmark map then holds two bookmarks of that name. -/
theorem init_bookmarks_keeps_same_name :
    (((Singleton.construct 0).init_bookmarks demoConv
        { bookmarks := [demoBookmarkRecord "beacon" "145800000",
                        demoBookmarkRecord "beacon" "137100000"] }).bookmarks.entries.filter
      (fun e => decide (e.2.info.name = "beacon"))).length = 2 := by
  decide

/-! ## Flushing the UI configuration -/

/-- Instance of C18: the label "remote" is delivered twice and a stale label is gone. -/
theorem refreshNetworkProfiles_rebuilds_witness :
    (({ networkProfiles := QMap.empty.insert "stale" demoProfile } :
        Singleton).refreshNetworkProfiles demoNative).networkProfiles.find "remote"
      = some { label := "remote", antenna := "B" }
    ∧ (({ networkProfiles := QMap.empty.insert "stale" demoProfile } :
        Singleton).refreshNetworkProfiles demoNative).networkProfiles.find "stale" = none :=
  ⟨(refreshNetworkProfiles_rebuilds
      { networkProfiles := QMap.empty.insert "stale" demoProfile } demoNative).2 "remote",
    by decide⟩

/-! ## The configuration dialog -/

theorem findAntenna_isNone_iff (dev : Device) (name : String) :
    (dev.findAntenna name).isNone = true ↔ name ∉ dev.antennas := by
  unfold Device.findAntenna
  rw [Option.isNone_iff_eq_none, List.find?_eq_none]
  constructor
  · intro h hmem
    simpa using h name hmem
  · intro h a ha hdec
    exact h (by rw [← of_decide_eq_true hdec]; exact ha)

/-- C20: for every profile and every device selection that `onDeviceChanged`
handles (dialog not refreshing, index other than -1 that resolves to a device of the
registry, local analyzer selected), the handler returns normally and afterwards the
profile is bound to that device; the former antenna is kept when it is one of the
device's antennas, and replaced by the device's first antenna when it is not and
the device has an antenna. So whenever the device has an antenna, the profile's
antenna afterwards is one of the device's. -/
theorem onDeviceChanged_antenna (d : ConfigDialog) (sus : Singleton) (index : Int)
    (bw : Option SUFLOAT) (device : Device)
    (hr : d.refreshing = false) (hi : index ≠ -1) (hl : d.remoteSelected = false)
    (hdev : sus.getDeviceAt (toUnsigned (d.deviceItemData index)) = some device) :
    (d.onDeviceChanged sus index bw).2 = false
    ∧ (d.onDeviceChanged sus index bw).1.profile.device = device
    ∧ (d.profile.antenna ∈ device.antennas →
        (d.onDeviceChanged sus index bw).1.profile.antenna = d.profile.antenna)
    ∧ (d.profile.antenna ∉ device.antennas → ∀ (a : String) (rest : List String),
        device.antennas = a :: rest →
        (d.onDeviceChanged sus index bw).1.profile.antenna = a)
    ∧ (device.antennas ≠ [] →
        (d.onDeviceChanged sus index bw).1.profile.antenna ∈ device.antennas) := by
  have hcond : (!d.refreshing && index != -1 && !d.remoteSelected) = true := by
    simp [hr, hl, hi]
  have hkeep : d.profile.antenna ∈ device.antennas →
      (d.onDeviceChanged sus index bw).1.profile.antenna = d.profile.antenna := by
    intro hmem
    have hn : (device.findAntenna d.profile.antenna).isNone = false := by
      cases h : (device.findAntenna d.profile.antenna).isNone
      · rfl
      · exact absurd hmem ((findAntenna_isNone_iff _ _).1 h)
    unfold ConfigDialog.onDeviceChanged
    rw [if_pos hcond, hdev]
    cases bw <;> simp [Config.setDevice, Config.setAntenna, Config.setBandwidth, hn]
  have hfirst : d.profile.antenna ∉ device.antennas → ∀ (a : String) (rest : List String),
      device.antennas = a :: rest →
      (d.onDeviceChanged sus index bw).1.profile.antenna = a := by
    intro hnot a rest hant
    have hn : (device.findAntenna d.profile.antenna).isNone = true :=
      (findAntenna_isNone_iff _ _).2 hnot
    unfold ConfigDialog.onDeviceChanged
    rw [if_pos hcond, hdev]
    cases bw <;> simp [Config.setDevice, Config.setAntenna, Config.setBandwidth, hn, hant]
  refine ⟨?_, ?_, hkeep, hfirst, ?_⟩
  · unfold ConfigDialog.onDeviceChanged
    rw [if_pos hcond, hdev]
  · unfold ConfigDialog.onDeviceChanged
    rw [if_pos hcond, hdev]
    cases bw <;> dsimp only [Config.setDevice, Config.setAntenna, Config.setBandwidth] <;>
      split <;> rfl
  · intro hne
    by_cases hmem : d.profile.antenna ∈ device.antennas
    · rw [hkeep hmem]
      exact hmem
    · cases hant : device.antennas with
      | nil => exact absurd hant hne
      | cons a rest =>
        rw [hfirst hmem a rest hant]
        exact List.mem_cons_self _ _

/-- Instance of C20: the second device is selected; the profile's antenna "RX" is
not one of its antennas and becomes "TX/RX". -/
theorem onDeviceChanged_antenna_witness :
    demoDialog.refreshing = false ∧ (1 : Int) ≠ -1 ∧ demoDialog.remoteSelected = false
    ∧ (({} : Singleton).refreshDevices demoNative).getDeviceAt
          (toUnsigned (demoDialog.deviceItemData 1))
        = some { desc := "HackRF", driver := "hackrf", antennas := ["TX/RX", "RX2"] }
    ∧ (demoDialog.onDeviceChanged (({} : Singleton).refreshDevices demoNative) 1
          none).1.profile.antenna = "TX/RX" :=
  ⟨by decide, by decide, by decide, by decide,
    (onDeviceChanged_antenna demoDialog (({} : Singleton).refreshDevices demoNative) 1 none
      { desc := "HackRF", driver := "hackrf", antennas := ["TX/RX", "RX2"] }
      (by decide) (by decide) (by decide) (by decide)).2.2.2.1 (by decide) "TX/RX" ["RX2"]
        rfl⟩

/-! ## The UI configuration vector -/

theorem putUIConfig_in_range (s : Singleton) (pos : Nat) (rv : Object)
    (hpos : pos < 4294967295) :
    ∃ r : Singleton, s.putUIConfig pos rv = some r
      ∧ r.uiConfig.length = max s.uiConfig.length (pos + 1)
      ∧ r.uiConfig.get? pos = some rv
      ∧ (∀ i : Nat, i < s.uiConfig.length → i ≠ pos → r.uiConfig.get? i = s.uiConfig.get? i) := by
  have hmod : (pos + 1) % 4294967296 = pos + 1 := Nat.mod_eq_of_lt (by omega)
  unfold Singleton.putUIConfig
  simp only [hmod]
  by_cases hge : pos ≥ s.uiConfig.length
  · have hlen : (vectorResize s.uiConfig (pos + 1)).length = pos + 1 := by
      simp [vectorResize]
      omega
    rw [if_pos hge, if_pos (by rw [hlen]; omega)]
    refine ⟨_, rfl, ?_, ?_, ?_⟩
    · simp [hlen]
      omega
    · simp [List.getElem?_set, hlen]
    · intro i hi hne
      have hne2 : ¬ pos = i := fun h => hne h.symm
      simp only [List.get?_eq_getElem?, List.getElem?_set, hne2, if_false]
      unfold vectorResize
      rw [List.getElem?_append_left (by simp; omega)]
      rw [List.getElem?_take]
      simp
      omega
  · have hlt : pos < s.uiConfig.length := by omega
    rw [if_neg hge, if_pos hlt]
    refine ⟨_, rfl, ?_, ?_, ?_⟩
    · simp
      omega
    · simp [List.getElem?_set, hlt]
    · intro i _ hne
      have hne2 : ¬ pos = i := fun h => hne h.symm
      simp [List.getElem?_set, hne2]

/-- C24 (the code at the failing input): with `pos = 2^32 - 1` on an empty vector
the sum `pos + 1` wraps to 0, the vector is resized to 0 members and the assignment
at `pos` is out of range. For every position below `2^32 - 1` the call stays in
range and leaves a vector of length `max(|U|, pos + 1)` that holds the object at
`pos` and the former objects at the other positions below `|U|`. -/
theorem putUIConfig_wraps_at_max :
    (({} : Singleton).putUIConfig 4294967295 { data := ObjectData.field "v" }).isNone = true
    ∧ (∀ (s : Singleton) (pos : Nat) (rv : Object), pos < 4294967295 →
        ∃ r : Singleton, s.putUIConfig pos rv = some r
          ∧ r.uiConfig.length = max s.uiConfig.length (pos + 1)
          ∧ r.uiConfig.get? pos = some rv
          ∧ (∀ i : Nat, i < s.uiConfig.length → i ≠ pos →
              r.uiConfig.get? i = s.uiConfig.get? i)) := by
  refine ⟨by decide, ?_⟩
  intro s pos rv hpos
  exact putUIConfig_in_range s pos rv hpos

/-! ## Consistency of the bookmark indices -/

theorem initBookmarksLoop_find (tc : TextConv) (f : Int) (l : List ObjectData) :
    ∀ (i : Nat) (m : QMap Int Bookmark),
      (initBookmarksLoop tc i l m).find f
        = match lastRecordFor tc f i l with
          | some r => some r.2
          | none => m.find f := by
  induction l with
  | nil => intro i m; rfl
  | cons o t ih =>
    intro i m
    unfold initBookmarksLoop lastRecordFor
    cases hb : bookmarkOfRecord tc i o with
    | none =>
      simp only
      rw [ih]
      cases lastRecordFor tc f (i + 1) t <;> rfl
    | some r =>
      simp only
      rw [ih]
      cases lastRecordFor tc f (i + 1) t with
      | some x => rfl
      | none =>
        simp only
        by_cases hr : r.1 = f
        · rw [if_pos hr, ← hr]
          exact QMap.find_insert_self _ _ _
        · rw [if_neg hr]
          exact QMap.find_insert_ne _ _ _ _ (fun h => hr h.symm)

theorem lastRecordFor_some (tc : TextConv) (f : Int) (l : List ObjectData) :
    ∀ (i k : Nat) (bm : Bookmark), lastRecordFor tc f i l = some (k, bm) →
      ∃ (j : Nat) (o : ObjectData), k = i + j ∧ l.get? j = some o
        ∧ bookmarkOfRecord tc k o = some (f, bm)
        ∧ ∀ (j2 : Nat) (o2 : ObjectData) (bm2 : Bookmark), j < j2 → l.get? j2 = some o2 →
            bookmarkOfRecord tc (i + j2) o2 ≠ some (f, bm2) := by
  induction l with
  | nil => intro i k bm h; simp [lastRecordFor] at h
  | cons o t ih =>
    intro i k bm h
    unfold lastRecordFor at h
    cases hrest : lastRecordFor tc f (i + 1) t with
    | some r =>
      rw [hrest] at h
      simp only [Option.some.injEq] at h
      subst h
      obtain ⟨j, o1, hk, hget, hrec, hlast⟩ := ih (i + 1) k bm hrest
      refine ⟨j + 1, o1, by omega, by simpa using hget, hrec, ?_⟩
      intro j2 o2 bm2 hlt hget2
      obtain ⟨j3, rfl⟩ : ∃ j3, j2 = j3 + 1 := ⟨j2 - 1, by omega⟩
      have h3 := hlast j3 o2 bm2 (by omega) (by simpa using hget2)
      have he : i + (j3 + 1) = i + 1 + j3 := by omega
      rw [he]
      exact h3
    | none =>
      rw [hrest] at h
      simp only at h
      cases hb : bookmarkOfRecord tc i o with
      | none => rw [hb] at h; simp at h
      | some r =>
        rw [hb] at h
        simp only at h
        by_cases hr : r.1 = f
        · rw [if_pos hr] at h
          simp only [Option.some.injEq, Prod.mk.injEq] at h
          obtain ⟨hk, hbm⟩ := h
          subst hk hbm
          refine ⟨0, o, rfl, rfl, by rw [hb, ← hr], ?_⟩
          intro j2 o2 bm2 hlt hget2 hcon
          obtain ⟨j3, rfl⟩ : ∃ j3, j2 = j3 + 1 := ⟨j2 - 1, by omega⟩
          have hget3 : t.get? j3 = some o2 := by simpa using hget2
          clear ih
          revert hrest
          have hgen : ∀ (t : List ObjectData) (i1 j : Nat),
              t.get? j = some o2 → bookmarkOfRecord tc (i1 + j) o2 = some (f, bm2) →
              lastRecordFor tc f i1 t ≠ none := by
            intro t
            induction t with
            | nil => intro i1 j hg; simp at hg
            | cons x u ihu =>
              intro i1 j hg hbk
              unfold lastRecordFor
              cases j with
              | zero =>
                simp only [List.get?_cons_zero, Option.some.injEq] at hg
                subst hg
                cases lastRecordFor tc f (i1 + 1) u with
                | some y => simp
                | none => simp [show bookmarkOfRecord tc i1 x = some (f, bm2) from hbk]
              | succ j4 =>
                have hg4 : u.get? j4 = some o2 := by simpa using hg
                have hne := ihu (i1 + 1) j4 hg4 (by
                  have he : i1 + 1 + j4 = i1 + (j4 + 1) := by omega
                  rw [he]
                  exact hbk)
                cases hl : lastRecordFor tc f (i1 + 1) u with
                | some y => simp
                | none => exact absurd hl hne
          intro hrest
          exact hgen t (i + 1) j3 hget3 (by
            have he : i + 1 + j3 = i + (j3 + 1) := by omega
            rw [he]
            exact hcon) hrest
        · rw [if_neg hr] at h
          simp at h

theorem lastRecordFor_none (tc : TextConv) (f : Int) (l : List ObjectData) :
    ∀ (i : Nat), lastRecordFor tc f i l = none →
      ∀ (j : Nat) (o : ObjectData) (bm : Bookmark), l.get? j = some o →
        bookmarkOfRecord tc (i + j) o ≠ some (f, bm) := by
  induction l with
  | nil => intro i _ j o bm hg; simp at hg
  | cons x t ih =>
    intro i h j o bm hg hcon
    unfold lastRecordFor at h
    cases hrest : lastRecordFor tc f (i + 1) t with
    | some r => rw [hrest] at h; simp at h
    | none =>
      rw [hrest] at h
      simp only at h
      cases j with
      | zero =>
        simp only [List.get?_cons_zero, Option.some.injEq] at hg
        subst hg
        rw [show bookmarkOfRecord tc i x = some (f, bm) from hcon] at h
        simp at h
      | succ j1 =>
        have hg1 : t.get? j1 = some o := by simpa using hg
        refine ih (i + 1) hrest j1 o bm hg1 ?_
        have he : i + 1 + j1 = i + (j1 + 1) := by omega
        rw [he]
        exact hcon

theorem bookmarkOfRecord_entry (tc : TextConv) (i : Nat) (o : ObjectData) (f : Int)
    (bm : Bookmark) (h : bookmarkOfRecord tc i o = some (f, bm)) :
    bm.entry = toInt32 i ∧ bm.info.frequency = f := by
  unfold bookmarkOfRecord at h
  split at h
  · split at h
    · dsimp only at h
      split at h
      · simp only [Option.some.injEq, Prod.mk.injEq] at h
        obtain ⟨hf, hbm⟩ := h
        subst hbm
        exact ⟨rfl, hf⟩
      · cases h
    · cases h
  · cases h

theorem bookmarkOfRecord_isSome_iff (tc : TextConv) (i : Nat) (o : ObjectData) :
    (bookmarkOfRecord tc i o).isSome = true
      ↔ ∃ fv nv cv : FieldValue, o.getField "frequency" = some fv
          ∧ o.getField "name" = some nv ∧ o.getField "color" = some cv
          ∧ (tc.scanReal (fv.value tc)).isSome = true ∧ nv.value tc ≠ "" := by
  have hname : ∀ info : BookmarkInfo, (bookmarkExtended tc o info).name = info.name := by
    intro info
    unfold bookmarkExtended
    split <;> rfl
  have hlen : ∀ t : String, t.length > 0 ↔ t ≠ "" := by
    intro t
    cases t with
    | mk d =>
      cases d with
      | nil => simp [String.length]
      | cons c r => simp [String.length, String.ext_iff]
  unfold bookmarkOfRecord
  constructor
  · intro h
    split at h
    · rename_i fv nv cv hf hn hc
      refine ⟨fv, nv, cv, hf, hn, hc, ?_⟩
      cases hs : tc.scanReal (fv.value tc) with
      | none => simp [hs] at h
      | some freq =>
        refine ⟨rfl, ?_⟩
        simp only [hs, hname] at h
        by_contra hempty
        simp [hempty] at h
    · simp at h
  · rintro ⟨fv, nv, cv, hf, hn, hc, hs, hne⟩
    obtain ⟨freq, hfreq⟩ := Option.isSome_iff_exists.1 hs
    simp only [hf, hn, hc, hfreq, hname]
    have : nv.value tc ≠ "" := hne
    have hpos := (hlen (nv.value tc)).2 this
    simp [hpos]

theorem initBookmarksLoop_replicate (tc : TextConv) (n : Nat) (tag : Nat)
    (rest : List ObjectData) :
    ∀ (i : Nat) (m : QMap Int Bookmark),
      initBookmarksLoop tc i (List.replicate n (ObjectData.other tag) ++ rest) m
        = initBookmarksLoop tc (i + n) rest m := by
  induction n with
  | zero => intro i m; rfl
  | succ k ih =>
    intro i m
    have hnone : bookmarkOfRecord tc i (ObjectData.other tag) = none := rfl
    have he : i + 1 + k = i + (k + 1) := by omega
    rw [List.replicate_succ, List.cons_append]
    simp only [initBookmarksLoop, hnone]
    rw [ih, he]

theorem bookmarkOfRecord_key (tc : TextConv) (i : Nat) (o : ObjectData) (f : Int)
    (bm : Bookmark) (h : bookmarkOfRecord tc i o = some (f, bm)) :
    ∃ fv : FieldValue, o.getField "frequency" = some fv
      ∧ tc.scanReal (fv.value tc) = some f := by
  unfold bookmarkOfRecord at h
  split at h
  · rename_i fv nv cv hf hn hc
    split at h
    · rename_i freq hs
      dsimp only at h
      split at h
      · simp only [Option.some.injEq, Prod.mk.injEq] at h
        exact ⟨fv, hf, by rw [hs, h.1]⟩
      · cases h
    · cases h
  · cases h

theorem toInt32_of_lt (k : Nat) (h : k < 2147483648) : toInt32 k = (k : Int) := by
  unfold toInt32
  have hm : k % 4294967296 = k := Nat.mod_eq_of_lt (by omega)
  rw [hm, if_pos h]

theorem init_bookmarks_find (tc : TextConv) (s : Singleton) (st : Store) (f : Int)
    (hempty : s.bookmarks = QMap.empty) :
    (s.init_bookmarks tc st).bookmarks.find f
      = (lastRecordFor tc f 0 st.bookmarks).map Prod.snd := by
  show (initBookmarksLoop tc 0 st.bookmarks s.bookmarks).find f = _
  rw [initBookmarksLoop_find, hempty]
  cases lastRecordFor tc f 0 st.bookmarks <;> rfl

theorem init_bookmarks_after_padding (tc : TextConv) (n : Nat) (r : ObjectData) (f : Int)
    (bm : Bookmark) (h : bookmarkOfRecord tc n r = some (f, bm)) :
    (({} : Singleton).init_bookmarks tc
        { bookmarks := List.replicate n (ObjectData.other 0) ++ [r] }).bookmarks.find f
      = some bm := by
  unfold Singleton.init_bookmarks
  simp only [initBookmarksLoop_replicate, Nat.zero_add, initBookmarksLoop, h]
  exact QMap.find_insert_self _ _ _

theorem get_after_padding (n : Nat) (x r : ObjectData) :
    (List.replicate n x ++ [r]).get? n = some r := by
  rw [List.get?_eq_getElem?, List.getElem?_append_right (by simp)]
  simp

theorem lastAt_of_lastRecordFor (tc : TextConv) (f : Int) (l : List ObjectData) (k : Nat)
    (bm : Bookmark) (h : lastRecordFor tc f 0 l = some (k, bm)) :
    LastAtFrequency tc l k f := by
  obtain ⟨j, o, hk, _, _, hlast⟩ := lastRecordFor_some tc f l 0 k bm h
  rw [Nat.zero_add] at hk
  subst hk
  intro k2 o2 bm2 hlt hget
  have h2 := hlast k2 o2 bm2 hlt hget
  rw [Nat.zero_add] at h2
  exact h2

theorem init_bookmarks_last_wins (tc : TextConv) (s : Singleton) (st : Store) (k : Nat)
    (o : ObjectData) (f : Int) (bm : Bookmark) (hget : st.bookmarks.get? k = some o)
    (hrec : bookmarkOfRecord tc k o = some (f, bm))
    (hl : LastAtFrequency tc st.bookmarks k f) :
    (s.init_bookmarks tc st).bookmarks.find f = some bm := by
  have hfind : (s.init_bookmarks tc st).bookmarks.find f
      = match lastRecordFor tc f 0 st.bookmarks with
        | some r => some r.2
        | none => s.bookmarks.find f := initBookmarksLoop_find tc f st.bookmarks 0 s.bookmarks
  cases hr : lastRecordFor tc f 0 st.bookmarks with
  | none =>
    have h2 := lastRecordFor_none tc f st.bookmarks 0 hr k o bm hget
    rw [Nat.zero_add] at h2
    exact absurd hrec h2
  | some r =>
    rw [hr] at hfind
    rw [hfind]
    obtain ⟨j, o2, hk, hget2, hrec2, hlast2⟩ :=
      lastRecordFor_some tc f st.bookmarks 0 r.1 r.2 (by rw [hr])
    rw [Nat.zero_add] at hk
    rw [hk] at hrec2
    rcases Nat.lt_trichotomy k j with hlt | heq | hgt
    · exact absurd hrec2 (hl j o2 r.2 hlt hget2)
    · subst heq
      rw [hget] at hget2
      cases hget2
      rw [hrec] at hrec2
      simp only [Option.some.injEq, Prod.mk.injEq] at hrec2
      rw [hrec2.2]
    · have h3 := hlast2 k o bm hgt hget
      rw [Nat.zero_add] at h3
      exact absurd hrec h3

theorem two_le_length_of_mem {α : Type} (l : List α) (a b : α) (ha : a ∈ l) (hb : b ∈ l)
    (hne : a ≠ b) : 2 ≤ l.length := by
  match l, ha, hb with
  | [], ha, _ => simp at ha
  | [x], ha, hb =>
    simp only [List.mem_singleton] at ha hb
    exact absurd (ha.trans hb.symm) hne
  | _ :: _ :: _, _, _ => simp

/-- C16 (amended): `init_bookmarks` tests no name. For every persisted "bookmarks"
list and every bookmark map it is loaded into: the frequency of every record that
yields a bookmark is a key of the map afterwards; the bookmark at a frequency is
the one made of the last record that yields a bookmark at that frequency, in place
of whatever was loaded there before, and it is the only one there; a frequency at
which no record yields a bookmark keeps what the map had. So two records with the
same name at different frequencies, each the last at its frequency, are both in
the map, one at each frequency, and of two records at the same frequency the map
holds exactly one bookmark, that of the later record. Every frequency of a record
that yields a bookmark has such a last record. A record yields a bookmark
when its fields "frequency", "name" and "color" are present, the frequency is
scanned and the name is not empty; its key is the frequency scanned. -/
theorem init_bookmarks_keyed_by_frequency (tc : TextConv) (s : Singleton) (st : Store) :
    (∀ (k : Nat) (o : ObjectData) (f : Int) (bm : Bookmark),
        st.bookmarks.get? k = some o → bookmarkOfRecord tc k o = some (f, bm) →
        f ∈ (s.init_bookmarks tc st).bookmarks.keys
        ∧ (LastAtFrequency tc st.bookmarks k f →
            (s.init_bookmarks tc st).bookmarks.find f = some bm
            ∧ (s.init_bookmarks tc st).bookmarks.entries.filter
                (fun e => decide (e.1 = f)) = [(f, bm)]))
    ∧ (∀ f : Int,
        (∀ (k : Nat) (o : ObjectData) (bm : Bookmark), st.bookmarks.get? k = some o →
          bookmarkOfRecord tc k o ≠ some (f, bm)) →
        (s.init_bookmarks tc st).bookmarks.find f = s.bookmarks.find f)
    ∧ (∀ (k1 k2 : Nat) (o1 o2 : ObjectData) (f1 f2 : Int) (b1 b2 : Bookmark),
        st.bookmarks.get? k1 = some o1 → st.bookmarks.get? k2 = some o2 →
        bookmarkOfRecord tc k1 o1 = some (f1, b1) →
        bookmarkOfRecord tc k2 o2 = some (f2, b2) →
        b1.info.name = b2.info.name → f1 ≠ f2 →
        LastAtFrequency tc st.bookmarks k1 f1 → LastAtFrequency tc st.bookmarks k2 f2 →
        (s.init_bookmarks tc st).bookmarks.find f1 = some b1
        ∧ (s.init_bookmarks tc st).bookmarks.find f2 = some b2
        ∧ 2 ≤ ((s.init_bookmarks tc st).bookmarks.entries.filter
                (fun e => decide (e.2.info.name = b1.info.name))).length)
    ∧ (∀ (k1 k2 : Nat) (o1 o2 : ObjectData) (f : Int) (b1 b2 : Bookmark),
        st.bookmarks.get? k1 = some o1 → st.bookmarks.get? k2 = some o2 →
        bookmarkOfRecord tc k1 o1 = some (f, b1) →
        bookmarkOfRecord tc k2 o2 = some (f, b2) →
        k1 < k2 → LastAtFrequency tc st.bookmarks k2 f →
        (s.init_bookmarks tc st).bookmarks.entries.filter
            (fun e => decide (e.1 = f)) = [(f, b2)])
    ∧ (∀ (k : Nat) (o : ObjectData), (bookmarkOfRecord tc k o).isSome = true
        ↔ ∃ fv nv cv : FieldValue, o.getField "frequency" = some fv
            ∧ o.getField "name" = some nv ∧ o.getField "color" = some cv
            ∧ (tc.scanReal (fv.value tc)).isSome = true ∧ nv.value tc ≠ "")
    ∧ (∀ (k : Nat) (o : ObjectData) (f : Int) (bm : Bookmark),
        bookmarkOfRecord tc k o = some (f, bm) →
        ∃ fv : FieldValue, o.getField "frequency" = some fv
          ∧ tc.scanReal (fv.value tc) = some f)
    ∧ (∀ (k : Nat) (o : ObjectData) (f : Int) (bm : Bookmark),
        st.bookmarks.get? k = some o → bookmarkOfRecord tc k o = some (f, bm) →
        ∃ (k2 : Nat) (o2 : ObjectData) (bm2 : Bookmark), k ≤ k2
          ∧ st.bookmarks.get? k2 = some o2 ∧ bookmarkOfRecord tc k2 o2 = some (f, bm2)
          ∧ LastAtFrequency tc st.bookmarks k2 f
          ∧ (s.init_bookmarks tc st).bookmarks.find f = some bm2) := by
  have hlast : ∀ (k : Nat) (o : ObjectData) (f : Int) (bm : Bookmark),
      st.bookmarks.get? k = some o → bookmarkOfRecord tc k o = some (f, bm) →
      LastAtFrequency tc st.bookmarks k f →
      (s.init_bookmarks tc st).bookmarks.find f = some bm := by
    intro k o f bm hget hrec hl
    exact init_bookmarks_last_wins tc s st k o f bm hget hrec hl
  have hone : ∀ (k : Nat) (o : ObjectData) (f : Int) (bm : Bookmark),
      st.bookmarks.get? k = some o → bookmarkOfRecord tc k o = some (f, bm) →
      LastAtFrequency tc st.bookmarks k f →
      (s.init_bookmarks tc st).bookmarks.entries.filter
          (fun e => decide (e.1 = f)) = [(f, bm)] := by
    intro k o f bm hget hrec hl
    exact filter_key_of_find _ (s.init_bookmarks tc st).bookmarks.ascending f bm
      (hlast k o f bm hget hrec hl)
  have hex : ∀ (k : Nat) (o : ObjectData) (f : Int) (bm : Bookmark),
      st.bookmarks.get? k = some o → bookmarkOfRecord tc k o = some (f, bm) →
      ∃ (k2 : Nat) (o2 : ObjectData) (bm2 : Bookmark), k ≤ k2
        ∧ st.bookmarks.get? k2 = some o2 ∧ bookmarkOfRecord tc k2 o2 = some (f, bm2)
        ∧ LastAtFrequency tc st.bookmarks k2 f
        ∧ (s.init_bookmarks tc st).bookmarks.find f = some bm2 := by
    intro k o f bm hget hrec
    cases hl : lastRecordFor tc f 0 st.bookmarks with
    | none =>
      have h2 := lastRecordFor_none tc f st.bookmarks 0 hl k o bm hget
      rw [Nat.zero_add] at h2
      exact absurd hrec h2
    | some r =>
      have hla := lastAt_of_lastRecordFor tc f st.bookmarks r.1 r.2 (by rw [hl])
      obtain ⟨j, o2, hk, hget2, hrec2, _⟩ :=
        lastRecordFor_some tc f st.bookmarks 0 r.1 r.2 (by rw [hl])
      rw [Nat.zero_add] at hk
      rw [hk] at hrec2 hla
      refine ⟨j, o2, r.2, ?_, hget2, hrec2, hla, hlast j o2 f r.2 hget2 hrec2 hla⟩
      by_contra hlt
      exact hla k o bm (by omega) hget hrec
  refine ⟨?_, ?_, ?_, ?_, fun k o => bookmarkOfRecord_isSome_iff tc k o,
    fun k o f bm h => bookmarkOfRecord_key tc k o f bm h, hex⟩
  · intro k o f bm hget hrec
    refine ⟨?_, fun hl => ⟨hlast k o f bm hget hrec hl, hone k o f bm hget hrec hl⟩⟩
    by_contra hno
    have hnone := (QMap.find_eq_none_iff _ _).2 hno
    have hfind : (s.init_bookmarks tc st).bookmarks.find f
        = match lastRecordFor tc f 0 st.bookmarks with
          | some r => some r.2
          | none => s.bookmarks.find f := initBookmarksLoop_find tc f st.bookmarks 0 s.bookmarks
    cases hl : lastRecordFor tc f 0 st.bookmarks with
    | some r => rw [hl] at hfind; rw [hfind] at hnone; cases hnone
    | none =>
      have h2 := lastRecordFor_none tc f st.bookmarks 0 hl k o bm hget
      rw [Nat.zero_add] at h2
      exact h2 hrec
  · intro f hno
    have hfind : (s.init_bookmarks tc st).bookmarks.find f
        = match lastRecordFor tc f 0 st.bookmarks with
          | some r => some r.2
          | none => s.bookmarks.find f := initBookmarksLoop_find tc f st.bookmarks 0 s.bookmarks
    cases hl : lastRecordFor tc f 0 st.bookmarks with
    | none => rw [hl] at hfind; exact hfind
    | some r =>
      obtain ⟨j, o, hk, hget, hrec, _⟩ :=
        lastRecordFor_some tc f st.bookmarks 0 r.1 r.2 (by rw [hl])
      rw [Nat.zero_add] at hk
      rw [hk] at hrec
      exact absurd hrec (hno j o r.2 hget)
  · intro k1 k2 o1 o2 f1 f2 b1 b2 hg1 hg2 hr1 hr2 hname hne hl1 hl2
    have hf1 := hlast k1 o1 f1 b1 hg1 hr1 hl1
    have hf2 := hlast k2 o2 f2 b2 hg2 hr2 hl2
    refine ⟨hf1, hf2, ?_⟩
    have hm1 : (f1, b1) ∈ (s.init_bookmarks tc st).bookmarks.entries.filter
        (fun e => decide (e.2.info.name = b1.info.name)) := by
      have h := hone k1 o1 f1 b1 hg1 hr1 hl1
      have hin : (f1, b1) ∈ (s.init_bookmarks tc st).bookmarks.entries.filter
          (fun e => decide (e.1 = f1)) := by rw [h]; exact List.mem_singleton.2 rfl
      exact List.mem_filter.2 ⟨(List.mem_filter.1 hin).1, by simp⟩
    have hm2 : (f2, b2) ∈ (s.init_bookmarks tc st).bookmarks.entries.filter
        (fun e => decide (e.2.info.name = b1.info.name)) := by
      have h := hone k2 o2 f2 b2 hg2 hr2 hl2
      have hin : (f2, b2) ∈ (s.init_bookmarks tc st).bookmarks.entries.filter
          (fun e => decide (e.1 = f2)) := by rw [h]; exact List.mem_singleton.2 rfl
      exact List.mem_filter.2 ⟨(List.mem_filter.1 hin).1, by simp [hname]⟩
    exact two_le_length_of_mem _ _ _ hm1 hm2 (fun h => hne (congrArg Prod.fst h))
  · intro k1 k2 o1 o2 f b1 b2 _ hg2 _ hr2 _ hl2
    exact hone k2 o2 f b2 hg2 hr2 hl2

/-- Instance of C16: the two records named "beacon" at different frequencies,
loaded into a map that already holds a bookmark. -/
theorem init_bookmarks_keyed_by_frequency_witness :
    (bookmarkOfRecord demoConv 0 (demoBookmarkRecord "beacon" "145800000")
        = some (145800000,
            { info := { name := "beacon", frequency := 145800000, color := "#ff0000" },
              entry := 0 }))
    ∧ (bookmarkOfRecord demoConv 1 (demoBookmarkRecord "beacon" "137100000")
        = some (137100000,
            { info := { name := "beacon", frequency := 137100000, color := "#ff0000" },
              entry := 1 }))
    ∧ LastAtFrequency demoConv
        [demoBookmarkRecord "beacon" "145800000", demoBookmarkRecord "beacon" "137100000"]
        0 145800000
    ∧ LastAtFrequency demoConv
        [demoBookmarkRecord "beacon" "145800000", demoBookmarkRecord "beacon" "137100000"]
        1 137100000
    ∧ (({} : Singleton).init_bookmarks demoConv
          { bookmarks := [demoBookmarkRecord "beacon" "145800000",
                          demoBookmarkRecord "beacon" "137100000"] }).bookmarks.find 137100000
        = some { info := { name := "beacon", frequency := 137100000, color := "#ff0000" },
                 entry := 1 } :=
  ⟨by decide, by decide,
    lastAt_of_lastRecordFor demoConv 145800000 _ 0
      { info := { name := "beacon", frequency := 145800000, color := "#ff0000" }, entry := 0 }
      (by decide),
    lastAt_of_lastRecordFor demoConv 137100000 _ 1
      { info := { name := "beacon", frequency := 137100000, color := "#ff0000" }, entry := 1 }
      (by decide),
    ((init_bookmarks_keyed_by_frequency demoConv {}
      { bookmarks := [demoBookmarkRecord "beacon" "145800000",
                      demoBookmarkRecord "beacon" "137100000"] }).2.2.1
      0 1 (demoBookmarkRecord "beacon" "145800000") (demoBookmarkRecord "beacon" "137100000")
      145800000 137100000
      { info := { name := "beacon", frequency := 145800000, color := "#ff0000" }, entry := 0 }
      { info := { name := "beacon", frequency := 137100000, color := "#ff0000" }, entry := 1 }
      rfl rfl (by decide) (by decide) rfl (by decide)
      (lastAt_of_lastRecordFor demoConv 145800000 _ 0
      { info := { name := "beacon", frequency := 145800000, color := "#ff0000" }, entry := 0 }
      (by decide))
      (lastAt_of_lastRecordFor demoConv 137100000 _ 1
      { info := { name := "beacon", frequency := 137100000, color := "#ff0000" }, entry := 1 }
      (by decide))).2.1⟩

/-- C22 (as stated, refuted): in a persisted list of 2147483648 malformed records
followed by one well-formed record, that record has index 2147483648, and the
bookmark `init_bookmarks` stores for it has `entry = -2147483648`, the index
converted to `int`, not the index. -/
theorem init_bookmarks_entry_is_int :
    (({} : Singleton).init_bookmarks demoConv
        { bookmarks := List.replicate 2147483648 (ObjectData.other 0)
            ++ [demoBookmarkRecord "beacon" "145800000"] }).bookmarks.find 145800000
      = some { info := { name := "beacon", frequency := 145800000, color := "#ff0000" },
               entry := -2147483648 }
    ∧ (List.replicate 2147483648 (ObjectData.other 0)
          ++ [demoBookmarkRecord "beacon" "145800000"]).get? 2147483648
        = some (demoBookmarkRecord "beacon" "145800000") :=
  ⟨init_bookmarks_after_padding demoConv 2147483648 (demoBookmarkRecord "beacon" "145800000")
      145800000 _ (by decide),
    get_after_padding 2147483648 _ _⟩

/-- C22 (amended): for every persisted "bookmarks" list, loaded by `init_bookmarks`
into an empty bookmark map, malformed records do not block the rest: the keys of
the map are exactly the frequencies scanned from the well-formed records (fields
"frequency", "name" and "color" present, frequency scanned, name not empty),
wherever the malformed records stand; the bookmark at a key is the one made of the
last well-formed record with that frequency, and its `entry` is the index of that
record converted to `int`, which is the index itself below 2147483648. A malformed
record contributes nothing. -/
theorem init_bookmarks_skips_malformed (tc : TextConv) (s : Singleton) (st : Store)
    (hempty : s.bookmarks = QMap.empty) :
    (∀ f : Int, f ∈ (s.init_bookmarks tc st).bookmarks.keys
        ↔ ∃ (k : Nat) (o : ObjectData) (bm : Bookmark),
            st.bookmarks.get? k = some o ∧ bookmarkOfRecord tc k o = some (f, bm))
    ∧ (∀ (f : Int) (bm : Bookmark), (s.init_bookmarks tc st).bookmarks.find f = some bm →
        ∃ (k : Nat) (o : ObjectData), st.bookmarks.get? k = some o
          ∧ bookmarkOfRecord tc k o = some (f, bm)
          ∧ (∀ (k2 : Nat) (o2 : ObjectData) (bm2 : Bookmark), k < k2 →
              st.bookmarks.get? k2 = some o2 → bookmarkOfRecord tc k2 o2 ≠ some (f, bm2))
          ∧ bm.entry = toInt32 k
          ∧ (k < 2147483648 → bm.entry = (k : Int)))
    ∧ (∀ (k : Nat) (o : ObjectData), (bookmarkOfRecord tc k o).isSome = true
        ↔ ∃ fv nv cv : FieldValue, o.getField "frequency" = some fv
            ∧ o.getField "name" = some nv ∧ o.getField "color" = some cv
            ∧ (tc.scanReal (fv.value tc)).isSome = true ∧ nv.value tc ≠ "")
    ∧ (∀ (k : Nat) (o : ObjectData) (f : Int) (bm : Bookmark),
        bookmarkOfRecord tc k o = some (f, bm) →
        ∃ fv : FieldValue, o.getField "frequency" = some fv
          ∧ tc.scanReal (fv.value tc) = some f) := by
  have hfound : ∀ (f : Int) (bm : Bookmark),
      (s.init_bookmarks tc st).bookmarks.find f = some bm →
      ∃ (k : Nat) (o : ObjectData), st.bookmarks.get? k = some o
        ∧ bookmarkOfRecord tc k o = some (f, bm)
        ∧ (∀ (k2 : Nat) (o2 : ObjectData) (bm2 : Bookmark), k < k2 →
            st.bookmarks.get? k2 = some o2 → bookmarkOfRecord tc k2 o2 ≠ some (f, bm2))
        ∧ bm.entry = toInt32 k
        ∧ (k < 2147483648 → bm.entry = (k : Int)) := by
    intro f bm hfind
    rw [init_bookmarks_find tc s st f hempty] at hfind
    cases hl : lastRecordFor tc f 0 st.bookmarks with
    | none => rw [hl] at hfind; cases hfind
    | some r =>
      rw [hl] at hfind
      simp only [Option.map_some', Option.some.injEq] at hfind
      obtain ⟨j, o, hk, hget, hrec, hlast⟩ :=
        lastRecordFor_some tc f st.bookmarks 0 r.1 r.2 (by rw [hl])
      rw [Nat.zero_add] at hk
      rw [hk, hfind] at hrec
      have hentry := (bookmarkOfRecord_entry tc j o f bm hrec).1
      refine ⟨j, o, hget, hrec, ?_, hentry, fun hlt => by rw [hentry, toInt32_of_lt j hlt]⟩
      intro k2 o2 bm2 hlt hget2
      have h2 := hlast k2 o2 bm2 hlt hget2
      rw [Nat.zero_add] at h2
      exact h2
  refine ⟨?_, hfound, fun k o => bookmarkOfRecord_isSome_iff tc k o,
    fun k o f bm h => bookmarkOfRecord_key tc k o f bm h⟩
  intro f
  constructor
  · intro hmem
    cases hfind : (s.init_bookmarks tc st).bookmarks.find f with
    | none => exact absurd hmem ((QMap.find_eq_none_iff _ _).1 hfind)
    | some bm =>
      obtain ⟨k, o, hget, hrec, _⟩ := hfound f bm hfind
      exact ⟨k, o, bm, hget, hrec⟩
  · rintro ⟨k, o, bm, hget, hrec⟩
    by_contra hno
    have hnone := (QMap.find_eq_none_iff _ _).2 hno
    rw [init_bookmarks_find tc s st f hempty] at hnone
    cases hl : lastRecordFor tc f 0 st.bookmarks with
    | some r => rw [hl] at hnone; cases hnone
    | none =>
      have h2 := lastRecordFor_none tc f st.bookmarks 0 hl k o bm hget
      rw [Nat.zero_add] at h2
      exact h2 hrec

/-- Instance of C22: a malformed record between two well-formed ones. -/
theorem init_bookmarks_skips_malformed_witness :
    ({} : Singleton).bookmarks = QMap.empty
    ∧ (({} : Singleton).init_bookmarks demoConv
          { bookmarks := [demoBookmarkRecord "weather" "137100000", ObjectData.other 7,
                          demoBookmarkRecord "beacon" "145800000"] }).bookmarks.find 145800000
        = some { info := { name := "beacon", frequency := 145800000, color := "#ff0000" },
                 entry := 2 }
    ∧ ∀ (k : Nat) (o : ObjectData), (bookmarkOfRecord demoConv k o).isSome = true
        ↔ ∃ fv nv cv : FieldValue, o.getField "frequency" = some fv
            ∧ o.getField "name" = some nv ∧ o.getField "color" = some cv
            ∧ (demoConv.scanReal (fv.value demoConv)).isSome = true
            ∧ nv.value demoConv ≠ "" :=
  ⟨rfl, by decide,
    (init_bookmarks_skips_malformed demoConv {}
      { bookmarks := [demoBookmarkRecord "weather" "137100000", ObjectData.other 7,
                      demoBookmarkRecord "beacon" "145800000"] } rfl).2.2.1⟩

/-! ## The default name of a saved profile -/

theorem onSaveProfileLoop_free (name : String) (sus : Singleton) (c : String) (i fuel : Nat)
    (hfree : sus.profiles.find c = none) :
    onSaveProfileLoop name (fuel + 1) sus c i = some (sus, c) := by
  unfold onSaveProfileLoop
  simp [getProfile_eq, hfree]

theorem onSaveProfileLoop_taken (name : String) (sus : Singleton) (c : String) (i fuel : Nat)
    (htaken : sus.profiles.find c ≠ none) :
    onSaveProfileLoop name (fuel + 1) sus c i
      = onSaveProfileLoop name fuel sus (profileCandidate name i) ((i + 1) % 4294967296) := by
  conv_lhs => unfold onSaveProfileLoop
  have hs : (sus.profiles.find c).isSome = true := by
    cases h : sus.profiles.find c with
    | none => exact absurd h htaken
    | some v => rfl
  simp [getProfile_eq, hs]

theorem onSaveProfileLoop_reaches (name : String) (sus : Singleton) (i0 : Nat)
    (hi0 : i0 < 4294967296) (hfree : sus.profiles.find (profileCandidate name i0) = none) :
    ∀ (d i : Nat) (c : String) (fuel : Nat), i + d = i0 → sus.profiles.find c ≠ none →
      (∀ j : Nat, i ≤ j → j < i0 → sus.profiles.find (profileCandidate name j) ≠ none) →
      d + 2 ≤ fuel →
      onSaveProfileLoop name fuel sus c i = some (sus, profileCandidate name i0) := by
  intro d
  induction d with
  | zero =>
    intro i c fuel hi hc _ hfuel
    obtain ⟨f, rfl⟩ : ∃ f, fuel = f + 2 := ⟨fuel - 2, by omega⟩
    have hi2 : i = i0 := by omega
    rw [onSaveProfileLoop_taken name sus c i (f + 1) hc, hi2]
    exact onSaveProfileLoop_free name sus _ _ f hfree
  | succ d ih =>
    intro i c fuel hi hc hall hfuel
    obtain ⟨f, rfl⟩ : ∃ f, fuel = f + 1 := ⟨fuel - 1, by omega⟩
    have hmod : (i + 1) % 4294967296 = i + 1 := Nat.mod_eq_of_lt (by omega)
    rw [onSaveProfileLoop_taken name sus c i f hc, hmod]
    exact ih (i + 1) (profileCandidate name i) f (by omega) (hall i (le_refl _) (by omega))
      (fun j hj hlt => hall j (by omega) hlt) (by omega)

theorem onSaveProfileLoop_result (name : String) :
    ∀ (fuel : Nat) (sus : Singleton) (c : String) (i : Nat) (r : Singleton × String),
      onSaveProfileLoop name fuel sus c i = some r →
      r.1 = sus ∧ sus.profiles.find r.2 = none := by
  intro fuel
  induction fuel with
  | zero => intro sus c i r h; simp [onSaveProfileLoop] at h
  | succ f ih =>
    intro sus c i r h
    cases hc : sus.profiles.find c with
    | none =>
      rw [onSaveProfileLoop_free name sus c i f hc] at h
      cases h
      exact ⟨rfl, hc⟩
    | some v =>
      rw [onSaveProfileLoop_taken name sus c i f (by rw [hc]; simp)] at h
      exact ih sus _ _ r h

theorem onSaveProfileLoop_never (name : String) (sus : Singleton)
    (hall : ∀ j : Nat, j < 4294967296 →
      sus.profiles.find (profileCandidate name j) ≠ none) :
    ∀ (fuel : Nat) (c : String) (i : Nat), sus.profiles.find c ≠ none → i < 4294967296 →
      onSaveProfileLoop name fuel sus c i = none := by
  intro fuel
  induction fuel with
  | zero => intro c i _ _; rfl
  | succ f ih =>
    intro c i hc hi
    rw [onSaveProfileLoop_taken name sus c i f hc]
    exact ih _ _ (hall i hi) (Nat.mod_lt _ (by decide))

theorem registerSourceConfig_find (s : Singleton) (c : NativeConfig) (k : String) :
    (s.registerSourceConfig c).profiles.find k
      = if c.label.getD "(Null profile)" = k then some c.config else s.profiles.find k := by
  have hname : (match c.label with | none => "(Null profile)" | some l => l)
      = c.label.getD "(Null profile)" := by
    cases c.label <;> rfl
  unfold Singleton.registerSourceConfig
  simp only [hname]
  by_cases hk : c.label.getD "(Null profile)" = k
  · rw [if_pos hk, ← hk]
    exact QMap.find_insert_self _ _ _
  · rw [if_neg hk]
    exact QMap.find_insert_ne _ _ _ _ (fun h => hk h.symm)

theorem registerSourceConfig_foldl_keeps (l : List NativeConfig) (s : Singleton) (k : String)
    (h : s.profiles.find k ≠ none) :
    (l.foldl Singleton.registerSourceConfig s).profiles.find k ≠ none := by
  induction l generalizing s with
  | nil => exact h
  | cons c t ih =>
    rw [List.foldl_cons]
    apply ih
    rw [registerSourceConfig_find]
    split
    · simp
    · exact h

theorem registerSourceConfig_foldl_mem (l : List NativeConfig) (s : Singleton) (k : String)
    (c : NativeConfig) (hc : c ∈ l) (hk : c.label = some k) :
    (l.foldl Singleton.registerSourceConfig s).profiles.find k ≠ none := by
  induction l generalizing s with
  | nil => simp at hc
  | cons x t ih =>
    rw [List.foldl_cons]
    rcases List.mem_cons.1 hc with hx | ht
    · subst hx
      apply registerSourceConfig_foldl_keeps
      rw [registerSourceConfig_find]
      simp [hk]
    · exact ih _ ht

theorem init_sources_profiles (s : Singleton) (nat : Native) (hflag : s.sources_initd = false)
    (hok : nat.init_sources = true) :
    (s.init_sources nat).state.profiles
      = (nat.source_config_walk.foldl Singleton.registerSourceConfig s).profiles := by
  unfold Singleton.init_sources
  simp only [hflag, hok, Bool.not_false, if_true]
  rw [registerSourceDevice_foldl]

theorem crowded_taken (n : Nat) (k : String)
    (hk : k = "My rtl" ∨ ∃ i : Nat, i < n ∧ k = profileCandidate "My rtl" i) :
    (({} : Singleton).init_sources { source_config_walk := crowdedWalk n }).state.profiles.find k
      ≠ none := by
  rw [init_sources_profiles _ _ rfl rfl]
  rcases hk with hk | ⟨i, hi, hk⟩
  · exact registerSourceConfig_foldl_mem _ _ k
      { label := some "My rtl", config := { label := "My rtl" } }
      (List.mem_cons_self _ _) (by rw [hk])
  · refine registerSourceConfig_foldl_mem _ _ k
      { label := some (profileCandidate "My rtl" i),
        config := { label := profileCandidate "My rtl" i } } ?_ (by rw [hk])
    unfold crowdedWalk
    refine List.mem_cons_of_mem _ (List.mem_map.2 ⟨i, List.mem_range.2 hi, rfl⟩)

/-- C25 (as stated, refuted): with the profile map that holds "My rtl" and
"My rtl (i)" for every `unsigned int` value `i`, the loop of `onSaveProfile` for the
label "rtl" never ends: the counter wraps from 4294967295 to 0 and every candidate
is taken again. -/
theorem onSaveProfile_loop_never_ends :
    ¬ ∃ fuel : Nat,
        (({ profile := { label := "rtl" } } : ConfigDialog).proposedProfileName demoCrowded
          fuel).isSome = true := by
  rintro ⟨fuel, h⟩
  have hnever := onSaveProfileLoop_never "My rtl" demoCrowded
    (fun j hj => crowded_taken 4294967296 _ (Or.inr ⟨j, hj, rfl⟩)) fuel "My rtl" 1
    (crowded_taken 4294967296 _ (Or.inl rfl)) (by decide)
  change (onSaveProfileLoop "My rtl" fuel demoCrowded "My rtl" 1).isSome = true at h
  rw [hnever] at h
  cases h

/-- C25 (amended): for every profile map and every current profile label `L`: when
no profile is labelled "My L" the loop of `onSaveProfile` ends at once and proposes
"My L"; when one is, and `i` is the least number from 1 on, below 4294967296, such
that no profile is labelled "My L (i)", the loop ends within `i + 1` rounds and
proposes "My L (i)". Whenever the loop ends, the name it proposes is not the label
of a profile, and the registry is as before. -/
theorem onSaveProfile_proposes_first_free (d : ConfigDialog) (sus : Singleton) :
    (sus.profiles.find ("My " ++ d.profile.label) = none →
        ∀ fuel : Nat, 1 ≤ fuel →
          d.proposedProfileName sus fuel = some (sus, "My " ++ d.profile.label))
    ∧ (∀ i : Nat, 1 ≤ i → i < 4294967296 →
        sus.profiles.find ("My " ++ d.profile.label) ≠ none →
        (∀ j : Nat, 1 ≤ j → j < i →
          sus.profiles.find (profileCandidate ("My " ++ d.profile.label) j) ≠ none) →
        sus.profiles.find (profileCandidate ("My " ++ d.profile.label) i) = none →
        ∀ fuel : Nat, i + 1 ≤ fuel →
          d.proposedProfileName sus fuel
            = some (sus, profileCandidate ("My " ++ d.profile.label) i))
    ∧ (∀ (fuel : Nat) (r : Singleton × String), d.proposedProfileName sus fuel = some r →
        r.1 = sus ∧ sus.profiles.find r.2 = none) := by
  refine ⟨?_, ?_, ?_⟩
  · intro hfree fuel hfuel
    obtain ⟨f, rfl⟩ : ∃ f, fuel = f + 1 := ⟨fuel - 1, by omega⟩
    exact onSaveProfileLoop_free _ sus _ 1 f hfree
  · intro i hi1 hi2 htaken hall hfree fuel hfuel
    exact onSaveProfileLoop_reaches _ sus i hi2 hfree (i - 1) 1 _ fuel (by omega) htaken
      (fun j hj hlt => hall j hj hlt) (by omega)
  · intro fuel r h
    exact onSaveProfileLoop_result _ fuel sus _ 1 r h

/-- Instance of C25: "My rtl" and "My rtl (1)" are taken, "My rtl (2)" is proposed. -/
theorem onSaveProfile_proposes_first_free_witness :
    demoTwoSaved.profiles.find "My rtl" ≠ none
    ∧ demoTwoSaved.profiles.find "My rtl (1)" ≠ none
    ∧ demoTwoSaved.profiles.find "My rtl (2)" = none
    ∧ ({ profile := { label := "rtl" } } : ConfigDialog).proposedProfileName demoTwoSaved 3
        = some (demoTwoSaved, "My rtl (2)") :=
  ⟨by decide, by decide, by decide,
    (onSaveProfile_proposes_first_free { profile := { label := "rtl" } } demoTwoSaved).2.1 2
      (by decide) (by decide) (by decide)
      (fun j h1 h2 => by
        have hj : j = 1 := by omega
        subst hj
        decide)
      (by decide) 3 (by decide)⟩

/-! ## Rounding to double and the selected sample rate -/

theorem log_eq_of_bounds (a : ℚ) (e : Int) (h1 : (2 : ℚ) ^ e ≤ a) (h2 : a < (2 : ℚ) ^ (e + 1)) :
    Int.log 2 a = e := by
  have hpos : 0 < a := lt_of_lt_of_le (by positivity) h1
  have hb : (1 : ℕ) < 2 := by norm_num
  have hle : e ≤ Int.log 2 a := (Int.zpow_le_iff_le_log hb hpos).1 (by exact_mod_cast h1)
  have hlt : Int.log 2 a < e + 1 := (Int.lt_zpow_iff_log_lt hb hpos).1 (by exact_mod_cast h2)
  omega

theorem roundBinary64_eval (q : ℚ) (e : Int) (h1 : (2 : ℚ) ^ e ≤ |q|)
    (h2 : |q| < (2 : ℚ) ^ (e + 1)) :
    roundBinary64 q
      = if q = 0 then QReal.finite 0
        else
          if (2 : ℚ) ^ (1024 : Int)
              ≤ nearestEven (|q| / (2 : ℚ) ^ (max e (-1022) - 52))
                * (2 : ℚ) ^ (max e (-1022) - 52) then
            QReal.infinity (decide (q < 0))
          else QReal.finite
            (if q < 0 then
              -(nearestEven (|q| / (2 : ℚ) ^ (max e (-1022) - 52))
                * (2 : ℚ) ^ (max e (-1022) - 52))
             else nearestEven (|q| / (2 : ℚ) ^ (max e (-1022) - 52))
                * (2 : ℚ) ^ (max e (-1022) - 52)) := by
  unfold roundBinary64
  rw [log_eq_of_bounds _ e h1 h2]

theorem nearestEven_intCast (z : Int) : nearestEven (z : ℚ) = z := by
  simp [nearestEven]

theorem roundBinary64_intCast (z : Int) (h : |z| < 9007199254740992) :
    roundBinary64 (z : ℚ) = QReal.finite (z : ℚ) := by
  by_cases hz : z = 0
  · subst hz
    simp [roundBinary64]
  · have hzq : (z : ℚ) ≠ 0 := by exact_mod_cast hz
    have ha : |(z : ℚ)| = ((|z| : Int) : ℚ) := by push_cast; rfl
    have ha1 : (1 : ℚ) ≤ |(z : ℚ)| := by
      rw [ha]
      have : (1 : Int) ≤ |z| := Int.one_le_abs hz
      exact_mod_cast this
    have ha2 : |(z : ℚ)| < (2 : ℚ) ^ (53 : Int) := by
      rw [ha]
      have h3 : ((|z| : Int) : ℚ) < (9007199254740992 : ℚ) := by exact_mod_cast h
      refine lt_of_lt_of_le h3 ?_
      norm_num
    have hpos : 0 < |(z : ℚ)| := lt_of_lt_of_le one_pos ha1
    have hb : (1 : ℕ) < 2 := by norm_num
    have he0 : 0 ≤ Int.log 2 |(z : ℚ)| :=
      (Int.zpow_le_iff_le_log hb hpos).1 (by simpa using ha1)
    have he53 : Int.log 2 |(z : ℚ)| < 53 :=
      (Int.lt_zpow_iff_log_lt hb hpos).1 (by exact_mod_cast ha2)
    obtain ⟨k, hk⟩ : ∃ k : ℕ, Int.log 2 |(z : ℚ)| - 52 = -(k : Int) :=
      ⟨(52 - Int.log 2 |(z : ℚ)|).toNat, by omega⟩
    have hmax : max (Int.log 2 |(z : ℚ)|) (-1022) = Int.log 2 |(z : ℚ)| := by
      apply max_eq_left; omega
    have hulp : (2 : ℚ) ^ (Int.log 2 |(z : ℚ)| - 52) = ((2 : ℚ) ^ k)⁻¹ := by
      rw [hk, zpow_neg, zpow_natCast]
    have hn : |(z : ℚ)| / ((2 : ℚ) ^ k)⁻¹ = ((|z| * 2 ^ k : Int) : ℚ) := by
      rw [ha, div_inv_eq_mul]
      push_cast
      rfl
    have h1024 : ¬ ((2 : ℚ) ^ (1024 : Int) ≤ |(z : ℚ)|) := by
      rw [not_le]
      refine lt_trans ha2 ?_
      norm_num
    have hback : ((|z| * 2 ^ k : Int) : ℚ) * ((2 : ℚ) ^ k)⁻¹ = |(z : ℚ)| := by
      rw [ha]
      push_cast
      field_simp
    unfold roundBinary64
    rw [if_neg hzq]
    simp only [hmax, hulp, hn, nearestEven_intCast, hback]
    rw [if_neg h1024]
    by_cases hneg : (z : ℚ) < 0
    · rw [if_pos hneg, abs_of_neg hneg, neg_neg]
    · rw [if_neg hneg, abs_of_nonneg (not_lt.1 hneg)]

theorem sampleRateDistance_intCast (rate : Nat) (z : Int) (hr : rate < 9007199254740992)
    (hz : |z - (rate : Int)| < 9007199254740992) :
    sampleRateDistance rate (QReal.finite (z : ℚ)) = QReal.finite |(z : ℚ) - (rate : ℚ)| := by
  have h1 : QReal.ofUInt rate = QReal.finite (rate : ℚ) := by
    have h := roundBinary64_intCast (rate : Int) (by rw [abs_of_nonneg (by omega)]; omega)
    simpa [QReal.ofUInt] using h
  have h2 : roundBinary64 ((z : ℚ) - (rate : ℚ)) = QReal.finite ((z : ℚ) - (rate : ℚ)) := by
    have h := roundBinary64_intCast (z - (rate : Int)) hz
    simpa using h
  simp only [sampleRateDistance, h1, QReal.sub, h2, QReal.fabs]

theorem QReal.lt_irreflexive (a : QReal) : QReal.lt a a = false := by
  cases a with
  | finite q => simp [QReal.lt]
  | infinity n => cases n <;> rfl
  | nan => rfl

theorem QReal.lt_transitive (a b c : QReal) (h1 : QReal.lt a b = true) (h2 : QReal.lt b c = true) :
    QReal.lt a c = true := by
  cases a <;> cases b <;> cases c <;> simp_all [QReal.lt]
  exact lt_trans h1 h2

theorem QReal.lt_cases (a b : QReal) :
    a = QReal.nan ∨ b = QReal.nan ∨ QReal.lt a b = true ∨ QReal.lt b a = true ∨ a = b := by
  cases a with
  | nan => exact Or.inl rfl
  | finite x =>
    cases b with
    | nan => exact Or.inr (Or.inl rfl)
    | finite y =>
      rcases lt_trichotomy x y with h | h | h
      · exact Or.inr (Or.inr (Or.inl (by simp [QReal.lt, h])))
      · exact Or.inr (Or.inr (Or.inr (Or.inr (by rw [h]))))
      · exact Or.inr (Or.inr (Or.inr (Or.inl (by simp [QReal.lt, h]))))
    | infinity n => cases n <;> simp [QReal.lt]
  | infinity m =>
    cases b with
    | nan => exact Or.inr (Or.inl rfl)
    | finite y => cases m <;> simp [QReal.lt]
    | infinity n => cases m <;> cases n <;> simp [QReal.lt]

theorem QReal.lt_fabs_infinity (a : QReal) :
    QReal.lt (QReal.fabs a) (QReal.infinity false) = (QReal.fabs a).isFinite := by
  cases a <;> rfl


theorem get_append_singleton {α : Type} (pre : List α) (v w : α) (j : Nat) :
    (pre ++ [v]).get? j = some w ↔ (pre.get? j = some w ∨ (j = pre.length ∧ w = v)) := by
  rw [List.get?_eq_getElem?, List.get?_eq_getElem?, List.getElem?_append]
  by_cases h : j < pre.length
  · simp [h]
    omega
  · simp only [h, if_false]
    by_cases h2 : j = pre.length
    · subst h2
      simp [eq_comm]
    · have h3 : pre[j]? = none := by
        simp
        omega
      obtain ⟨m, hm⟩ : ∃ m, j - pre.length = m + 1 := ⟨j - pre.length - 1, by omega⟩
      simp [hm, h2, h3]

theorem sampleRateDistance_cases (rate : Nat) (v : QReal) :
    (∃ q : ℚ, sampleRateDistance rate v = QReal.finite q)
    ∨ sampleRateDistance rate v = QReal.infinity false
    ∨ sampleRateDistance rate v = QReal.nan := by
  unfold sampleRateDistance
  cases QReal.sub v (QReal.ofUInt rate) with
  | finite q => exact Or.inl ⟨|q|, rfl⟩
  | infinity n => exact Or.inr (Or.inl rfl)
  | nan => exact Or.inr (Or.inr rfl)

theorem sampleRateDistance_lt_infinity (rate : Nat) (v : QReal) :
    QReal.lt (sampleRateDistance rate v) (QReal.infinity false)
      = (sampleRateDistance rate v).isFinite :=
  QReal.lt_fabs_infinity _

theorem sampleRateDistance_not_finite (rate : Nat) (v : QReal)
    (h : (sampleRateDistance rate v).isFinite = false) (c : QReal) :
    QReal.lt (sampleRateDistance rate v) c = false
    ∧ (c.isFinite = true → QReal.lt c (sampleRateDistance rate v) = true
        ∨ sampleRateDistance rate v = QReal.nan) := by
  rcases sampleRateDistance_cases rate v with ⟨q, hq⟩ | hq | hq
  · rw [hq] at h; cases h
  · rw [hq]
    constructor
    · cases c <;> rfl
    · intro hc
      cases c with
      | finite x => exact Or.inl rfl
      | infinity n => cases hc
      | nan => cases hc
  · rw [hq]
    exact ⟨rfl, fun _ => Or.inr rfl⟩

theorem sampleRateDistance_finite_of_lt (rate : Nat) (v : QReal) (c : QReal)
    (h : QReal.lt (sampleRateDistance rate v) c = true) :
    (sampleRateDistance rate v).isFinite = true := by
  rcases sampleRateDistance_cases rate v with ⟨q, hq⟩ | hq | hq
  · rw [hq]; rfl
  · rw [hq] at h; cases c <;> cases h
  · rw [hq] at h; cases h

theorem setSelectedSampleRateLoop_spec (rate : Nat) (suf : List QReal) :
    ∀ (pre : List QReal) (dist : QReal) (best : Int),
      ((best = -1 ∧ dist = QReal.infinity false
          ∧ ∀ v ∈ pre, (sampleRateDistance rate v).isFinite = false)
        ∨ ∃ (k : Nat) (vk : QReal), best = (k : Int) ∧ pre.get? k = some vk
            ∧ dist = sampleRateDistance rate vk
            ∧ (sampleRateDistance rate vk).isFinite = true
            ∧ (∀ (j : Nat) (v : QReal), pre.get? j = some v →
                QReal.lt (sampleRateDistance rate v) (sampleRateDistance rate vk) = false)
            ∧ (∀ (j : Nat) (v : QReal), j < k → pre.get? j = some v →
                QReal.lt (sampleRateDistance rate vk) (sampleRateDistance rate v) = true
                ∨ sampleRateDistance rate v = QReal.nan)) →
      ((setSelectedSampleRateLoop rate suf (pre.length : Int) dist best = best
          ∧ best = -1
          ∧ ∀ v ∈ pre ++ suf, (sampleRateDistance rate v).isFinite = false)
        ∨ ∃ (k : Nat) (vk : QReal),
            setSelectedSampleRateLoop rate suf (pre.length : Int) dist best = (k : Int)
            ∧ (pre ++ suf).get? k = some vk
            ∧ (sampleRateDistance rate vk).isFinite = true
            ∧ (∀ (j : Nat) (v : QReal), (pre ++ suf).get? j = some v →
                QReal.lt (sampleRateDistance rate v) (sampleRateDistance rate vk) = false)
            ∧ (∀ (j : Nat) (v : QReal), j < k → (pre ++ suf).get? j = some v →
                QReal.lt (sampleRateDistance rate vk) (sampleRateDistance rate v) = true
                ∨ sampleRateDistance rate v = QReal.nan)) := by
  induction suf with
  | nil =>
    intro pre dist best h
    rcases h with ⟨hb, _, hall⟩ | ⟨k, vk, hb, hget, _, hfin, hmin, hfirst⟩
    · left
      exact ⟨rfl, hb, by simpa using hall⟩
    · right
      refine ⟨k, vk, by simp [setSelectedSampleRateLoop, hb], by simpa using hget, hfin, ?_, ?_⟩
      · intro j v hj
        exact hmin j v (by simpa using hj)
      · intro j v hlt hj
        exact hfirst j v hlt (by simpa using hj)
  | cons x t ih =>
    intro pre dist best h
    have hlen : ((pre ++ [x]).length : Int) = (pre.length : Int) + 1 := by simp
    have happ : pre ++ x :: t = (pre ++ [x]) ++ t := by simp
    have hself : (pre ++ [x]).get? pre.length = some x :=
      (get_append_singleton pre x x pre.length).2 (Or.inr ⟨rfl, rfl⟩)
    rcases h with ⟨hb, hd, hall⟩ | ⟨k, vk, hb, hget, hd, hfin, hmin, hfirst⟩
    · subst hd
      unfold setSelectedSampleRateLoop
      rw [sampleRateDistance_lt_infinity]
      cases hx : (sampleRateDistance rate x).isFinite with
      | false =>
        simp only [Bool.false_eq_true, if_false]
        have hr := ih (pre ++ [x]) (QReal.infinity false) best
          (Or.inl ⟨hb, rfl, by
            intro v hv
            rcases List.mem_append.1 hv with h1 | h1
            · exact hall v h1
            · rw [List.mem_singleton.1 h1]; exact hx⟩)
        rw [hlen, ← happ] at hr
        exact hr
      | true =>
        simp only [if_true]
        have hr := ih (pre ++ [x]) (sampleRateDistance rate x) (pre.length : Int)
          (Or.inr ⟨pre.length, x, rfl, hself, rfl, hx, ?_, ?_⟩)
        · rw [hlen, ← happ] at hr
          rcases hr with ⟨_, hneg, _⟩ | hr
          · omega
          · exact Or.inr hr
        · intro j v hj
          rcases (get_append_singleton pre x v j).1 hj with h1 | ⟨_, h2⟩
          · exact (sampleRateDistance_not_finite rate v
              (hall v (List.get?_mem h1)) _).1
          · rw [h2]; exact QReal.lt_irreflexive _
        · intro j v hlt hj
          rcases (get_append_singleton pre x v j).1 hj with h1 | ⟨h2, _⟩
          · exact (sampleRateDistance_not_finite rate v
              (hall v (List.get?_mem h1)) _).2 hx
          · omega
    · subst hd
      right
      have hk : k < pre.length := (List.get?_eq_some.1 hget).1
      unfold setSelectedSampleRateLoop
      cases hlt : QReal.lt (sampleRateDistance rate x) (sampleRateDistance rate vk) with
      | true =>
        simp only [if_true]
        have hxfin := sampleRateDistance_finite_of_lt rate x _ hlt
        have hr := ih (pre ++ [x]) (sampleRateDistance rate x) (pre.length : Int)
          (Or.inr ⟨pre.length, x, rfl, hself, rfl, hxfin, ?_, ?_⟩)
        · rw [hlen, ← happ] at hr
          rcases hr with ⟨_, hneg, _⟩ | hr
          · omega
          · exact hr
        · intro j v hj
          rcases (get_append_singleton pre x v j).1 hj with h1 | ⟨_, h2⟩
          · cases hv : QReal.lt (sampleRateDistance rate v) (sampleRateDistance rate x) with
            | false => rfl
            | true =>
              have := QReal.lt_transitive _ _ _ hv hlt
              rw [hmin j v h1] at this
              cases this
          · rw [h2]; exact QReal.lt_irreflexive _
        · intro j v hj2 hj
          rcases (get_append_singleton pre x v j).1 hj with h1 | ⟨h2, _⟩
          · rcases QReal.lt_cases (sampleRateDistance rate v) (sampleRateDistance rate x)
              with hc | hc | hc | hc | hc
            · exact Or.inr hc
            · rw [hc] at hlt; cases hlt
            · have := QReal.lt_transitive _ _ _ hc hlt
              rw [hmin j v h1] at this
              cases this
            · exact Or.inl hc
            · rw [← hc, hmin j v h1] at hlt
              cases hlt
          · omega
      | false =>
        simp only [Bool.false_eq_true, if_false]
        have hr := ih (pre ++ [x]) (sampleRateDistance rate vk) best
          (Or.inr ⟨k, vk, hb, (get_append_singleton pre x vk k).2 (Or.inl hget), rfl, hfin,
            ?_, ?_⟩)
        · rw [hlen, ← happ] at hr
          rcases hr with ⟨_, hneg, _⟩ | hr
          · omega
          · exact hr
        · intro j v hj
          rcases (get_append_singleton pre x v j).1 hj with h1 | ⟨_, h2⟩
          · exact hmin j v h1
          · rw [h2]; exact hlt
        · intro j v hj2 hj
          rcases (get_append_singleton pre x v j).1 hj with h1 | ⟨h2, _⟩
          · exact hfirst j v hj2 h1
          · omega


theorem ofUInt_of_lt (rate : Nat) (hr : rate < 9007199254740992) :
    QReal.ofUInt rate = QReal.finite (rate : ℚ) := by
  have h := roundBinary64_intCast (rate : Int) (by rw [abs_of_nonneg (by omega)]; omega)
  simpa [QReal.ofUInt] using h

theorem sampleRateDistance_special (rate : Nat) :
    (sampleRateDistance rate QReal.nan).isFinite = false
    ∧ ∀ n : Bool, (sampleRateDistance rate (QReal.infinity n)).isFinite = false := by
  constructor
  · unfold sampleRateDistance
    cases QReal.ofUInt rate <;> rfl
  · intro n
    unfold sampleRateDistance
    cases QReal.ofUInt rate with
    | finite q => rfl
    | infinity m =>
      unfold QReal.sub
      by_cases h : n = m
      · simp [h, QReal.fabs, QReal.isFinite]
      · simp [h, QReal.fabs, QReal.isFinite]
    | nan => rfl

theorem setSelectedSampleRateLoop_cons_lt (rate : Nat) (value : QReal) (rest : List QReal)
    (i : Int) (dist : QReal) (bestIndex : Int)
    (h : QReal.lt (sampleRateDistance rate value) dist = true) :
    setSelectedSampleRateLoop rate (value :: rest) i dist bestIndex
      = setSelectedSampleRateLoop rate rest (i + 1) (sampleRateDistance rate value) i := by
  rw [setSelectedSampleRateLoop, if_pos h]

theorem setSelectedSampleRateLoop_cons_not_lt (rate : Nat) (value : QReal)
    (rest : List QReal) (i : Int) (dist : QReal) (bestIndex : Int)
    (h : QReal.lt (sampleRateDistance rate value) dist = false) :
    setSelectedSampleRateLoop rate (value :: rest) i dist bestIndex
      = setSelectedSampleRateLoop rate rest (i + 1) dist bestIndex := by
  rw [setSelectedSampleRateLoop, h]
  rfl

theorem setSelectedSampleRate_index (d : ConfigDialog) (rate : Nat) (best : Int)
    (h : setSelectedSampleRateLoop rate d.sampleRateComboData 0 (QReal.infinity false) (-1)
      = best) :
    (d.setSelectedSampleRate rate).sampleRateComboIndex
      = if best = -1 then d.sampleRateComboIndex else best := by
  unfold ConfigDialog.setSelectedSampleRate
  rw [h]
  by_cases hb : best = -1
  · simp [hb]
  · simp [hb]

theorem sampleRateDistance_finite (rate : Nat) (x y : ℚ)
    (hr : QReal.ofUInt rate = QReal.finite y) :
    sampleRateDistance rate (QReal.finite x) = QReal.fabs (roundBinary64 (x - y)) := by
  unfold sampleRateDistance
  rw [hr]
  rfl

theorem sampleRateDistance_not_finite_lt (rate : Nat) (v : QReal)
    (c : QReal)
    (h : (sampleRateDistance rate v).isFinite = false) :
    QReal.lt (sampleRateDistance rate v) c = false :=
  (sampleRateDistance_not_finite rate v h c).1

/-- C26 (as stated, refuted): the combo holds the doubles 1200000 and
1200000 + 2^-32 and the target is 6000000. The second is the nearer one, but both
differences round to the double 4800000, so the code finds no distance below the
first and selects index 0. And with a single item that is a NaN the list is not
empty, yet nothing is selected: the selection stays as it was. -/
theorem setSelectedSampleRate_rounded_distance :
    roundBinary64 1200000 = QReal.finite 1200000
    ∧ roundBinary64 (1200000 + 1 / 4294967296) = QReal.finite (1200000 + 1 / 4294967296)
    ∧ |(1200000 + 1 / 4294967296 : ℚ) - 6000000| < |(1200000 : ℚ) - 6000000|
    ∧ sampleRateDistance 6000000 (QReal.finite 1200000) = QReal.finite 4800000
    ∧ sampleRateDistance 6000000 (QReal.finite (1200000 + 1 / 4294967296))
        = QReal.finite 4800000
    ∧ (demoNearRates.setSelectedSampleRate 6000000).sampleRateComboIndex = 0
    ∧ demoNaNRates.sampleRateComboData ≠ []
    ∧ (demoNaNRates.setSelectedSampleRate 6000000).sampleRateComboIndex
        = demoNaNRates.sampleRateComboIndex := by
  have hr : QReal.ofUInt 6000000 = QReal.finite 6000000 := by
    have h := ofUInt_of_lt 6000000 (by norm_num)
    simpa using h
  have h0 : sampleRateDistance 6000000 (QReal.finite 1200000) = QReal.finite 4800000 := by
    rw [sampleRateDistance_finite 6000000 1200000 6000000 hr,
      roundBinary64_eval _ 22 (by norm_num [abs_of_neg]) (by norm_num [abs_of_neg])]
    norm_num [abs_of_neg, nearestEven, QReal.fabs]
  have h1 : sampleRateDistance 6000000 (QReal.finite (1200000 + 1 / 4294967296))
      = QReal.finite 4800000 := by
    rw [sampleRateDistance_finite 6000000 _ 6000000 hr,
      roundBinary64_eval _ 22 (by norm_num [abs_of_neg]) (by norm_num [abs_of_neg])]
    norm_num [abs_of_neg, nearestEven, QReal.fabs]
  have hloop : setSelectedSampleRateLoop 6000000 demoNearRates.sampleRateComboData 0
      (QReal.infinity false) (-1) = 0 := by
    show setSelectedSampleRateLoop 6000000
      [QReal.finite 1200000, QReal.finite (1200000 + 1 / 4294967296)] 0
      (QReal.infinity false) (-1) = 0
    rw [setSelectedSampleRateLoop_cons_lt _ _ _ _ _ _ (by rw [h0]; rfl),
      setSelectedSampleRateLoop_cons_not_lt _ _ _ _ _ _
        (by rw [h0, h1]; exact QReal.lt_irreflexive _)]
    rfl
  have hnan : setSelectedSampleRateLoop 6000000 demoNaNRates.sampleRateComboData 0
      (QReal.infinity false) (-1) = -1 := by
    show setSelectedSampleRateLoop 6000000 [QReal.nan] 0 (QReal.infinity false) (-1) = -1
    rw [setSelectedSampleRateLoop_cons_not_lt _ _ _ _ _ _
      (sampleRateDistance_not_finite_lt _ _ _ (sampleRateDistance_special 6000000).1)]
    rfl
  refine ⟨?_, ?_, ?_, h0, h1, ?_, ?_, ?_⟩
  · rw [roundBinary64_eval _ 20 (by norm_num [abs_of_pos]) (by norm_num [abs_of_pos])]
    norm_num [abs_of_pos, nearestEven]
  · rw [roundBinary64_eval _ 20 (by norm_num [abs_of_pos]) (by norm_num [abs_of_pos])]
    norm_num [abs_of_pos, nearestEven]
  · norm_num [abs_of_neg]
  · rw [setSelectedSampleRate_index _ _ _ hloop]
    rfl
  · intro h
    cases h
  · rw [setSelectedSampleRate_index _ _ _ hnan]
    rfl

/-- C26 (amended): for every list of items in the sample-rate combo and every target
rate `r`, the distance that `setSelectedSampleRate` compares is `fabs(value - r)`
computed in `double`. When some item has a finite computed distance, the index
selected is the lowest one at which the computed distance is least: no item has a
smaller one, and every item at a lower index has a greater one or a NaN. That index
minimises `|rate - r|` itself, the lowest such index, whenever the list is not empty
and the computed distances are the exact ones, as they are for whole-number rates
with `r` and `|rate - r|` below 2^53. When no item has a finite computed distance,
as with an empty list or with items that are NaN or infinite, the selection of the
combo is left as it is. In every case `setValue(r)` is called on the spin box,
with `r` converted to `double`, which is `r` itself below 2^53. -/
theorem setSelectedSampleRate_nearest (d : ConfigDialog) (rate : Nat) :
    (d.setSelectedSampleRate rate).sampleRateSpinBoxCalls
        = d.sampleRateSpinBoxCalls ++ [QReal.ofUInt rate]
    ∧ ((∀ v ∈ d.sampleRateComboData, (sampleRateDistance rate v).isFinite = false) →
        (d.setSelectedSampleRate rate).sampleRateComboIndex = d.sampleRateComboIndex)
    ∧ ((∃ v ∈ d.sampleRateComboData, (sampleRateDistance rate v).isFinite = true) →
        ∃ (k : Nat) (vk : QReal),
          (d.setSelectedSampleRate rate).sampleRateComboIndex = (k : Int)
          ∧ d.sampleRateComboData.get? k = some vk
          ∧ (sampleRateDistance rate vk).isFinite = true
          ∧ (∀ (j : Nat) (v : QReal), d.sampleRateComboData.get? j = some v →
              QReal.lt (sampleRateDistance rate v) (sampleRateDistance rate vk) = false)
          ∧ (∀ (j : Nat) (v : QReal), j < k → d.sampleRateComboData.get? j = some v →
              QReal.lt (sampleRateDistance rate vk) (sampleRateDistance rate v) = true
              ∨ sampleRateDistance rate v = QReal.nan))
    ∧ (d.sampleRateComboData ≠ [] →
        (∀ v ∈ d.sampleRateComboData, ∃ q : ℚ, v = QReal.finite q
          ∧ sampleRateDistance rate v = QReal.finite |q - (rate : ℚ)|) →
        ∃ (k : Nat) (qk : ℚ),
          (d.setSelectedSampleRate rate).sampleRateComboIndex = (k : Int)
          ∧ d.sampleRateComboData.get? k = some (QReal.finite qk)
          ∧ (∀ (j : Nat) (q : ℚ), d.sampleRateComboData.get? j = some (QReal.finite q) →
              |qk - (rate : ℚ)| ≤ |q - (rate : ℚ)|)
          ∧ (∀ (j : Nat) (q : ℚ), j < k →
              d.sampleRateComboData.get? j = some (QReal.finite q) →
              |qk - (rate : ℚ)| < |q - (rate : ℚ)|))
    ∧ (sampleRateDistance rate QReal.nan).isFinite = false
    ∧ (∀ n : Bool, (sampleRateDistance rate (QReal.infinity n)).isFinite = false)
    ∧ (∀ z : Int, rate < 9007199254740992 → |z - (rate : Int)| < 9007199254740992 →
        sampleRateDistance rate (QReal.finite (z : ℚ))
          = QReal.finite |(z : ℚ) - (rate : ℚ)|)
    ∧ (rate < 9007199254740992 → QReal.ofUInt rate = QReal.finite (rate : ℚ)) := by
  have hloop := setSelectedSampleRateLoop_spec rate d.sampleRateComboData []
    (QReal.infinity false) (-1) (Or.inl ⟨rfl, rfl, by simp⟩)
  simp only [List.nil_append, List.length_nil, Nat.cast_zero] at hloop
  have hsel : (∃ v ∈ d.sampleRateComboData, (sampleRateDistance rate v).isFinite = true) →
      ∃ (k : Nat) (vk : QReal),
        (d.setSelectedSampleRate rate).sampleRateComboIndex = (k : Int)
        ∧ d.sampleRateComboData.get? k = some vk
        ∧ (sampleRateDistance rate vk).isFinite = true
        ∧ (∀ (j : Nat) (v : QReal), d.sampleRateComboData.get? j = some v →
            QReal.lt (sampleRateDistance rate v) (sampleRateDistance rate vk) = false)
        ∧ (∀ (j : Nat) (v : QReal), j < k → d.sampleRateComboData.get? j = some v →
            QReal.lt (sampleRateDistance rate vk) (sampleRateDistance rate v) = true
            ∨ sampleRateDistance rate v = QReal.nan) := by
    rintro ⟨v, hv, hfin⟩
    rcases hloop with ⟨_, _, hall⟩ | ⟨k, vk, hbest, hget, hk, hmin, hfirst⟩
    · rw [hall v hv] at hfin; cases hfin
    · refine ⟨k, vk, ?_, hget, hk, hmin, hfirst⟩
      unfold ConfigDialog.setSelectedSampleRate
      have hne : ((k : Int) != -1) = true := by simp
      simp only [hbest, hne, if_true]
  refine ⟨?_, ?_, hsel, ?_, (sampleRateDistance_special rate).1,
    (sampleRateDistance_special rate).2,
    fun z hr hz => sampleRateDistance_intCast rate z hr hz,
    fun hr => ofUInt_of_lt rate hr⟩
  · unfold ConfigDialog.setSelectedSampleRate
    by_cases hb :
        (setSelectedSampleRateLoop rate d.sampleRateComboData 0 (QReal.infinity false) (-1)
          != -1) = true
    · simp only [hb, if_true]
    · simp only [hb, if_false]
      rfl
  · intro hall
    rcases hloop with ⟨hbest, hneg, _⟩ | ⟨k, vk, _, hget, hk, _, _⟩
    · unfold ConfigDialog.setSelectedSampleRate
      rw [hbest]
      simp
    · rw [hall vk (List.get?_mem hget)] at hk; cases hk
  · intro hne hexact
    obtain ⟨x, hx⟩ : ∃ x, x ∈ d.sampleRateComboData := by
      cases hl : d.sampleRateComboData with
      | nil => exact absurd hl hne
      | cons a t => exact ⟨a, by simp⟩
    obtain ⟨qx, hqx, hdx⟩ := hexact x hx
    obtain ⟨k, vk, hidx, hget, _, hmin, hfirst⟩ := hsel ⟨x, hx, by rw [hdx]; rfl⟩
    obtain ⟨qk, hqk, hdk⟩ := hexact vk (List.get?_mem hget)
    subst hqk
    refine ⟨k, qk, hidx, hget, ?_, ?_⟩
    · intro j q hj
      obtain ⟨q2, hq2, hd2⟩ := hexact _ (List.get?_mem hj)
      cases hq2
      have h := hmin j _ hj
      rw [hd2, hdk] at h
      simpa [QReal.lt] using h
    · intro j q hlt hj
      obtain ⟨q2, hq2, hd2⟩ := hexact _ (List.get?_mem hj)
      cases hq2
      rcases hfirst j _ hlt hj with h | h
      · rw [hd2, hdk] at h
        simpa [QReal.lt] using h
      · rw [hd2] at h; cases h

/-- Instance of C26: of the rates 2400000 and 1600000, both 400000 away from the
target 2000000, the one at the lower index is selected. -/
theorem setSelectedSampleRate_nearest_witness :
    demoRates.sampleRateComboData ≠ []
    ∧ (∀ v ∈ demoRates.sampleRateComboData, ∃ q : ℚ, v = QReal.finite q
        ∧ sampleRateDistance 2000000 v = QReal.finite |q - ((2000000 : Nat) : ℚ)|)
    ∧ (∃ (k : Nat) (qk : ℚ),
        (demoRates.setSelectedSampleRate 2000000).sampleRateComboIndex = (k : Int)
        ∧ demoRates.sampleRateComboData.get? k = some (QReal.finite qk)
        ∧ (∀ (j : Nat) (q : ℚ), demoRates.sampleRateComboData.get? j = some (QReal.finite q) →
            |qk - ((2000000 : Nat) : ℚ)| ≤ |q - ((2000000 : Nat) : ℚ)|)
        ∧ (∀ (j : Nat) (q : ℚ), j < k →
            demoRates.sampleRateComboData.get? j = some (QReal.finite q) →
            |qk - ((2000000 : Nat) : ℚ)| < |q - ((2000000 : Nat) : ℚ)|))
    ∧ (demoRates.setSelectedSampleRate 2000000).sampleRateComboIndex = 1 := by
  have e0 : sampleRateDistance 2000000 (QReal.finite ((1000000 : Int) : ℚ))
      = QReal.finite |((1000000 : Int) : ℚ) - ((2000000 : Nat) : ℚ)| :=
    sampleRateDistance_intCast 2000000 1000000 (by norm_num) (by norm_num)
  have e1 : sampleRateDistance 2000000 (QReal.finite ((2400000 : Int) : ℚ))
      = QReal.finite |((2400000 : Int) : ℚ) - ((2000000 : Nat) : ℚ)| :=
    sampleRateDistance_intCast 2000000 2400000 (by norm_num) (by norm_num)
  have e2 : sampleRateDistance 2000000 (QReal.finite ((1600000 : Int) : ℚ))
      = QReal.finite |((1600000 : Int) : ℚ) - ((2000000 : Nat) : ℚ)| :=
    sampleRateDistance_intCast 2000000 1600000 (by norm_num) (by norm_num)
  rw [Int.cast_ofNat] at e0 e1 e2
  have hexact : ∀ v ∈ demoRates.sampleRateComboData, ∃ q : ℚ, v = QReal.finite q
      ∧ sampleRateDistance 2000000 v = QReal.finite |q - ((2000000 : Nat) : ℚ)| := by
    intro v hv
    have hv2 : v ∈ [QReal.finite 1000000, QReal.finite 2400000, QReal.finite 1600000] := hv
    rcases List.mem_cons.1 hv2 with h | hv3
    · exact ⟨1000000, h, by rw [h]; exact e0⟩
    · rcases List.mem_cons.1 hv3 with h | hv4
      · exact ⟨2400000, h, by rw [h]; exact e1⟩
      · rcases List.mem_cons.1 hv4 with h | hv5
        · exact ⟨1600000, h, by rw [h]; exact e2⟩
        · cases hv5
  have h0 : sampleRateDistance 2000000 (QReal.finite 1000000) = QReal.finite 1000000 := by
    rw [e0]; norm_num [abs_of_neg]
  have h1 : sampleRateDistance 2000000 (QReal.finite 2400000) = QReal.finite 400000 := by
    rw [e1]; norm_num [abs_of_pos]
  have h2 : sampleRateDistance 2000000 (QReal.finite 1600000) = QReal.finite 400000 := by
    rw [e2]; norm_num [abs_of_neg]
  have hlt : QReal.lt (QReal.finite 400000) (QReal.finite 1000000) = true := by
    show decide ((400000 : ℚ) < 1000000) = true
    exact decide_eq_true (by norm_num)
  have hloop : setSelectedSampleRateLoop 2000000 demoRates.sampleRateComboData 0
      (QReal.infinity false) (-1) = 1 := by
    show setSelectedSampleRateLoop 2000000
      [QReal.finite 1000000, QReal.finite 2400000, QReal.finite 1600000] 0
      (QReal.infinity false) (-1) = 1
    rw [setSelectedSampleRateLoop_cons_lt _ _ _ _ _ _ (by rw [h0]; rfl),
      setSelectedSampleRateLoop_cons_lt _ _ _ _ _ _ (by rw [h0, h1]; exact hlt),
      setSelectedSampleRateLoop_cons_not_lt _ _ _ _ _ _
        (by rw [h1, h2]; exact QReal.lt_irreflexive _)]
    rfl
  refine ⟨?_, hexact,
    (setSelectedSampleRate_nearest demoRates 2000000).2.2.2.1 ?_ hexact, ?_⟩
  · intro h
    cases h
  · intro h
    cases h
  · rw [setSelectedSampleRate_index _ _ _ hloop]
    rfl

end Suscan
